import Mathlib

/-!
# CD+G raster decoder (`src/cdg/libCDG.h`, `src/cdg/cdgimageframe.cpp`)

A shallow embedding of the packet payload decoders and of `CdgImageFrame`, the class that
folds CD+G subcode packets into a 300x216 indexed raster.

Conventions of the embedding:

* a `char` of the packet is its unsigned byte value; every use in the source goes through a
  mask of low bits (or, for `instruction`, an equality test with `1`), so sign extension of a
  negative `char` never shows;
* the `char` fields of the payload object `CdgMemoryPresetData`, which `cmdMemoryPreset`
  compares without a mask, hold signed values (`char` is signed, -128..127): a byte
  `0x80 .. 0xFF` put there directly is a negative number. The decoder stores 0..15;
* image memory (`m_image.bits()`) is a map from byte offset to byte value. The image is
  `Format_Indexed8`, so `m_bytesPerPixel = 1`, a scan line is 300 bytes and the pixel of row
  `r`, column `x` is the byte at offset `300 * r + x`; offsets `0 .. 64799` are the image;
* `memcpy` reads its source bytes as they were before the call (the source calls it on
  overlapping ranges of the same line when scrolling).
-/

namespace cdg

/-! ## Memory primitives -/

/-- Byte-addressed memory: offset to byte value. -/
abbrev Mem := Nat → Nat

/-- The C call `memset(base + dst, c, n)`. -/
def memset (mem : Mem) (dst c n : Nat) : Mem :=
  fun a => if dst ≤ a ∧ a < dst + n then c else mem a

/-- The C call `memcpy(base + dst, src, n)`, where `src k` is the `k`-th source byte as it was
before the call. -/
def memcpy (mem : Mem) (dst : Nat) (src : Mem) (n : Nat) : Mem :=
  fun a => if dst ≤ a ∧ a < dst + n then src (a - dst) else mem a

/-- The store `*(base + a) = v`. -/
def poke (mem : Mem) (a v : Nat) : Mem :=
  fun b => if b = a then v else mem b

/-- The loop `for (auto i = 0; i < n; i++) body(i)` threaded through a state. -/
def forLoop {σ : Type} (n : Nat) (body : Nat → σ → σ) (s : σ) : σ :=
  match n with
  | 0 => s
  | k + 1 => body k (forLoop k body s)

/-- The library function `std::clamp(v, lo, hi)`. -/
def clamp (v lo hi : Nat) : Nat :=
  if v < lo then lo else if hi < v then hi else v

/-! ## libCDG.h -/

/-- Width of `FRAME_DIM_FULL`. -/
def FRAME_FULL_WIDTH : Nat := 300
/-- Height of `FRAME_DIM_FULL`. -/
def FRAME_FULL_HEIGHT : Nat := 216
/-- Width of `FRAME_DIM_CROPPED`. -/
def FRAME_CROPPED_WIDTH : Nat := 288
/-- Height of `FRAME_DIM_CROPPED`. -/
def FRAME_CROPPED_HEIGHT : Nat := 192

inductive TileBlockType where
  | TileBlockNormal
  | TileBlockXOR
  deriving DecidableEq, Repr

inductive ScrollType where
  | ScrollCopy
  | ScrollPreset
  deriving DecidableEq, Repr

inductive CdgColorTables where
  | LowColors
  | HighColors
  deriving DecidableEq, Repr

def CmdMemoryPreset : Nat := 1
def CmdBorderPreset : Nat := 2
def CmdTileBlock : Nat := 6
def CmdScrollPreset : Nat := 20
def CmdScrollCopy : Nat := 24
def CmdDefineTrans : Nat := 28
def CmdColorsLow : Nat := 30
def CmdColorsHigh : Nat := 31
def CmdTileBlockXOR : Nat := 38

/-- The struct `CDG_SubCode`; the parity fields are never read. `data k` is `data[k]`. -/
structure CDG_SubCode where
  command : Nat
  instruction : Nat
  data : Nat → Nat

/-- A `QColor` built from three channels. -/
structure QColor where
  red : Nat
  green : Nat
  blue : Nat
  deriving DecidableEq, Repr

/-- The Qt call `QColor::rgb()`: the opaque `QRgb` value `0xffRRGGBB`. -/
def QColor.rgb (c : QColor) : Nat :=
  0xFF000000 ||| ((c.red &&& 0xFF) <<< 16) ||| ((c.green &&& 0xFF) <<< 8) ||| (c.blue &&& 0xFF)

/-- One iteration of the constructor loop of `CdgColorsData`. -/
def CdgColorsData.decode (lowbyte highbyte : Nat) : QColor :=
  let red := 0
  let red := if lowbyte &&& 0x20 ≠ 0 then red + 8 else red
  let red := if lowbyte &&& 0x10 ≠ 0 then red + 4 else red
  let red := if lowbyte &&& 0x08 ≠ 0 then red + 2 else red
  let red := if lowbyte &&& 0x04 ≠ 0 then red + 1 else red
  let green := 0
  let green := if lowbyte &&& 0x02 ≠ 0 then green + 8 else green
  let green := if lowbyte &&& 0x01 ≠ 0 then green + 4 else green
  let green := if highbyte &&& 0x20 ≠ 0 then green + 2 else green
  let green := if highbyte &&& 0x10 ≠ 0 then green + 1 else green
  let blue := 0
  let blue := if highbyte &&& 0x08 ≠ 0 then blue + 8 else blue
  let blue := if highbyte &&& 0x04 ≠ 0 then blue + 4 else blue
  let blue := if highbyte &&& 0x02 ≠ 0 then blue + 2 else blue
  let blue := if highbyte &&& 0x01 ≠ 0 then blue + 1 else blue
  ⟨red * 17, green * 17, blue * 17⟩

/-- The struct `CdgColorsData`: `colors[k]` is decoded from `data[2k]`, `data[2k+1]`. -/
structure CdgColorsData where
  colors : List QColor

def CdgColorsData.ofData (data : Nat → Nat) : CdgColorsData :=
  ⟨(List.range 8).map (fun k => CdgColorsData.decode (data (2 * k)) (data (2 * k + 1)))⟩

/-- The value of a `char` (signed, -128..127) whose byte is `b`. -/
def charOfByte (b : Nat) : Int :=
  if b % 256 < 128 then (b % 256 : Nat) else ((b % 256 : Nat) : Int) - 256

/-- The struct `CdgMemoryPresetData`; both fields are `char`, held as signed values. -/
structure CdgMemoryPresetData where
  color : Int
  repeat_ : Int

def CdgMemoryPresetData.ofData (data : Nat → Nat) : CdgMemoryPresetData :=
  { color := ((clamp (data 0 &&& 0x0F) 0 15 : Nat) : Int)
    repeat_ := ((data 1 &&& 0x0F : Nat) : Int) }

structure CdgBorderPresetData where
  color : Nat

def CdgBorderPresetData.ofData (data : Nat → Nat) : CdgBorderPresetData :=
  { color := clamp (data 0 &&& 0x0F) 0 15 }

structure CdgTileBlockData where
  color0 : Nat
  color1 : Nat
  row : Nat
  column : Nat
  top : Nat
  left : Nat
  tilePixels : Nat → Nat

def CdgTileBlockData.ofData (data : Nat → Nat) : CdgTileBlockData :=
  let row := data 2 &&& 0x1F
  let column := data 3 &&& 0x3F
  { color0 := data 0 &&& 0x0F
    color1 := data 1 &&& 0x0F
    row := row
    column := column
    tilePixels := fun y => data (4 + y)
    top := row * 12
    left := column * 6 }

structure CdgScrollCmdData where
  color : Nat
  hScroll : Nat
  hSCmd : Nat
  hSOffset : Nat
  vScroll : Nat
  vSCmd : Nat
  vSOffset : Nat

def CdgScrollCmdData.ofData (data : Nat → Nat) : CdgScrollCmdData :=
  let hScroll := data 1 &&& 0x3F
  let vScroll := data 2 &&& 0x3F
  { color := data 0 &&& 0x0F
    hScroll := hScroll
    vScroll := vScroll
    hSCmd := (hScroll &&& 0x30) >>> 4
    hSOffset := hScroll &&& 0x07
    vSCmd := (vScroll &&& 0x30) >>> 4
    vSOffset := vScroll &&& 0x0F }

/-! ## cdgimageframe.cpp -/

/-- The members of `CdgImageFrame`: `bits` and `colorTable` are the pixel memory and the colour
table of `m_image`. -/
structure CdgImageFrame where
  bits : Mem
  colorTable : List Nat
  m_curHOffset : Nat
  m_curVOffset : Nat
  m_lastCmdWasMempreset : Bool

/-- Value of `m_bytesPerPixel` (8 bits per pixel, divided by 8). -/
def m_bytesPerPixel : Nat := 8 / 8
/-- Value of `m_borderLRBytes`. -/
def m_borderLRBytes : Nat := m_bytesPerPixel * 6
/-- Value of `m_borderRBytesOffset`. -/
def m_borderRBytesOffset : Nat := 294 * m_bytesPerPixel
/-- Value of `m_image.bytesPerLine()`: 300 one-byte pixels, already a multiple of 4. -/
def bytesPerLine : Nat := 300

/-- Offset of `m_image.scanLine(line)` from `m_image.bits()`. -/
def scanLine (line : Nat) : Nat := line * bytesPerLine

/-- The pixel of row `r`, column `x` of the full 300x216 canvas. -/
def CdgImageFrame.pixel (f : CdgImageFrame) (r x : Nat) : Nat :=
  f.bits (scanLine r + x)

/-- The Qt call `QImage::fill(pixel)` on the 300x216 indexed image. -/
def imageFill (mem : Mem) (c : Nat) : Mem :=
  memset mem 0 c (bytesPerLine * FRAME_FULL_HEIGHT)

/-- The Qt call `QImage::setColor(i, c)`: grows the table with zeros when `i` is past its end. -/
def setColor (table : List Nat) (i c : Nat) : List Nat :=
  (table ++ List.replicate (i + 1 - table.length) 0).set i c

/-- The byte that `QImage::fill(uint)` stores in the 8-bit image when called with a `char`:
the value converted to `uint` and masked with `0xff`. -/
def fillByte (c : Int) : Nat := (c % 256).toNat

def cmdMemoryPreset (f : CdgImageFrame) (memoryPreset : CdgMemoryPresetData) :
    Bool × CdgImageFrame :=
  if memoryPreset.color ≥ 16 then (false, f)
  else if f.m_lastCmdWasMempreset ∧ memoryPreset.repeat_ ≠ 0 then (false, f)
  else (true, { f with bits := imageFill f.bits (fillByte memoryPreset.color) })

/-- Body of the loop of `cmdBorderPreset`. -/
def borderLine (color : Nat) (line : Nat) (mem : Mem) : Mem :=
  if line < 12 ∨ line > 202 then
    memset mem (scanLine line) color bytesPerLine
  else
    memset (memset mem (scanLine line) color m_borderLRBytes)
      (scanLine line + m_borderRBytesOffset) color m_borderLRBytes

def cmdBorderPreset (f : CdgImageFrame) (borderPreset : CdgBorderPresetData) : CdgImageFrame :=
  if borderPreset.color ≥ 16 then f
  else { f with bits := forLoop 216 (borderLine borderPreset.color) f.bits }

/-- One step of the `for_each` of `cmdColors`; the state is `(changed, curColor, table)`. -/
def cmdColorsStep (st : Bool × Nat × List Nat) (color : QColor) : Bool × Nat × List Nat :=
  let changed := st.1
  let curColor := st.2.1
  let table := st.2.2
  if table.getD curColor 0 ≠ color.rgb then
    (true, curColor + 1, setColor table curColor color.rgb)
  else
    (changed, curColor + 1, table)

def cmdColors (f : CdgImageFrame) (data : CdgColorsData) (table : CdgColorTables) :
    Bool × CdgImageFrame :=
  let curColor := if table = CdgColorTables.HighColors then 8 else 0
  let r := data.colors.foldl cmdColorsStep (false, curColor, f.colorTable)
  (r.1, { f with colorTable := r.2.2 })

/-- The constant array `MASKS` of `cmdTileBlock`. -/
def MASKS : List Nat := [0x20, 0x10, 0x08, 0x04, 0x02, 0x01]

/-- The selected colour `(rowData & MASKS[k]) ? color1 : color0`. -/
def tileColor (t : CdgTileBlockData) (rowData k : Nat) : Nat :=
  if rowData &&& MASKS.getD k 0 ≠ 0 then t.color1 else t.color0

/-- Body of the loop of `cmdTileBlock`: the six stores of scan line `y + top`. -/
def tileLine (t : CdgTileBlockData) (type : TileBlockType) (y : Nat) (mem : Mem) : Mem :=
  let ptr := scanLine (y + t.top)
  let rowData := t.tilePixels y
  match type with
  | TileBlockType.TileBlockXOR =>
    let mem := poke mem (ptr + t.left * m_bytesPerPixel)
      (mem (ptr + t.left * m_bytesPerPixel) ^^^ tileColor t rowData 0)
    let mem := poke mem (ptr + (t.left + 1) * m_bytesPerPixel)
      (mem (ptr + (t.left + 1) * m_bytesPerPixel) ^^^ tileColor t rowData 1)
    let mem := poke mem (ptr + (t.left + 2) * m_bytesPerPixel)
      (mem (ptr + (t.left + 2) * m_bytesPerPixel) ^^^ tileColor t rowData 2)
    let mem := poke mem (ptr + (t.left + 3) * m_bytesPerPixel)
      (mem (ptr + (t.left + 3) * m_bytesPerPixel) ^^^ tileColor t rowData 3)
    let mem := poke mem (ptr + (t.left + 4) * m_bytesPerPixel)
      (mem (ptr + (t.left + 4) * m_bytesPerPixel) ^^^ tileColor t rowData 4)
    poke mem (ptr + (t.left + 5) * m_bytesPerPixel)
      (mem (ptr + (t.left + 5) * m_bytesPerPixel) ^^^ tileColor t rowData 5)
  | TileBlockType.TileBlockNormal =>
    let mem := poke mem (ptr + t.left * m_bytesPerPixel) (tileColor t rowData 0)
    let mem := poke mem (ptr + (t.left + 1) * m_bytesPerPixel) (tileColor t rowData 1)
    let mem := poke mem (ptr + (t.left + 2) * m_bytesPerPixel) (tileColor t rowData 2)
    let mem := poke mem (ptr + (t.left + 3) * m_bytesPerPixel) (tileColor t rowData 3)
    let mem := poke mem (ptr + (t.left + 4) * m_bytesPerPixel) (tileColor t rowData 4)
    poke mem (ptr + (t.left + 5) * m_bytesPerPixel) (tileColor t rowData 5)

def cmdTileBlock (f : CdgImageFrame) (tileBlockPacket : CdgTileBlockData)
    (type : TileBlockType) : CdgImageFrame :=
  if tileBlockPacket.row ≥ 18 ∨ tileBlockPacket.column ≥ 50 ∨ tileBlockPacket.color0 ≥ 16
      ∨ tileBlockPacket.color1 ≥ 16 then f
  else { f with bits := forLoop 12 (tileLine tileBlockPacket type) f.bits }

/-- Body of the "scroll left 6px" loop of `cmdScroll`. -/
def scrollLeftLine (color : Nat) (type : ScrollType) (i : Nat) (mem : Mem) : Mem :=
  let bits := scanLine i
  let tmpPixels : Mem := memcpy (fun _ => 0) 0 (fun k => mem (bits + k)) 6
  let mem := memcpy mem bits (fun k => mem (bits + 6 * m_bytesPerPixel + k))
    (294 * m_bytesPerPixel)
  if type = ScrollType.ScrollCopy then
    memcpy mem (bits + m_borderRBytesOffset) tmpPixels 6
  else
    memset mem (bits + m_borderLRBytes) color 6

/-- Body of the "scroll right 6px" loop of `cmdScroll`. -/
def scrollRightLine (color : Nat) (type : ScrollType) (i : Nat) (mem : Mem) : Mem :=
  let bits := scanLine i
  let tmpPixels : Mem := memcpy (fun _ => 0) 0 (fun k => mem (bits + m_bytesPerPixel * 294 + k)) 6
  let mem := memcpy mem (bits + 6 * m_bytesPerPixel) (fun k => mem (bits + k))
    (294 * m_bytesPerPixel)
  if type = ScrollType.ScrollCopy then
    memcpy mem bits tmpPixels 6
  else
    memset mem bits color 6

/-- The "scroll up 12px" block of `cmdScroll`. -/
def scrollUp (color : Nat) (type : ScrollType) (mem : Mem) : Mem :=
  let tmpLines : Mem := memcpy (fun _ => 0) 0 (fun k => mem k) (bytesPerLine * 12)
  let mem := memcpy mem 0 (fun k => mem (bytesPerLine * 12 + k)) (204 * bytesPerLine)
  if type = ScrollType.ScrollCopy then
    memcpy mem (204 * bytesPerLine) tmpLines (bytesPerLine * 12)
  else
    memset mem (204 * bytesPerLine) color (bytesPerLine * 12)

/-- The "scroll down 12px" block of `cmdScroll`. -/
def scrollDown (color : Nat) (type : ScrollType) (mem : Mem) : Mem :=
  let tmpLines : Mem := memcpy (fun _ => 0) 0 (fun k => mem (bytesPerLine * 204 + k))
    (bytesPerLine * 12)
  let mem := memcpy mem (bytesPerLine * 12) (fun k => mem k) (204 * bytesPerLine)
  if type = ScrollType.ScrollCopy then
    memcpy mem 0 tmpLines (bytesPerLine * 12)
  else
    memset mem 0 color (bytesPerLine * 12)

/-- The two horizontal blocks of `cmdScroll`: `hSCmd == 2`, then `hSCmd == 1`. -/
def scrollHorizontal (scrollCmdData : CdgScrollCmdData) (type : ScrollType) (mem : Mem) : Mem :=
  let mem := if scrollCmdData.hSCmd = 2 then
      forLoop 216 (scrollLeftLine scrollCmdData.color type) mem else mem
  if scrollCmdData.hSCmd = 1 then
    forLoop 216 (scrollRightLine scrollCmdData.color type) mem else mem

/-- The two vertical blocks of `cmdScroll`: `vSCmd == 2`, then `vSCmd == 1`. -/
def scrollVertical (scrollCmdData : CdgScrollCmdData) (type : ScrollType) (mem : Mem) : Mem :=
  let mem := if scrollCmdData.vSCmd = 2 then scrollUp scrollCmdData.color type mem else mem
  if scrollCmdData.vSCmd = 1 then scrollDown scrollCmdData.color type mem else mem

def cmdScroll (f : CdgImageFrame) (scrollCmdData : CdgScrollCmdData) (type : ScrollType) :
    CdgImageFrame :=
  { f with
    bits := scrollVertical scrollCmdData type (scrollHorizontal scrollCmdData type f.bits)
    m_curVOffset :=
      if f.m_curVOffset ≠ scrollCmdData.vSOffset then scrollCmdData.vSOffset else f.m_curVOffset
    m_curHOffset :=
      if f.m_curHOffset ≠ scrollCmdData.hSOffset then scrollCmdData.hSOffset else f.m_curHOffset }

/-- The empty function `cmdDefineTransparent`. -/
def cmdDefineTransparent (f : CdgImageFrame) (_data : Nat → Nat) : CdgImageFrame := f

def SUBCODE_MASK : Nat := 0x3F
def SUBCODE_COMMAND : Nat := 0x09

/-- The `switch` of `applySubCode`: the value of `updated` and the frame after the case. -/
def dispatch (f : CdgImageFrame) (subCode : CDG_SubCode) : Bool × CdgImageFrame :=
  let instr := subCode.instruction &&& SUBCODE_MASK
  if instr = CmdMemoryPreset then
    cmdMemoryPreset f (CdgMemoryPresetData.ofData subCode.data)
  else if instr = CmdBorderPreset then
    (true, cmdBorderPreset f (CdgBorderPresetData.ofData subCode.data))
  else if instr = CmdTileBlock then
    (true, cmdTileBlock f (CdgTileBlockData.ofData subCode.data) TileBlockType.TileBlockNormal)
  else if instr = CmdScrollPreset then
    (true, cmdScroll f (CdgScrollCmdData.ofData subCode.data) ScrollType.ScrollPreset)
  else if instr = CmdScrollCopy then
    (true, cmdScroll f (CdgScrollCmdData.ofData subCode.data) ScrollType.ScrollCopy)
  else if instr = CmdDefineTrans then
    (false, cmdDefineTransparent f subCode.data)
  else if instr = CmdColorsLow then
    cmdColors f (CdgColorsData.ofData subCode.data) CdgColorTables.LowColors
  else if instr = CmdColorsHigh then
    cmdColors f (CdgColorsData.ofData subCode.data) CdgColorTables.HighColors
  else if instr = CmdTileBlockXOR then
    (true, cmdTileBlock f (CdgTileBlockData.ofData subCode.data) TileBlockType.TileBlockXOR)
  else (false, f)

/-- The method `applySubCode`: the returned flag and the frame after the call. -/
def applySubCode (f : CdgImageFrame) (subCode : CDG_SubCode) : Bool × CdgImageFrame :=
  if subCode.command &&& SUBCODE_MASK ≠ SUBCODE_COMMAND then (false, f)
  else
    let r := dispatch f subCode
    (r.1, { r.2 with m_lastCmdWasMempreset := decide (subCode.instruction = CmdMemoryPreset) })

/-- The effects of `copyCroppedImagedata`: `pixels` is the memory at `destbuffer` after the
line loop, `destpos` the offset from `destbuffer` reached by the loop, `palette` the colour
table entries that the final `memcpy` writes at `destpos`, and `frame` the object after the
call (the method assigns no member). -/
structure CroppedImage where
  pixels : Mem
  destpos : Nat
  palette : List Nat
  frame : CdgImageFrame

/-- Body of the loop of `copyCroppedImagedata`; the state is the memory at `destbuffer`
together with `destpos`. -/
def cropLine (f : CdgImageFrame) (y : Nat) (st : Mem × Nat) : Mem × Nat :=
  let curSrcLineNum := y + f.m_curVOffset
  let srcLineOffset := bytesPerLine * (12 + curSrcLineNum)
  (memcpy st.1 st.2
      (fun k => f.bits (srcLineOffset + m_borderLRBytes + f.m_curHOffset + k))
      FRAME_CROPPED_WIDTH,
    st.2 + FRAME_CROPPED_WIDTH)

def copyCroppedImagedata (f : CdgImageFrame) (destbuffer : Mem) : CroppedImage :=
  let st := forLoop FRAME_CROPPED_HEIGHT (cropLine f) (destbuffer, 0)
  { pixels := st.1
    destpos := st.2
    palette := f.colorTable
    frame := f }

/-- The constructor `CdgImageFrame::CdgImageFrame()`. `mem0` is the memory of the freshly
allocated `QImage` before `fill(0)`; `lastCmdWasMempreset0` is the value given to
`m_lastCmdWasMempreset` by its declaration in `cdgimageframe.h`, which the constructor body
does not assign. -/
def CdgImageFrame.construct (mem0 : Mem) (lastCmdWasMempreset0 : Bool) : CdgImageFrame :=
  let palette : List Nat := forLoop 16 (fun _ pal => pal ++ [QColor.rgb ⟨0, 0, 0⟩]) []
  { bits := imageFill mem0 0
    colorTable := palette
    m_curHOffset := 0
    m_curVOffset := 0
    m_lastCmdWasMempreset := lastCmdWasMempreset0 }

/-- The frame after applying a sequence of packets in arrival order. -/
def applySubCodes (f : CdgImageFrame) (subCodes : List CDG_SubCode) : CdgImageFrame :=
  subCodes.foldl (fun g subCode => (applySubCode g subCode).2) f

/-! ## Sample inputs -/

/-- A packet given by its command byte, instruction byte and payload bytes. -/
def mkSubCode (command instruction : Nat) (data : List Nat) : CDG_SubCode :=
  { command := command, instruction := instruction, data := fun k => data.getD k 0 }

/-- A frame whose pixel at byte offset `a` is `a % 16`, with sixteen opaque black palette
entries, offsets `(3, 7)` and the memory-preset flag clear. -/
def sampleFrame : CdgImageFrame :=
  { bits := fun a => a % 16
    colorTable := List.replicate 16 0xFF000000
    m_curHOffset := 3
    m_curVOffset := 7
    m_lastCmdWasMempreset := false }

/-- A frame with every pixel `0`, zero offsets and the memory-preset flag clear. -/
def blankFrame : CdgImageFrame :=
  { bits := fun _ => 0
    colorTable := List.replicate 16 0xFF000000
    m_curHOffset := 0
    m_curVOffset := 0
    m_lastCmdWasMempreset := false }

/-- A frame whose pixel at byte offset `a` is `a % 11`, with sixteen opaque black palette
entries, zero offsets and the memory-preset flag set. -/
def stripeFrame : CdgImageFrame :=
  { bits := fun a => a % 11
    colorTable := List.replicate 16 0xFF000000
    m_curHOffset := 0
    m_curVOffset := 0
    m_lastCmdWasMempreset := true }

/-! ## Auxiliary lemmas -/

theorem m_bytesPerPixel_eq : m_bytesPerPixel = 1 := rfl

theorem m_borderLRBytes_eq : m_borderLRBytes = 6 := rfl

theorem m_borderRBytesOffset_eq : m_borderRBytesOffset = 294 := rfl

theorem and_0F_lt (b : Nat) : b &&& 0x0F < 16 := by
  have h := @Nat.and_le_right b 0x0F
  omega

theorem clamp_and_0F (b : Nat) : clamp (b &&& 0x0F) 0 15 = b &&& 0x0F := by
  have h := and_0F_lt b
  unfold clamp
  split
  · omega
  · split
    · omega
    · rfl

/-- A loop whose iteration `i` only rewrites line `top + i` (lines of `w` bytes), reading
nothing but that line, acts on each line as its own iteration acts on the initial memory. -/
theorem forLoop_lines (w top : Nat) (body : Nat → Mem → Mem)
    (hout : ∀ i mem a, a / w ≠ top + i → body i mem a = mem a)
    (hin : ∀ i mem mem' a, (∀ b, b / w = top + i → mem b = mem' b) → a / w = top + i →
      body i mem a = body i mem' a) :
    ∀ n mem a, forLoop n body mem a =
      if top ≤ a / w ∧ a / w < top + n then body (a / w - top) mem a else mem a := by
  intro n
  induction n with
  | zero =>
    intro mem a
    show mem a = _
    rw [if_neg (by omega)]
  | succ k ih =>
    intro mem a
    show body k (forLoop k body mem) a = _
    by_cases hk : a / w = top + k
    · have hagree : ∀ b, b / w = top + k → forLoop k body mem b = mem b := by
        intro b hb
        rw [ih mem b, if_neg (by omega)]
      rw [hin k _ mem a hagree hk, if_pos (by omega)]
      have : a / w - top = k := by omega
      rw [this]
    · rw [hout k _ a hk, ih mem a]
      by_cases hr : top ≤ a / w ∧ a / w < top + k
      · rw [if_pos hr, if_pos (by omega)]
      · rw [if_neg hr, if_neg (by omega)]

/-- The copy loop of `copyCroppedImagedata` after `n` lines: `destpos` and the bytes. -/
theorem cropLoop_closed (f : CdgImageFrame) (dest : Mem) (n : Nat) :
    (forLoop n (cropLine f) (dest, 0)).2 = 288 * n ∧
    ∀ a, (forLoop n (cropLine f) (dest, 0)).1 a =
      if a < 288 * n then
        f.bits (300 * (12 + a / 288 + f.m_curVOffset) + 6 + f.m_curHOffset + a % 288)
      else dest a := by
  induction n with
  | zero =>
    refine ⟨rfl, ?_⟩
    intro a
    show dest a = _
    rw [if_neg (by omega)]
  | succ k ih =>
    obtain ⟨ih2, ih1⟩ := ih
    have hstep : forLoop (k + 1) (cropLine f) (dest, 0)
        = cropLine f k (forLoop k (cropLine f) (dest, 0)) := rfl
    rw [hstep]
    constructor
    · simp only [cropLine, FRAME_CROPPED_WIDTH, ih2]
      omega
    · intro a
      simp only [cropLine, memcpy, FRAME_CROPPED_WIDTH, bytesPerLine, m_borderLRBytes_eq, ih2]
      by_cases hin : 288 * k ≤ a ∧ a < 288 * k + 288
      · rw [if_pos hin, if_pos (by omega)]
        refine congrArg f.bits ?_
        have hd : a / 288 = k := by omega
        rw [hd]
        omega
      · rw [if_neg hin, ih1 a]
        by_cases hlt : a < 288 * k
        · rw [if_pos hlt, if_pos (by omega)]
        · rw [if_neg hlt, if_neg (by omega)]

/-- Closed form of the copy loop of `copyCroppedImagedata`. -/
theorem copyCropped_pixels (f : CdgImageFrame) (dest : Mem) (y x : Nat)
    (hy : y < 192) (hx : x < 288) :
    (copyCroppedImagedata f dest).pixels (288 * y + x) =
      f.pixel (12 + y + f.m_curVOffset) (6 + f.m_curHOffset + x) := by
  have hdiv : (288 * y + x) / 288 = y := by omega
  have hmod : (288 * y + x) % 288 = x := by omega
  simp only [copyCroppedImagedata, FRAME_CROPPED_HEIGHT, CdgImageFrame.pixel, scanLine,
    bytesPerLine]
  rw [(cropLoop_closed f dest 192).2, if_pos (by omega), hdiv, hmod]
  refine congrArg f.bits ?_
  omega

/-- With the CD+G command byte, `applySubCode` runs the switch and then stores the flag. -/
theorem applySubCode_of_command (f : CdgImageFrame) (p : CDG_SubCode)
    (hc : p.command &&& 0x3F = 9) :
    applySubCode f p = ((dispatch f p).1,
      { (dispatch f p).2 with m_lastCmdWasMempreset := decide (p.instruction = 1) }) := by
  simp only [applySubCode, SUBCODE_MASK, SUBCODE_COMMAND, CmdMemoryPreset]
  rw [if_neg (by simp [hc])]

theorem dispatch_memoryPreset (f : CdgImageFrame) (p : CDG_SubCode)
    (hi : p.instruction &&& 0x3F = 1) :
    dispatch f p = cmdMemoryPreset f (CdgMemoryPresetData.ofData p.data) := by
  simp [dispatch, SUBCODE_MASK, hi, CmdMemoryPreset]

theorem dispatch_borderPreset (f : CdgImageFrame) (p : CDG_SubCode)
    (hi : p.instruction &&& 0x3F = 2) :
    dispatch f p = (true, cmdBorderPreset f (CdgBorderPresetData.ofData p.data)) := by
  simp [dispatch, SUBCODE_MASK, hi, CmdMemoryPreset, CmdBorderPreset]

theorem dispatch_tileBlock (f : CdgImageFrame) (p : CDG_SubCode)
    (hi : p.instruction &&& 0x3F = 6) :
    dispatch f p = (true, cmdTileBlock f (CdgTileBlockData.ofData p.data)
      TileBlockType.TileBlockNormal) := by
  simp [dispatch, SUBCODE_MASK, hi, CmdMemoryPreset, CmdBorderPreset, CmdTileBlock]

theorem dispatch_tileBlockXOR (f : CdgImageFrame) (p : CDG_SubCode)
    (hi : p.instruction &&& 0x3F = 38) :
    dispatch f p = (true, cmdTileBlock f (CdgTileBlockData.ofData p.data)
      TileBlockType.TileBlockXOR) := by
  simp [dispatch, SUBCODE_MASK, hi, CmdMemoryPreset, CmdBorderPreset, CmdTileBlock,
    CmdScrollPreset, CmdScrollCopy, CmdDefineTrans, CmdColorsLow, CmdColorsHigh,
    CmdTileBlockXOR]

theorem dispatch_scrollPreset (f : CdgImageFrame) (p : CDG_SubCode)
    (hi : p.instruction &&& 0x3F = 20) :
    dispatch f p = (true, cmdScroll f (CdgScrollCmdData.ofData p.data)
      ScrollType.ScrollPreset) := by
  simp [dispatch, SUBCODE_MASK, hi, CmdMemoryPreset, CmdBorderPreset, CmdTileBlock,
    CmdScrollPreset]

theorem dispatch_scrollCopy (f : CdgImageFrame) (p : CDG_SubCode)
    (hi : p.instruction &&& 0x3F = 24) :
    dispatch f p = (true, cmdScroll f (CdgScrollCmdData.ofData p.data)
      ScrollType.ScrollCopy) := by
  simp [dispatch, SUBCODE_MASK, hi, CmdMemoryPreset, CmdBorderPreset, CmdTileBlock,
    CmdScrollPreset, CmdScrollCopy]

/-- A byte value stored in a `char` and passed to `QImage::fill` is stored as it is. -/
theorem fillByte_natCast (n : Nat) (h : n < 256) : fillByte (n : Int) = n := by
  unfold fillByte
  omega

/-- A memory preset that is not suppressed fills the image and reports a change. -/
theorem cmdMemoryPreset_fill (f : CdgImageFrame) (data : Nat → Nat)
    (hr : f.m_lastCmdWasMempreset = false ∨ data 1 &&& 0x0F = 0) :
    cmdMemoryPreset f (CdgMemoryPresetData.ofData data) =
      (true, { f with bits := imageFill f.bits (data 0 &&& 0x0F) }) := by
  have hlt := and_0F_lt (data 0)
  simp only [cmdMemoryPreset, CdgMemoryPresetData.ofData, clamp_and_0F]
  rw [if_neg (by omega), if_neg, fillByte_natCast _ (by omega)]
  rintro ⟨h1, h2⟩
  rcases hr with hr | hr
  · rw [hr] at h1
    exact Bool.noConfusion h1
  · exact h2 (by rw [hr]; rfl)

/-- A memory preset that follows a flagged memory preset with a nonzero repeat does nothing. -/
theorem cmdMemoryPreset_suppressed (f : CdgImageFrame) (data : Nat → Nat)
    (hflag : f.m_lastCmdWasMempreset = true) (hrep : data 1 &&& 0x0F ≠ 0) :
    cmdMemoryPreset f (CdgMemoryPresetData.ofData data) = (false, f) := by
  have hlt := and_0F_lt (data 0)
  simp only [cmdMemoryPreset, CdgMemoryPresetData.ofData, clamp_and_0F]
  rw [if_neg (by omega), if_pos ⟨hflag, by omega⟩]

theorem imageFill_apply (mem : Mem) (c r x : Nat) (hr : r < 216) (hx : x < 300) :
    imageFill mem c (scanLine r + x) = c := by
  simp only [imageFill, memset, scanLine, bytesPerLine, FRAME_FULL_HEIGHT]
  rw [if_pos (by omega)]

theorem tileLine_apply (t : CdgTileBlockData) (type : TileBlockType) (y : Nat) (mem : Mem)
    (a : Nat) :
    tileLine t type y mem a =
      if scanLine (y + t.top) + t.left ≤ a ∧ a < scanLine (y + t.top) + t.left + 6 then
        match type with
        | TileBlockType.TileBlockNormal =>
          tileColor t (t.tilePixels y) (a - (scanLine (y + t.top) + t.left))
        | TileBlockType.TileBlockXOR =>
          mem a ^^^ tileColor t (t.tilePixels y) (a - (scanLine (y + t.top) + t.left))
      else mem a := by
  by_cases h : scanLine (y + t.top) + t.left ≤ a ∧ a < scanLine (y + t.top) + t.left + 6
  · obtain ⟨k, hk, rfl⟩ : ∃ k, k < 6 ∧ a = scanLine (y + t.top) + t.left + k :=
      ⟨a - (scanLine (y + t.top) + t.left), by omega, by omega⟩
    rw [if_pos h]
    have hsub : scanLine (y + t.top) + t.left + k - (scanLine (y + t.top) + t.left) = k := by
      omega
    rw [hsub]
    cases type <;> interval_cases k <;>
      simp [tileLine, poke, m_bytesPerPixel, Nat.add_assoc]
  · rw [if_neg h]
    cases type <;> simp only [tileLine, poke, m_bytesPerPixel, Nat.mul_one] <;>
      (repeat rw [if_neg (by omega)])
theorem tileColor_testBit (t : CdgTileBlockData) (d k : Nat) (hk : k < 6) :
    tileColor t d k = if d.testBit (5 - k) then t.color1 else t.color0 := by
  have h5 := Nat.and_two_pow d 5
  have h4 := Nat.and_two_pow d 4
  have h3 := Nat.and_two_pow d 3
  have h2 := Nat.and_two_pow d 2
  have h1 := Nat.and_two_pow d 1
  have h0 := Nat.and_two_pow d 0
  rw [pow_zero] at h0
  norm_num at h5 h4 h3 h2 h1
  interval_cases k
  · simp only [tileColor, MASKS, List.getD_cons_zero, h5]
    cases d.testBit 5 <;> simp
  · simp only [tileColor, MASKS, List.getD_cons_succ, List.getD_cons_zero, h4]
    cases d.testBit 4 <;> simp
  · simp only [tileColor, MASKS, List.getD_cons_succ, List.getD_cons_zero, h3]
    cases d.testBit 3 <;> simp
  · simp only [tileColor, MASKS, List.getD_cons_succ, List.getD_cons_zero, h2]
    cases d.testBit 2 <;> simp
  · simp only [tileColor, MASKS, List.getD_cons_succ, List.getD_cons_zero, h1]
    cases d.testBit 1 <;> simp
  · simp only [tileColor, MASKS, List.getD_cons_succ, List.getD_cons_zero, h0]
    cases d.testBit 0 <;> simp

/-- Closed form of the twelve-line loop of `cmdTileBlock` for a tile inside the canvas. -/
theorem tileLoop_apply (t : CdgTileBlockData) (type : TileBlockType) (hleft : t.left + 6 ≤ 300)
    (mem : Mem) (a : Nat) :
    forLoop 12 (tileLine t type) mem a =
      if t.top ≤ a / 300 ∧ a / 300 < t.top + 12 then
        tileLine t type (a / 300 - t.top) mem a
      else mem a := by
  refine forLoop_lines 300 t.top (tileLine t type) ?_ ?_ 12 mem a
  · intro i m b hb
    rw [tileLine_apply, if_neg]
    simp only [scanLine, bytesPerLine]
    omega
  · intro i m m' b hag hb
    rw [tileLine_apply, tileLine_apply, hag b hb]
/-- Closed form of the twelve-line loop of `cmdTileBlock`, by row and column of the byte. -/
theorem tileLoop_closed (t : CdgTileBlockData) (type : TileBlockType)
    (hleft : t.left + 6 ≤ 300) (mem : Mem) (a : Nat) :
    forLoop 12 (tileLine t type) mem a =
      if t.top ≤ a / 300 ∧ a / 300 < t.top + 12 ∧ t.left ≤ a % 300 ∧ a % 300 < t.left + 6 then
        match type with
        | TileBlockType.TileBlockNormal =>
          tileColor t (t.tilePixels (a / 300 - t.top)) (a % 300 - t.left)
        | TileBlockType.TileBlockXOR =>
          mem a ^^^ tileColor t (t.tilePixels (a / 300 - t.top)) (a % 300 - t.left)
      else mem a := by
  rw [tileLoop_apply t type hleft]
  by_cases hrow : t.top ≤ a / 300 ∧ a / 300 < t.top + 12
  · rw [if_pos hrow, tileLine_apply]
    have hs : scanLine (a / 300 - t.top + t.top) = a - a % 300 := by
      simp only [scanLine, bytesPerLine]
      omega
    rw [hs]
    by_cases hcol : t.left ≤ a % 300 ∧ a % 300 < t.left + 6
    · rw [if_pos (by omega), if_pos (by omega)]
      have hk : a - (a - a % 300 + t.left) = a % 300 - t.left := by omega
      rw [hk]
    · rw [if_neg (by omega), if_neg (by omega)]
  · rw [if_neg hrow, if_neg (by omega)]

theorem tileBlock_left_le (data : Nat → Nat) (hcol : data 3 &&& 0x3F < 50) :
    (CdgTileBlockData.ofData data).left + 6 ≤ 300 := by
  simp only [CdgTileBlockData.ofData]
  omega

theorem cmdTileBlock_accepted (f : CdgImageFrame) (data : Nat → Nat) (type : TileBlockType)
    (hrow : data 2 &&& 0x1F < 18) (hcol : data 3 &&& 0x3F < 50) :
    cmdTileBlock f (CdgTileBlockData.ofData data) type =
      { f with bits := forLoop 12 (tileLine (CdgTileBlockData.ofData data) type) f.bits } := by
  have h0 := and_0F_lt (data 0)
  have h1 := and_0F_lt (data 1)
  unfold cmdTileBlock
  rw [if_neg]
  simp only [CdgTileBlockData.ofData]
  omega

theorem cmdTileBlock_rejected (f : CdgImageFrame) (data : Nat → Nat) (type : TileBlockType)
    (hbad : 18 ≤ data 2 &&& 0x1F ∨ 50 ≤ data 3 &&& 0x3F) :
    cmdTileBlock f (CdgTileBlockData.ofData data) type = f := by
  unfold cmdTileBlock
  rw [if_pos]
  simp only [CdgTileBlockData.ofData]
  omega

/-- What `applySubCode` does on a tile-block packet, normal or XOR. -/
theorem applySubCode_tile (f : CdgImageFrame) (p : CDG_SubCode)
    (hc : p.command &&& 0x3F = 9)
    (hi : p.instruction &&& 0x3F = 6 ∨ p.instruction &&& 0x3F = 38) :
    applySubCode f p = (true,
      { cmdTileBlock f (CdgTileBlockData.ofData p.data)
          (if p.instruction &&& 0x3F = 6 then TileBlockType.TileBlockNormal
            else TileBlockType.TileBlockXOR) with
        m_lastCmdWasMempreset := decide (p.instruction = 1) }) := by
  rw [applySubCode_of_command f p hc]
  rcases hi with hi | hi
  · rw [dispatch_tileBlock f p hi, if_pos hi]
  · rw [dispatch_tileBlockXOR f p hi, if_neg (by omega)]

/-- Closed form of one iteration of the loop of `cmdBorderPreset`. -/
theorem borderLine_apply (c line : Nat) (mem : Mem) (a : Nat) :
    borderLine c line mem a =
      if a / 300 = line ∧ (line < 12 ∨ line > 202 ∨ a % 300 < 6 ∨ 294 ≤ a % 300) then c
      else mem a := by
  unfold borderLine
  split_ifs with h1 h2 <;>
    simp only [memset, scanLine, bytesPerLine, m_borderLRBytes_eq, m_borderRBytesOffset_eq] <;>
    split_ifs <;> first | rfl | omega

/-- Closed form of the loop of `cmdBorderPreset`. -/
theorem borderLoop_closed (c : Nat) (mem : Mem) (a : Nat) :
    forLoop 216 (borderLine c) mem a =
      if a / 300 < 216 ∧ (a / 300 < 12 ∨ a / 300 > 202 ∨ a % 300 < 6 ∨ 294 ≤ a % 300) then c
      else mem a := by
  have h := forLoop_lines 300 0 (borderLine c)
    (by
      intro i m b hb
      rw [borderLine_apply, if_neg]
      omega)
    (by
      intro i m m' b hag hb
      rw [borderLine_apply, borderLine_apply, hag b hb])
    216 mem a
  rw [h, borderLine_apply]
  split_ifs <;> first | rfl | omega

theorem cmdBorderPreset_bits (f : CdgImageFrame) (data : Nat → Nat) :
    cmdBorderPreset f (CdgBorderPresetData.ofData data) =
      { f with bits := forLoop 216 (borderLine (data 0 &&& 0x0F)) f.bits } := by
  have h0 := and_0F_lt (data 0)
  simp only [cmdBorderPreset, CdgBorderPresetData.ofData, clamp_and_0F]
  rw [if_neg (by omega)]

/-- Closed form of one iteration of the "scroll left" loop. -/
theorem scrollLeftLine_apply (c : Nat) (type : ScrollType) (i : Nat) (mem : Mem) (a : Nat) :
    scrollLeftLine c type i mem a =
      if a / 300 = i then
        match type with
        | ScrollType.ScrollCopy => if a % 300 < 294 then mem (a + 6) else mem (a - 294)
        | ScrollType.ScrollPreset =>
          if 6 ≤ a % 300 ∧ a % 300 < 12 then c
          else if a % 300 < 294 then mem (a + 6) else mem a
      else mem a := by
  cases type <;> unfold scrollLeftLine <;> simp only [if_true, if_false, reduceCtorEq] <;>
    simp only [memcpy, memset, scanLine, bytesPerLine, m_borderLRBytes_eq,
      m_borderRBytesOffset_eq, m_bytesPerPixel_eq] <;>
    split_ifs <;> first | with_reducible rfl | (refine congrArg mem ?_; omega) | omega

/-- Closed form of one iteration of the "scroll right" loop. -/
theorem scrollRightLine_apply (c : Nat) (type : ScrollType) (i : Nat) (mem : Mem) (a : Nat) :
    scrollRightLine c type i mem a =
      if a / 300 = i then
        match type with
        | ScrollType.ScrollCopy => if 6 ≤ a % 300 then mem (a - 6) else mem (a + 294)
        | ScrollType.ScrollPreset => if a % 300 < 6 then c else mem (a - 6)
      else mem a := by
  cases type <;> unfold scrollRightLine <;> simp only [if_true, if_false, reduceCtorEq] <;>
    simp only [memcpy, memset, scanLine, bytesPerLine, m_borderLRBytes_eq,
      m_borderRBytesOffset_eq, m_bytesPerPixel_eq] <;>
    split_ifs <;> first | with_reducible rfl | (refine congrArg mem ?_; omega) | omega

/-- Closed form of the "scroll left" loop over the 216 lines. -/
theorem scrollLeftLoop_apply (c : Nat) (type : ScrollType) (mem : Mem) (a : Nat) :
    forLoop 216 (scrollLeftLine c type) mem a =
      if a / 300 < 216 then scrollLeftLine c type (a / 300) mem a else mem a := by
  have h := forLoop_lines 300 0 (scrollLeftLine c type)
    (by
      intro i m b hb
      rw [scrollLeftLine_apply, if_neg]
      omega)
    (by
      intro i m m' b hag hb
      rw [scrollLeftLine_apply, scrollLeftLine_apply]
      have e1 : m b = m' b := hag b hb
      have e2 : b % 300 < 294 → m (b + 6) = m' (b + 6) := fun h => hag (b + 6) (by omega)
      have e3 : ¬ b % 300 < 294 → m (b - 294) = m' (b - 294) :=
        fun h => hag (b - 294) (by omega)
      cases type <;> dsimp only <;> split_ifs <;>
        with_reducible (first | rfl | exact e1 | exact e2 ‹_› | exact e3 ‹_›))
    216 mem a
  simp only [Nat.sub_zero, Nat.zero_add, Nat.zero_le, true_and] at h
  exact h

/-- Closed form of the "scroll right" loop over the 216 lines. -/
theorem scrollRightLoop_apply (c : Nat) (type : ScrollType) (mem : Mem) (a : Nat) :
    forLoop 216 (scrollRightLine c type) mem a =
      if a / 300 < 216 then scrollRightLine c type (a / 300) mem a else mem a := by
  have h := forLoop_lines 300 0 (scrollRightLine c type)
    (by
      intro i m b hb
      rw [scrollRightLine_apply, if_neg]
      omega)
    (by
      intro i m m' b hag hb
      rw [scrollRightLine_apply, scrollRightLine_apply]
      have e1 : m b = m' b := hag b hb
      have e2 : 6 ≤ b % 300 → m (b - 6) = m' (b - 6) := fun h => hag (b - 6) (by omega)
      have e3 : ¬ 6 ≤ b % 300 → m (b + 294) = m' (b + 294) :=
        fun h => hag (b + 294) (by omega)
      have e4 : ¬ b % 300 < 6 → m (b - 6) = m' (b - 6) := fun h => hag (b - 6) (by omega)
      cases type <;> dsimp only <;> split_ifs <;>
        with_reducible (first | rfl | exact e1 | exact e2 ‹_› | exact e3 ‹_› | exact e4 ‹_›))
    216 mem a
  simp only [Nat.sub_zero, Nat.zero_add, Nat.zero_le, true_and] at h
  exact h

/-- Closed form of the "scroll up" block. -/
theorem scrollUp_apply (c : Nat) (type : ScrollType) (mem : Mem) (a : Nat) :
    scrollUp c type mem a =
      if a < 64800 then
        match type with
        | ScrollType.ScrollCopy => if a < 61200 then mem (a + 3600) else mem (a - 61200)
        | ScrollType.ScrollPreset => if a < 61200 then mem (a + 3600) else c
      else mem a := by
  cases type <;> unfold scrollUp <;> simp only [if_true, if_false, reduceCtorEq] <;>
    simp only [memcpy, memset, bytesPerLine] <;>
    split_ifs <;> first | with_reducible rfl | (refine congrArg mem ?_; omega) | omega

/-- Closed form of the "scroll down" block. -/
theorem scrollDown_apply (c : Nat) (type : ScrollType) (mem : Mem) (a : Nat) :
    scrollDown c type mem a =
      if a < 64800 then
        match type with
        | ScrollType.ScrollCopy => if 3600 ≤ a then mem (a - 3600) else mem (a + 61200)
        | ScrollType.ScrollPreset => if a < 3600 then c else mem (a - 3600)
      else mem a := by
  cases type <;> unfold scrollDown <;> simp only [if_true, if_false, reduceCtorEq] <;>
    simp only [memcpy, memset, bytesPerLine] <;>
    split_ifs <;> first | with_reducible rfl | (refine congrArg mem ?_; omega) | omega

/-- The horizontal command read from the payload is `(data[1] & 0x30) >> 4`. -/
theorem hSCmd_ofData (data : Nat → Nat) :
    (CdgScrollCmdData.ofData data).hSCmd = (data 1 &&& 0x30) >>> 4 := by
  have h : (data 1 &&& 0x3F) &&& 0x30 = data 1 &&& 0x30 := by
    rw [Nat.and_assoc]
    rfl
  simp only [CdgScrollCmdData.ofData, h]

/-- The vertical command read from the payload is `(data[2] & 0x30) >> 4`. -/
theorem vSCmd_ofData (data : Nat → Nat) :
    (CdgScrollCmdData.ofData data).vSCmd = (data 2 &&& 0x30) >>> 4 := by
  have h : (data 2 &&& 0x3F) &&& 0x30 = data 2 &&& 0x30 := by
    rw [Nat.and_assoc]
    rfl
  simp only [CdgScrollCmdData.ofData, h]

theorem color_ofData (data : Nat → Nat) :
    (CdgScrollCmdData.ofData data).color = data 0 &&& 0x0F := rfl

/-- The horizontal step of a copy scroll, pixel by pixel. -/
theorem scrollHorizontal_copy (d : CdgScrollCmdData) (mem : Mem) (r x : Nat)
    (hr : r < 216) (hx : x < 300) :
    scrollHorizontal d ScrollType.ScrollCopy mem (r * 300 + x) =
      mem (r * 300 + (if d.hSCmd = 2 then (x + 6) % 300
        else if d.hSCmd = 1 then (x + 294) % 300 else x)) := by
  have hdiv : (r * 300 + x) / 300 = r := by omega
  have hmod : (r * 300 + x) % 300 = x := by omega
  unfold scrollHorizontal
  by_cases h2 : d.hSCmd = 2
  · have h1 : ¬ d.hSCmd = 1 := by omega
    simp only [if_pos h2, if_neg h1]
    rw [scrollLeftLoop_apply, hdiv, if_pos hr, scrollLeftLine_apply, hdiv, if_pos rfl]
    dsimp only
    rw [hmod]
    split_ifs <;> (refine congrArg mem ?_; omega)
  · by_cases h1 : d.hSCmd = 1
    · simp only [if_neg h2, if_pos h1]
      rw [scrollRightLoop_apply, hdiv, if_pos hr, scrollRightLine_apply, hdiv, if_pos rfl]
      dsimp only
      rw [hmod]
      split_ifs <;> (refine congrArg mem ?_; omega)
    · simp only [if_neg h2, if_neg h1]

/-- The vertical step of a copy scroll, pixel by pixel. -/
theorem scrollVertical_copy (d : CdgScrollCmdData) (mem : Mem) (r x : Nat)
    (hr : r < 216) (hx : x < 300) :
    scrollVertical d ScrollType.ScrollCopy mem (r * 300 + x) =
      mem ((if d.vSCmd = 2 then (r + 12) % 216
        else if d.vSCmd = 1 then (r + 204) % 216 else r) * 300 + x) := by
  unfold scrollVertical
  by_cases h2 : d.vSCmd = 2
  · have h1 : ¬ d.vSCmd = 1 := by omega
    simp only [if_pos h2, if_neg h1]
    rw [scrollUp_apply, if_pos (by omega)]
    dsimp only
    split_ifs <;> (refine congrArg mem ?_; omega)
  · by_cases h1 : d.vSCmd = 1
    · simp only [if_neg h2, if_pos h1]
      rw [scrollDown_apply, if_pos (by omega)]
      dsimp only
      split_ifs <;> (refine congrArg mem ?_; omega)
    · simp only [if_neg h2, if_neg h1]

/-- What `applySubCode` does on a scroll packet, preset or copy. -/
theorem applySubCode_scroll (f : CdgImageFrame) (p : CDG_SubCode)
    (hc : p.command &&& 0x3F = 9)
    (hi : p.instruction &&& 0x3F = 20 ∨ p.instruction &&& 0x3F = 24) :
    applySubCode f p = (true,
      { cmdScroll f (CdgScrollCmdData.ofData p.data)
          (if p.instruction &&& 0x3F = 20 then ScrollType.ScrollPreset
            else ScrollType.ScrollCopy) with
        m_lastCmdWasMempreset := decide (p.instruction = 1) }) := by
  rw [applySubCode_of_command f p hc]
  rcases hi with hi | hi
  · rw [dispatch_scrollPreset f p hi, if_pos hi]
  · have hne : ¬ (p.instruction &&& 0x3F = 20) := by omega
    rw [dispatch_scrollCopy f p hi, if_neg hne]

/-- The pixel buffer after a scroll packet. -/
theorem applySubCode_scroll_bits (f : CdgImageFrame) (p : CDG_SubCode)
    (hc : p.command &&& 0x3F = 9)
    (hi : p.instruction &&& 0x3F = 20 ∨ p.instruction &&& 0x3F = 24) :
    (applySubCode f p).2.bits =
      scrollVertical (CdgScrollCmdData.ofData p.data)
        (if p.instruction &&& 0x3F = 20 then ScrollType.ScrollPreset else ScrollType.ScrollCopy)
        (scrollHorizontal (CdgScrollCmdData.ofData p.data)
          (if p.instruction &&& 0x3F = 20 then ScrollType.ScrollPreset
            else ScrollType.ScrollCopy) f.bits) := by
  rw [applySubCode_scroll f p hc hi]
  rfl

/-- Without a horizontal command (`hSCmd` neither 1 nor 2) the horizontal step is idle. -/
theorem scrollHorizontal_idle (d : CdgScrollCmdData) (type : ScrollType) (mem : Mem)
    (h1 : d.hSCmd ≠ 1) (h2 : d.hSCmd ≠ 2) : scrollHorizontal d type mem = mem := by
  unfold scrollHorizontal
  simp only [if_neg h2, if_neg h1]

/-- Without a vertical command (`vSCmd` neither 1 nor 2) the vertical step is idle. -/
theorem scrollVertical_idle (d : CdgScrollCmdData) (type : ScrollType) (mem : Mem)
    (h1 : d.vSCmd ≠ 1) (h2 : d.vSCmd ≠ 2) : scrollVertical d type mem = mem := by
  unfold scrollVertical
  simp only [if_neg h2, if_neg h1]

/-- The horizontal step of a preset scroll to the left, pixel by pixel: the fill lands on
columns 6-11 and columns 294-299 keep their bytes. -/
theorem scrollHorizontal_preset_left (d : CdgScrollCmdData) (mem : Mem) (r x : Nat)
    (h : d.hSCmd = 2) (hr : r < 216) (hx : x < 300) :
    scrollHorizontal d ScrollType.ScrollPreset mem (r * 300 + x) =
      if 6 ≤ x ∧ x < 12 then d.color
      else if x < 294 then mem (r * 300 + (x + 6)) else mem (r * 300 + x) := by
  have hdiv : (r * 300 + x) / 300 = r := by omega
  have hmod : (r * 300 + x) % 300 = x := by omega
  have h1 : ¬ d.hSCmd = 1 := by omega
  unfold scrollHorizontal
  simp only [if_pos h, if_neg h1]
  rw [scrollLeftLoop_apply, hdiv, if_pos hr, scrollLeftLine_apply, hdiv, if_pos rfl]
  dsimp only
  rw [hmod]
  split_ifs <;> first | with_reducible rfl | (refine congrArg mem ?_; omega)

/-- The horizontal step of a preset scroll to the right, pixel by pixel. -/
theorem scrollHorizontal_preset_right (d : CdgScrollCmdData) (mem : Mem) (r x : Nat)
    (h : d.hSCmd = 1) (hr : r < 216) (hx : x < 300) :
    scrollHorizontal d ScrollType.ScrollPreset mem (r * 300 + x) =
      if x < 6 then d.color else mem (r * 300 + (x - 6)) := by
  have hdiv : (r * 300 + x) / 300 = r := by omega
  have hmod : (r * 300 + x) % 300 = x := by omega
  have h2 : ¬ d.hSCmd = 2 := by omega
  unfold scrollHorizontal
  simp only [if_pos h, if_neg h2]
  rw [scrollRightLoop_apply, hdiv, if_pos hr, scrollRightLine_apply, hdiv, if_pos rfl]
  dsimp only
  rw [hmod]
  split_ifs <;> first | with_reducible rfl | (refine congrArg mem ?_; omega)

/-- The vertical step of a preset scroll upwards, pixel by pixel. -/
theorem scrollVertical_preset_up (d : CdgScrollCmdData) (mem : Mem) (r x : Nat)
    (h : d.vSCmd = 2) (hr : r < 216) (hx : x < 300) :
    scrollVertical d ScrollType.ScrollPreset mem (r * 300 + x) =
      if r < 204 then mem ((r + 12) * 300 + x) else d.color := by
  have h1 : ¬ d.vSCmd = 1 := by omega
  unfold scrollVertical
  simp only [if_pos h, if_neg h1]
  rw [scrollUp_apply, if_pos (by omega)]
  dsimp only
  split_ifs <;> first | with_reducible rfl | (refine congrArg mem ?_; omega) | omega

/-- The vertical step of a preset scroll downwards, pixel by pixel. -/
theorem scrollVertical_preset_down (d : CdgScrollCmdData) (mem : Mem) (r x : Nat)
    (h : d.vSCmd = 1) (hr : r < 216) (hx : x < 300) :
    scrollVertical d ScrollType.ScrollPreset mem (r * 300 + x) =
      if r < 12 then d.color else mem ((r - 12) * 300 + x) := by
  have h2 : ¬ d.vSCmd = 2 := by omega
  unfold scrollVertical
  simp only [if_pos h, if_neg h2]
  rw [scrollDown_apply, if_pos (by omega)]
  dsimp only
  split_ifs <;> first | with_reducible rfl | (refine congrArg mem ?_; omega) | omega

/-- What the code does on a scroll preset that commands a left scroll only: every row is
shifted left by six pixels, the fill colour is then written to columns 6-11, and columns
294-299 keep the bytes they had. -/
theorem applySubCode_scrollPreset_left_pixels (f : CdgImageFrame) (p : CDG_SubCode)
    (hc : p.command &&& 0x3F = 9) (hi : p.instruction &&& 0x3F = 20)
    (hh : (p.data 1 &&& 0x30) >>> 4 = 2)
    (hv1 : (p.data 2 &&& 0x30) >>> 4 ≠ 1) (hv2 : (p.data 2 &&& 0x30) >>> 4 ≠ 2)
    (r x : Nat) (hr : r < 216) (hx : x < 300) :
    (applySubCode f p).2.pixel r x =
      if 6 ≤ x ∧ x < 12 then p.data 0 &&& 0x0F
      else if x < 294 then f.pixel r (x + 6) else f.pixel r x := by
  simp only [CdgImageFrame.pixel, scanLine, bytesPerLine]
  rw [applySubCode_scroll_bits f p hc (Or.inl hi), if_pos hi,
    scrollVertical_idle _ _ _ (by rw [vSCmd_ofData]; exact hv1)
      (by rw [vSCmd_ofData]; exact hv2),
    scrollHorizontal_preset_left _ _ r x (by rw [hSCmd_ofData]; exact hh) hr hx, color_ofData]

theorem dispatch_defineTrans (f : CdgImageFrame) (p : CDG_SubCode)
    (hi : p.instruction &&& 0x3F = 28) : dispatch f p = (false, f) := by
  simp [dispatch, SUBCODE_MASK, hi, CmdMemoryPreset, CmdBorderPreset, CmdTileBlock,
    CmdScrollPreset, CmdScrollCopy, CmdDefineTrans, cmdDefineTransparent]

theorem dispatch_colorsLow (f : CdgImageFrame) (p : CDG_SubCode)
    (hi : p.instruction &&& 0x3F = 30) :
    dispatch f p = cmdColors f (CdgColorsData.ofData p.data) CdgColorTables.LowColors := by
  simp [dispatch, SUBCODE_MASK, hi, CmdMemoryPreset, CmdBorderPreset, CmdTileBlock,
    CmdScrollPreset, CmdScrollCopy, CmdDefineTrans, CmdColorsLow]

theorem dispatch_colorsHigh (f : CdgImageFrame) (p : CDG_SubCode)
    (hi : p.instruction &&& 0x3F = 31) :
    dispatch f p = cmdColors f (CdgColorsData.ofData p.data) CdgColorTables.HighColors := by
  simp [dispatch, SUBCODE_MASK, hi, CmdMemoryPreset, CmdBorderPreset, CmdTileBlock,
    CmdScrollPreset, CmdScrollCopy, CmdDefineTrans, CmdColorsLow, CmdColorsHigh]

/-- An instruction value without a `case` falls through the switch. -/
theorem dispatch_unrecognised (f : CdgImageFrame) (p : CDG_SubCode)
    (h1 : p.instruction &&& 0x3F ≠ 1) (h2 : p.instruction &&& 0x3F ≠ 2)
    (h6 : p.instruction &&& 0x3F ≠ 6) (h20 : p.instruction &&& 0x3F ≠ 20)
    (h24 : p.instruction &&& 0x3F ≠ 24) (h30 : p.instruction &&& 0x3F ≠ 30)
    (h31 : p.instruction &&& 0x3F ≠ 31) (h38 : p.instruction &&& 0x3F ≠ 38) :
    dispatch f p = (false, f) := by
  by_cases h28 : p.instruction &&& 0x3F = 28
  · exact dispatch_defineTrans f p h28
  · simp only [dispatch, SUBCODE_MASK, CmdMemoryPreset, CmdBorderPreset, CmdTileBlock,
      CmdScrollPreset, CmdScrollCopy, CmdDefineTrans, CmdColorsLow, CmdColorsHigh,
      CmdTileBlockXOR]
    rw [if_neg h1, if_neg h2, if_neg h6, if_neg h20, if_neg h24, if_neg h28, if_neg h30,
      if_neg h31, if_neg h38]

theorem construct_colorTable (mem0 : Mem) (b : Bool) :
    (CdgImageFrame.construct mem0 b).colorTable = List.replicate 16 0xFF000000 := by
  rfl

/-- The step of `cmdColors` at a slot inside the table: what it returns. -/
theorem cmdColorsStep_eq (ch : Bool) (cur : Nat) (tbl : List Nat) (c : QColor)
    (hcur : cur < tbl.length) :
    cmdColorsStep (ch, cur, tbl) c =
      (ch || decide (tbl.getD cur 0 ≠ c.rgb), cur + 1, tbl.set cur c.rgb) := by
  unfold cmdColorsStep
  dsimp only
  by_cases h : tbl.getD cur 0 = c.rgb
  · have hset : tbl.set cur c.rgb = tbl := by
      apply List.ext_getElem?
      intro j
      rw [List.getElem?_set]
      by_cases hj : cur = j
      · subst hj
        rw [if_pos rfl, if_pos hcur, ← h, List.getD_eq_getElem?_getD,
          List.getElem?_eq_getElem hcur]
        rfl
      · rw [if_neg hj]
    have hd : decide (tbl.getD cur 0 ≠ c.rgb) = false := decide_eq_false (not_not.mpr h)
    rw [if_neg (not_not.mpr h), hset, hd, Bool.or_false]
  · have hs : setColor tbl cur c.rgb = tbl.set cur c.rgb := by
      unfold setColor
      have : cur + 1 - tbl.length = 0 := by omega
      rw [this]
      simp
    have hd : decide (tbl.getD cur 0 ≠ c.rgb) = true := decide_eq_true h
    rw [if_pos h, hs, hd, Bool.or_true]

/-- The `for_each` of `cmdColors` over colours `cs`, started at slot `cur` of table `tbl`
with all written slots inside the table. -/
theorem cmdColors_fold (cs : List QColor) :
    ∀ (ch : Bool) (cur : Nat) (tbl : List Nat), cur + cs.length ≤ tbl.length →
      (cs.foldl cmdColorsStep (ch, cur, tbl)).2.2.length = tbl.length ∧
      (∀ j, (cs.foldl cmdColorsStep (ch, cur, tbl)).2.2.getD j 0 =
        if cur ≤ j ∧ j < cur + cs.length then (cs.getD (j - cur) ⟨0, 0, 0⟩).rgb
        else tbl.getD j 0) ∧
      ((cs.foldl cmdColorsStep (ch, cur, tbl)).1 = true ↔
        ch = true ∨ ∃ i, i < cs.length ∧
          tbl.getD (cur + i) 0 ≠ (cs.getD i ⟨0, 0, 0⟩).rgb) := by
  induction cs with
  | nil =>
    intro ch cur tbl _
    refine ⟨rfl, ?_, ?_⟩
    · intro j
      simp only [List.foldl_nil, List.length_nil]
      rw [if_neg (by omega)]
    · simp
  | cons c cs ih =>
    intro ch cur tbl hlen
    simp only [List.length_cons] at hlen
    have hcur : cur < tbl.length := by omega
    rw [List.foldl_cons, cmdColorsStep_eq ch cur tbl c hcur]
    have hlen' : cur + 1 + cs.length ≤ (tbl.set cur c.rgb).length := by
      rw [List.length_set]
      omega
    obtain ⟨ih1, ih2, ih3⟩ := ih (ch || decide (tbl.getD cur 0 ≠ c.rgb)) (cur + 1)
      (tbl.set cur c.rgb) hlen'
    have hget : ∀ j, (tbl.set cur c.rgb).getD j 0 = if j = cur then c.rgb else tbl.getD j 0 := by
      intro j
      rw [List.getD_eq_getElem?_getD, List.getD_eq_getElem?_getD, List.getElem?_set]
      by_cases hj : cur = j
      · subst hj
        simp [hcur]
      · have hj' : ¬ j = cur := fun h => hj h.symm
        simp [hj, hj']
    refine ⟨?_, ?_, ?_⟩
    · rw [ih1, List.length_set]
    · intro j
      rw [ih2 j, hget j, List.length_cons]
      by_cases hj : j = cur
      · subst hj
        rw [if_neg (by omega), if_pos rfl, if_pos (by omega)]
        simp
      · rw [if_neg hj]
        by_cases hin : cur + 1 ≤ j ∧ j < cur + 1 + cs.length
        · rw [if_pos hin, if_pos (by omega)]
          have hsub : j - cur = (j - (cur + 1)) + 1 := by omega
          rw [hsub, List.getD_cons_succ]
        · rw [if_neg hin, if_neg (by omega)]
    · rw [ih3]
      constructor
      · rintro (h | ⟨i, hi, hne⟩)
        · rw [Bool.or_eq_true] at h
          rcases h with h | h
          · exact Or.inl h
          · refine Or.inr ⟨0, by simp, ?_⟩
            simpa using h
        · refine Or.inr ⟨i + 1, by simp [hi], ?_⟩
          rw [hget, if_neg (by omega)] at hne
          rw [List.getD_cons_succ]
          have e : cur + (i + 1) = cur + 1 + i := by omega
          rw [e]
          exact hne
      · rintro (h | ⟨i, hi, hne⟩)
        · exact Or.inl (by simp [h])
        · cases i with
          | zero =>
            refine Or.inl ?_
            rw [Bool.or_eq_true]
            refine Or.inr ?_
            simpa using hne
          | succ i =>
            refine Or.inr ⟨i, by simpa using hi, ?_⟩
            rw [hget, if_neg (by omega)]
            rw [List.getD_cons_succ] at hne
            have e : cur + (i + 1) = cur + 1 + i := by omega
            rw [e] at hne
            exact hne

theorem and_bit_eq (b i : Nat) : b &&& 2 ^ i = (b / 2 ^ i % 2) * 2 ^ i := by
  rw [Nat.and_two_pow, Nat.testBit_to_div_mod]
  have h := Nat.mod_two_eq_zero_or_one (b / 2 ^ i)
  rcases h with h | h <;> simp [h]

theorem and_20_eq (b : Nat) : b &&& 0x20 = b / 32 % 2 * 32 := by
  have h := and_bit_eq b 5
  norm_num at h
  exact h

theorem and_10_eq (b : Nat) : b &&& 0x10 = b / 16 % 2 * 16 := by
  have h := and_bit_eq b 4
  norm_num at h
  exact h

theorem and_08_eq (b : Nat) : b &&& 0x08 = b / 8 % 2 * 8 := by
  have h := and_bit_eq b 3
  norm_num at h
  exact h

theorem and_04_eq (b : Nat) : b &&& 0x04 = b / 4 % 2 * 4 := by
  have h := and_bit_eq b 2
  norm_num at h
  exact h

theorem and_02_eq (b : Nat) : b &&& 0x02 = b / 2 % 2 * 2 := by
  have h := and_bit_eq b 1
  norm_num at h
  exact h

theorem shl2_or_eq (a b : Nat) (ha : a < 4) (hb : b < 4) : (a <<< 2) ||| b = a * 4 + b := by
  interval_cases a <;> interval_cases b <;> rfl

/-- The red sum of the constructor of `CdgColorsData` is bits 2-5 of the low byte. -/
theorem decode_red (lo hi : Nat) :
    (CdgColorsData.decode lo hi).red = 17 * ((lo >>> 2) &&& 0x0F) := by
  have er : (lo >>> 2) &&& 0x0F = lo / 4 % 16 := by
    rw [Nat.shiftRight_eq_div_pow]
    exact Nat.and_pow_two_sub_one_eq_mod _ 4
  rw [er]
  unfold CdgColorsData.decode
  simp only [and_20_eq, and_10_eq, and_08_eq, and_04_eq]
  split_ifs <;> omega

/-- The green sum is bits 0-1 of the low byte above bits 4-5 of the high byte. -/
theorem decode_green (lo hi : Nat) :
    (CdgColorsData.decode lo hi).green =
      17 * (((lo &&& 0x03) <<< 2) ||| ((hi >>> 4) &&& 0x03)) := by
  have eg1 : lo &&& 0x03 = lo % 4 := Nat.and_pow_two_sub_one_eq_mod _ 2
  have eg2 : (hi >>> 4) &&& 0x03 = hi / 16 % 4 := by
    rw [Nat.shiftRight_eq_div_pow]
    exact Nat.and_pow_two_sub_one_eq_mod _ 2
  have eg : ((lo &&& 0x03) <<< 2) ||| ((hi >>> 4) &&& 0x03) = lo % 4 * 4 + hi / 16 % 4 := by
    rw [eg1, eg2]
    exact shl2_or_eq _ _ (by omega) (by omega)
  rw [eg]
  clear eg eg1 eg2
  unfold CdgColorsData.decode
  simp only [and_20_eq, and_10_eq, and_02_eq, Nat.and_one_is_mod]
  split_ifs <;> omega

/-- The blue sum is bits 0-3 of the high byte. -/
theorem decode_blue (lo hi : Nat) :
    (CdgColorsData.decode lo hi).blue = 17 * (hi &&& 0x0F) := by
  have eb : hi &&& 0x0F = hi % 16 := Nat.and_pow_two_sub_one_eq_mod _ 4
  rw [eb]
  unfold CdgColorsData.decode
  simp only [and_08_eq, and_04_eq, and_02_eq, Nat.and_one_is_mod]
  split_ifs <;> omega

/-- The colour built by one iteration of the constructor loop of `CdgColorsData`. -/
theorem decode_formula (lo hi : Nat) :
    CdgColorsData.decode lo hi =
      ⟨17 * ((lo >>> 2) &&& 0x0F),
        17 * (((lo &&& 0x03) <<< 2) ||| ((hi >>> 4) &&& 0x03)),
        17 * (hi &&& 0x0F)⟩ := by
  rw [← decode_red lo hi, ← decode_green lo hi, ← decode_blue lo hi]

/-- The colour built by one iteration, written with division and remainder. -/
theorem decode_divmod (lo hi : Nat) :
    CdgColorsData.decode lo hi =
      ⟨17 * (lo / 4 % 16), 17 * (lo % 4 * 4 + hi / 16 % 4), 17 * (hi % 16)⟩ := by
  have er : (lo >>> 2) &&& 0x0F = lo / 4 % 16 := by
    rw [Nat.shiftRight_eq_div_pow]
    exact Nat.and_pow_two_sub_one_eq_mod _ 4
  have eb : hi &&& 0x0F = hi % 16 := Nat.and_pow_two_sub_one_eq_mod _ 4
  have eg1 : lo &&& 0x03 = lo % 4 := Nat.and_pow_two_sub_one_eq_mod _ 2
  have eg2 : (hi >>> 4) &&& 0x03 = hi / 16 % 4 := by
    rw [Nat.shiftRight_eq_div_pow]
    exact Nat.and_pow_two_sub_one_eq_mod _ 2
  have eg : ((lo &&& 0x03) <<< 2) ||| ((hi >>> 4) &&& 0x03) = lo % 4 * 4 + hi / 16 % 4 := by
    rw [eg1, eg2]
    exact shl2_or_eq _ _ (by omega) (by omega)
  rw [decode_formula, er, eb, eg]

/-- Bits 6 and 7 of either byte do not reach the decoded colour. -/
theorem decode_low_bits (lo hi : Nat) :
    CdgColorsData.decode (lo &&& 0x3F) (hi &&& 0x3F) = CdgColorsData.decode lo hi := by
  have el : lo &&& 0x3F = lo % 64 := Nat.and_pow_two_sub_one_eq_mod _ 6
  have eh : hi &&& 0x3F = hi % 64 := Nat.and_pow_two_sub_one_eq_mod _ 6
  rw [el, eh, decode_divmod, decode_divmod, QColor.mk.injEq]
  refine ⟨?_, ?_, ?_⟩ <;> omega

/-- Entry `k` of the colours decoded from a payload. -/
theorem ofData_colors_getElem? (data : Nat → Nat) (k : Nat) (hk : k < 8) :
    (CdgColorsData.ofData data).colors[k]?
      = some (CdgColorsData.decode (data (2 * k)) (data (2 * k + 1))) := by
  simp [CdgColorsData.ofData, List.getElem?_range hk]

theorem ofData_colors_length (data : Nat → Nat) :
    (CdgColorsData.ofData data).colors.length = 8 := by
  simp [CdgColorsData.ofData]

theorem ofData_colors_getD (data : Nat → Nat) (k : Nat) (hk : k < 8) :
    (CdgColorsData.ofData data).colors.getD k ⟨0, 0, 0⟩
      = CdgColorsData.decode (data (2 * k)) (data (2 * k + 1)) := by
  rw [List.getD_eq_getElem?_getD, ofData_colors_getElem? data k hk]
  rfl

theorem getElem?_eq_some_getD (l : List Nat) (j : Nat) (h : j < l.length) :
    l[j]? = some (l.getD j 0) := by
  rw [List.getD_eq_getElem?_getD, List.getElem?_eq_getElem h]
  rfl

/-- What `cmdColors` does to a 16-entry palette: `base` is 8 for the high table and 0 for the
low one. -/
theorem cmdColors_spec (f : CdgImageFrame) (data : Nat → Nat) (table : CdgColorTables)
    (base : Nat) (hbase : base = if table = CdgColorTables.HighColors then 8 else 0)
    (hpal : f.colorTable.length = 16) :
    (cmdColors f (CdgColorsData.ofData data) table).2.colorTable.length = 16 ∧
    (∀ j, (cmdColors f (CdgColorsData.ofData data) table).2.colorTable.getD j 0 =
      if base ≤ j ∧ j < base + 8 then
        (CdgColorsData.decode (data (2 * (j - base))) (data (2 * (j - base) + 1))).rgb
      else f.colorTable.getD j 0) ∧
    ((cmdColors f (CdgColorsData.ofData data) table).1 = true ↔
      ∃ k, k < 8 ∧ f.colorTable.getD (base + k) 0
        ≠ (CdgColorsData.decode (data (2 * k)) (data (2 * k + 1))).rgb) := by
  have hb : base ≤ 8 := by
    rw [hbase]
    split_ifs <;> omega
  have hfold := cmdColors_fold (CdgColorsData.ofData data).colors false base f.colorTable
    (by rw [ofData_colors_length, hpal]; omega)
  rw [ofData_colors_length] at hfold
  obtain ⟨h1, h2, h3⟩ := hfold
  have hcm : cmdColors f (CdgColorsData.ofData data) table =
      (((CdgColorsData.ofData data).colors.foldl cmdColorsStep (false, base, f.colorTable)).1,
        { f with colorTable :=
          ((CdgColorsData.ofData data).colors.foldl cmdColorsStep
            (false, base, f.colorTable)).2.2 }) := by
    rw [hbase]
    rfl
  generalize (CdgColorsData.ofData data).colors.foldl cmdColorsStep
    (false, base, f.colorTable) = F at h1 h2 h3 hcm
  rw [hcm]
  refine ⟨?_, ?_, ?_⟩
  · rw [← hpal]
    exact h1
  · intro j
    dsimp only
    rw [h2 j]
    by_cases hj : base ≤ j ∧ j < base + 8
    · rw [if_pos hj, if_pos hj, ofData_colors_getD data (j - base) (by omega)]
    · rw [if_neg hj, if_neg hj]
  · dsimp only
    rw [h3]
    constructor
    · rintro (h | ⟨i, hi, hne⟩)
      · exact Bool.noConfusion h
      · refine ⟨i, hi, ?_⟩
        rw [ofData_colors_getD data i hi] at hne
        exact hne
    · rintro ⟨i, hi, hne⟩
      refine Or.inr ⟨i, hi, ?_⟩
      rw [ofData_colors_getD data i hi]
      exact hne

/-- What `applySubCode` does on a colour-table packet, low or high. -/
theorem applySubCode_colors (f : CdgImageFrame) (p : CDG_SubCode)
    (hc : p.command &&& 0x3F = 9)
    (hi : p.instruction &&& 0x3F = 30 ∨ p.instruction &&& 0x3F = 31) :
    applySubCode f p =
      ((cmdColors f (CdgColorsData.ofData p.data)
          (if p.instruction &&& 0x3F = 31 then CdgColorTables.HighColors
            else CdgColorTables.LowColors)).1,
        { (cmdColors f (CdgColorsData.ofData p.data)
            (if p.instruction &&& 0x3F = 31 then CdgColorTables.HighColors
              else CdgColorTables.LowColors)).2 with
          m_lastCmdWasMempreset := decide (p.instruction = 1) }) := by
  rw [applySubCode_of_command f p hc]
  rcases hi with hi | hi
  · have hne : ¬ (p.instruction &&& 0x3F = 31) := by omega
    rw [dispatch_colorsLow f p hi, if_neg hne]
  · rw [dispatch_colorsHigh f p hi, if_pos hi]

/-- The method `cmdColors` touches nothing but the colour table. -/
theorem cmdColors_rest (f : CdgImageFrame) (d : CdgColorsData) (table : CdgColorTables) :
    (cmdColors f d table).2.bits = f.bits ∧
    (cmdColors f d table).2.m_curHOffset = f.m_curHOffset ∧
    (cmdColors f d table).2.m_curVOffset = f.m_curVOffset :=
  ⟨rfl, rfl, rfl⟩

/-- The fill of `QImage::fill` reaches every byte of the image. -/
theorem imageFill_range (mem : Mem) (c : Nat) (hc : c < 16) :
    ∀ a, a < 64800 → imageFill mem c a < 16 := by
  intro a ha
  simp only [imageFill, memset, bytesPerLine, FRAME_FULL_HEIGHT]
  rw [if_pos (by omega)]
  exact hc

theorem cmdMemoryPreset_range (f : CdgImageFrame) (data : Nat → Nat)
    (h : ∀ a, a < 64800 → f.bits a < 16) :
    ∀ a, a < 64800 → (cmdMemoryPreset f (CdgMemoryPresetData.ofData data)).2.bits a < 16 := by
  have hlt := and_0F_lt (data 0)
  simp only [cmdMemoryPreset, CdgMemoryPresetData.ofData, clamp_and_0F]
  split_ifs
  · exact h
  · exact h
  · rw [fillByte_natCast _ (by omega)]
    exact imageFill_range f.bits _ hlt

theorem cmdBorderPreset_range (f : CdgImageFrame) (data : Nat → Nat)
    (h : ∀ a, a < 64800 → f.bits a < 16) :
    ∀ a, a < 64800 → (cmdBorderPreset f (CdgBorderPresetData.ofData data)).bits a < 16 := by
  have hlt := and_0F_lt (data 0)
  intro a ha
  rw [cmdBorderPreset_bits]
  dsimp only
  rw [borderLoop_closed]
  split_ifs
  · exact hlt
  · exact h a ha

theorem tileColor_lt (t : CdgTileBlockData) (d k : Nat) (h0 : t.color0 < 16)
    (h1 : t.color1 < 16) : tileColor t d k < 16 := by
  unfold tileColor
  split_ifs
  · exact h1
  · exact h0

theorem cmdTileBlock_range (f : CdgImageFrame) (data : Nat → Nat) (type : TileBlockType)
    (h : ∀ a, a < 64800 → f.bits a < 16) :
    ∀ a, a < 64800 → (cmdTileBlock f (CdgTileBlockData.ofData data) type).bits a < 16 := by
  intro a ha
  by_cases hbad : 18 ≤ data 2 &&& 0x1F ∨ 50 ≤ data 3 &&& 0x3F
  · rw [cmdTileBlock_rejected f data type hbad]
    exact h a ha
  · have hrow : data 2 &&& 0x1F < 18 := by omega
    have hcol : data 3 &&& 0x3F < 50 := by omega
    have hc0 : (CdgTileBlockData.ofData data).color0 < 16 := and_0F_lt (data 0)
    have hc1 : (CdgTileBlockData.ofData data).color1 < 16 := and_0F_lt (data 1)
    rw [cmdTileBlock_accepted f data type hrow hcol]
    dsimp only
    rw [tileLoop_closed _ _ (tileBlock_left_le data hcol)]
    split_ifs
    · cases type
      · exact tileColor_lt _ _ _ hc0 hc1
      · exact @Nat.xor_lt_two_pow _ _ 4 (h a ha) (tileColor_lt _ _ _ hc0 hc1)
    · exact h a ha

theorem scrollLeftLoop_range (c : Nat) (type : ScrollType) (mem : Mem) (hc : c < 16)
    (h : ∀ a, a < 64800 → mem a < 16) :
    ∀ a, a < 64800 → forLoop 216 (scrollLeftLine c type) mem a < 16 := by
  intro a ha
  rw [scrollLeftLoop_apply, if_pos (by omega), scrollLeftLine_apply, if_pos rfl]
  cases type <;> dsimp only <;> split_ifs <;>
    first | exact hc | exact h _ (by omega)

theorem scrollRightLoop_range (c : Nat) (type : ScrollType) (mem : Mem) (hc : c < 16)
    (h : ∀ a, a < 64800 → mem a < 16) :
    ∀ a, a < 64800 → forLoop 216 (scrollRightLine c type) mem a < 16 := by
  intro a ha
  rw [scrollRightLoop_apply, if_pos (by omega), scrollRightLine_apply, if_pos rfl]
  cases type <;> dsimp only <;> split_ifs <;>
    first | exact hc | exact h _ (by omega)

theorem scrollUp_range (c : Nat) (type : ScrollType) (mem : Mem) (hc : c < 16)
    (h : ∀ a, a < 64800 → mem a < 16) :
    ∀ a, a < 64800 → scrollUp c type mem a < 16 := by
  intro a ha
  rw [scrollUp_apply, if_pos ha]
  cases type <;> dsimp only <;> split_ifs <;>
    first | exact hc | exact h _ (by omega)

theorem scrollDown_range (c : Nat) (type : ScrollType) (mem : Mem) (hc : c < 16)
    (h : ∀ a, a < 64800 → mem a < 16) :
    ∀ a, a < 64800 → scrollDown c type mem a < 16 := by
  intro a ha
  rw [scrollDown_apply, if_pos ha]
  cases type <;> dsimp only <;> split_ifs <;>
    first | exact hc | exact h _ (by omega)

theorem cmdScroll_range (f : CdgImageFrame) (data : Nat → Nat) (type : ScrollType)
    (h : ∀ a, a < 64800 → f.bits a < 16) :
    ∀ a, a < 64800 → (cmdScroll f (CdgScrollCmdData.ofData data) type).bits a < 16 := by
  have hc : (CdgScrollCmdData.ofData data).color < 16 := and_0F_lt (data 0)
  have hH : ∀ a, a < 64800 →
      scrollHorizontal (CdgScrollCmdData.ofData data) type f.bits a < 16 := by
    unfold scrollHorizontal
    by_cases h2 : (CdgScrollCmdData.ofData data).hSCmd = 2
    · have h1 : ¬ (CdgScrollCmdData.ofData data).hSCmd = 1 := by omega
      simp only [if_pos h2, if_neg h1]
      exact scrollLeftLoop_range _ _ _ hc h
    · by_cases h1 : (CdgScrollCmdData.ofData data).hSCmd = 1
      · simp only [if_neg h2, if_pos h1]
        exact scrollRightLoop_range _ _ _ hc h
      · simp only [if_neg h2, if_neg h1]
        exact h
  show ∀ a, a < 64800 → scrollVertical (CdgScrollCmdData.ofData data) type
    (scrollHorizontal (CdgScrollCmdData.ofData data) type f.bits) a < 16
  unfold scrollVertical
  by_cases h2 : (CdgScrollCmdData.ofData data).vSCmd = 2
  · have h1 : ¬ (CdgScrollCmdData.ofData data).vSCmd = 1 := by omega
    simp only [if_pos h2, if_neg h1]
    exact scrollUp_range _ _ _ hc hH
  · by_cases h1 : (CdgScrollCmdData.ofData data).vSCmd = 1
    · simp only [if_neg h2, if_pos h1]
      exact scrollDown_range _ _ _ hc hH
    · simp only [if_neg h2, if_neg h1]
      exact hH

/-- Every case of the switch keeps the pixels of the image within 0..15. -/
theorem dispatch_range (f : CdgImageFrame) (p : CDG_SubCode)
    (h : ∀ a, a < 64800 → f.bits a < 16) :
    ∀ a, a < 64800 → (dispatch f p).2.bits a < 16 := by
  unfold dispatch
  dsimp only
  split_ifs
  · exact cmdMemoryPreset_range f p.data h
  · exact cmdBorderPreset_range f p.data h
  · exact cmdTileBlock_range f p.data _ h
  · exact cmdScroll_range f p.data _ h
  · exact cmdScroll_range f p.data _ h
  · exact h
  · exact h
  · exact h
  · exact cmdTileBlock_range f p.data _ h
  · exact h

theorem applySubCode_range (f : CdgImageFrame) (p : CDG_SubCode)
    (h : ∀ a, a < 64800 → f.bits a < 16) :
    ∀ a, a < 64800 → (applySubCode f p).2.bits a < 16 := by
  unfold applySubCode
  split_ifs
  · exact h
  · exact dispatch_range f p h

theorem applySubCodes_range (ps : List CDG_SubCode) :
    ∀ f : CdgImageFrame, (∀ a, a < 64800 → f.bits a < 16) →
      ∀ a, a < 64800 → (applySubCodes f ps).bits a < 16 := by
  induction ps with
  | nil =>
    intro f h
    exact h
  | cons p ps ih =>
    intro f h
    exact ih (applySubCode f p).2 (applySubCode_range f p h)

theorem cmdColorsStep_def (ch : Bool) (cur : Nat) (tbl : List Nat) (c : QColor) :
    cmdColorsStep (ch, cur, tbl) c =
      if tbl.getD cur 0 ≠ c.rgb then (true, cur + 1, setColor tbl cur c.rgb)
      else (ch, cur + 1, tbl) := rfl

/-- Once `changed` is set, the `for_each` of `cmdColors` keeps it set. -/
theorem cmdColors_fold_true (cs : List QColor) :
    ∀ (cur : Nat) (tbl : List Nat), (cs.foldl cmdColorsStep (true, cur, tbl)).1 = true := by
  induction cs with
  | nil =>
    intro cur tbl
    rfl
  | cons c cs ih =>
    intro cur tbl
    rw [List.foldl_cons, cmdColorsStep_def]
    split_ifs
    · exact ih _ _
    · exact ih _ _

/-- When the `for_each` of `cmdColors` ends with `changed` clear, the table is as before. -/
theorem cmdColors_fold_false (cs : List QColor) :
    ∀ (ch : Bool) (cur : Nat) (tbl : List Nat),
      (cs.foldl cmdColorsStep (ch, cur, tbl)).1 = false →
      (cs.foldl cmdColorsStep (ch, cur, tbl)).2.2 = tbl := by
  induction cs with
  | nil =>
    intro ch cur tbl _
    rfl
  | cons c cs ih =>
    intro ch cur tbl hfalse
    rw [List.foldl_cons, cmdColorsStep_def] at hfalse ⊢
    by_cases hne : tbl.getD cur 0 ≠ c.rgb
    · rw [if_pos hne, cmdColors_fold_true] at hfalse
      exact Bool.noConfusion hfalse
    · rw [if_neg hne] at hfalse ⊢
      exact ih _ _ _ hfalse

theorem cmdColors_false (f : CdgImageFrame) (d : CdgColorsData) (table : CdgColorTables)
    (h : (cmdColors f d table).1 = false) :
    (cmdColors f d table).2.colorTable = f.colorTable :=
  cmdColors_fold_false d.colors false _ f.colorTable h

/-- A `false` out of the switch leaves pixels and palette as they were. -/
theorem dispatch_false (f : CdgImageFrame) (p : CDG_SubCode)
    (h : (dispatch f p).1 = false) :
    (dispatch f p).2.bits = f.bits ∧ (dispatch f p).2.colorTable = f.colorTable := by
  by_cases i1 : p.instruction &&& 0x3F = 1
  · rw [dispatch_memoryPreset f p i1] at h ⊢
    unfold cmdMemoryPreset at h ⊢
    split_ifs at h ⊢
    · exact ⟨rfl, rfl⟩
    · exact ⟨rfl, rfl⟩
  by_cases i2 : p.instruction &&& 0x3F = 2
  · rw [dispatch_borderPreset f p i2] at h
    exact Bool.noConfusion h
  by_cases i6 : p.instruction &&& 0x3F = 6
  · rw [dispatch_tileBlock f p i6] at h
    exact Bool.noConfusion h
  by_cases i20 : p.instruction &&& 0x3F = 20
  · rw [dispatch_scrollPreset f p i20] at h
    exact Bool.noConfusion h
  by_cases i24 : p.instruction &&& 0x3F = 24
  · rw [dispatch_scrollCopy f p i24] at h
    exact Bool.noConfusion h
  by_cases i30 : p.instruction &&& 0x3F = 30
  · rw [dispatch_colorsLow f p i30] at h ⊢
    exact ⟨(cmdColors_rest f _ _).1, cmdColors_false f _ _ h⟩
  by_cases i31 : p.instruction &&& 0x3F = 31
  · rw [dispatch_colorsHigh f p i31] at h ⊢
    exact ⟨(cmdColors_rest f _ _).1, cmdColors_false f _ _ h⟩
  by_cases i38 : p.instruction &&& 0x3F = 38
  · rw [dispatch_tileBlockXOR f p i38] at h
    exact Bool.noConfusion h
  rw [dispatch_unrecognised f p i1 i2 i6 i20 i24 i30 i31 i38]
  exact ⟨rfl, rfl⟩

/-- When `cmdColors` reports a change on a 16-entry palette, the palette is not as before. -/
theorem cmdColors_true (f : CdgImageFrame) (data : Nat → Nat) (table : CdgColorTables)
    (hpal : f.colorTable.length = 16)
    (h : (cmdColors f (CdgColorsData.ofData data) table).1 = true) :
    (cmdColors f (CdgColorsData.ofData data) table).2.colorTable ≠ f.colorTable := by
  obtain ⟨base, hbase⟩ : ∃ b, b = if table = CdgColorTables.HighColors then 8 else 0 :=
    ⟨_, rfl⟩
  obtain ⟨_, h2, h3⟩ := cmdColors_spec f data table base hbase hpal
  obtain ⟨k, hk, hne⟩ := h3.mp h
  intro heq
  apply hne
  have hj := h2 (base + k)
  rw [heq, if_pos (by omega)] at hj
  have e : base + k - base = k := by omega
  rw [e] at hj
  exact hj

/-- The horizontal offset read from the payload is `data[1] & 0x07`. -/
theorem hSOffset_ofData (data : Nat → Nat) :
    (CdgScrollCmdData.ofData data).hSOffset = data 1 &&& 0x07 := by
  have h : (data 1 &&& 0x3F) &&& 0x07 = data 1 &&& 0x07 := by
    rw [Nat.and_assoc]
    rfl
  simp only [CdgScrollCmdData.ofData, h]

/-- The vertical offset read from the payload is `data[2] & 0x0F`. -/
theorem vSOffset_ofData (data : Nat → Nat) :
    (CdgScrollCmdData.ofData data).vSOffset = data 2 &&& 0x0F := by
  have h : (data 2 &&& 0x3F) &&& 0x0F = data 2 &&& 0x0F := by
    rw [Nat.and_assoc]
    rfl
  simp only [CdgScrollCmdData.ofData, h]

/-- The last two statements of `cmdScroll` store the offsets of the packet. -/
theorem cmdScroll_offsets (f : CdgImageFrame) (d : CdgScrollCmdData) (type : ScrollType) :
    (cmdScroll f d type).m_curHOffset = d.hSOffset ∧
    (cmdScroll f d type).m_curVOffset = d.vSOffset := by
  unfold cmdScroll
  dsimp only
  constructor
  · split_ifs with h
    · rfl
    · exact not_not.mp h
  · split_ifs with h
    · rfl
    · exact not_not.mp h

/-- The method `cmdScroll` does not touch the colour table. -/
theorem cmdScroll_colorTable (f : CdgImageFrame) (d : CdgScrollCmdData) (type : ScrollType) :
    (cmdScroll f d type).colorTable = f.colorTable := rfl

theorem cmdMemoryPreset_rest (f : CdgImageFrame) (m : CdgMemoryPresetData) :
    (cmdMemoryPreset f m).2.colorTable = f.colorTable ∧
    (cmdMemoryPreset f m).2.m_curHOffset = f.m_curHOffset ∧
    (cmdMemoryPreset f m).2.m_curVOffset = f.m_curVOffset := by
  unfold cmdMemoryPreset
  split_ifs <;> exact ⟨rfl, rfl, rfl⟩

theorem cmdBorderPreset_rest (f : CdgImageFrame) (b : CdgBorderPresetData) :
    (cmdBorderPreset f b).colorTable = f.colorTable ∧
    (cmdBorderPreset f b).m_curHOffset = f.m_curHOffset ∧
    (cmdBorderPreset f b).m_curVOffset = f.m_curVOffset := by
  unfold cmdBorderPreset
  split_ifs <;> exact ⟨rfl, rfl, rfl⟩

theorem cmdTileBlock_rest (f : CdgImageFrame) (t : CdgTileBlockData) (type : TileBlockType) :
    (cmdTileBlock f t type).colorTable = f.colorTable ∧
    (cmdTileBlock f t type).m_curHOffset = f.m_curHOffset ∧
    (cmdTileBlock f t type).m_curVOffset = f.m_curVOffset := by
  unfold cmdTileBlock
  split_ifs <;> exact ⟨rfl, rfl, rfl⟩

/-- Every case of the switch other than the two scroll cases keeps both stored offsets. -/
theorem dispatch_offsets (f : CdgImageFrame) (p : CDG_SubCode)
    (h20 : p.instruction &&& 0x3F ≠ 20) (h24 : p.instruction &&& 0x3F ≠ 24) :
    (dispatch f p).2.m_curHOffset = f.m_curHOffset ∧
    (dispatch f p).2.m_curVOffset = f.m_curVOffset := by
  by_cases i1 : p.instruction &&& 0x3F = 1
  · rw [dispatch_memoryPreset f p i1]
    exact (cmdMemoryPreset_rest f _).2
  by_cases i2 : p.instruction &&& 0x3F = 2
  · rw [dispatch_borderPreset f p i2]
    exact (cmdBorderPreset_rest f _).2
  by_cases i6 : p.instruction &&& 0x3F = 6
  · rw [dispatch_tileBlock f p i6]
    exact (cmdTileBlock_rest f _ _).2
  by_cases i30 : p.instruction &&& 0x3F = 30
  · rw [dispatch_colorsLow f p i30]
    exact (cmdColors_rest f _ _).2
  by_cases i31 : p.instruction &&& 0x3F = 31
  · rw [dispatch_colorsHigh f p i31]
    exact (cmdColors_rest f _ _).2
  by_cases i38 : p.instruction &&& 0x3F = 38
  · rw [dispatch_tileBlockXOR f p i38]
    exact (cmdTileBlock_rest f _ _).2
  rw [dispatch_unrecognised f p i1 i2 i6 h20 h24 i30 i31 i38]
  exact ⟨rfl, rfl⟩

/-- The horizontal step writes no byte past the 216 lines of the image. -/
theorem scrollHorizontal_outside (d : CdgScrollCmdData) (type : ScrollType) (mem : Mem)
    (a : Nat) (ha : 64800 ≤ a) : scrollHorizontal d type mem a = mem a := by
  unfold scrollHorizontal
  by_cases h2 : d.hSCmd = 2
  · have h1 : ¬ d.hSCmd = 1 := by omega
    simp only [if_pos h2, if_neg h1]
    rw [scrollLeftLoop_apply, if_neg (by omega)]
  · by_cases h1 : d.hSCmd = 1
    · simp only [if_neg h2, if_pos h1]
      rw [scrollRightLoop_apply, if_neg (by omega)]
    · simp only [if_neg h2, if_neg h1]

/-- The vertical step writes no byte past the 216 lines of the image. -/
theorem scrollVertical_outside (d : CdgScrollCmdData) (type : ScrollType) (mem : Mem)
    (a : Nat) (ha : 64800 ≤ a) : scrollVertical d type mem a = mem a := by
  unfold scrollVertical
  by_cases h2 : d.vSCmd = 2
  · have h1 : ¬ d.vSCmd = 1 := by omega
    simp only [if_pos h2, if_neg h1]
    rw [scrollUp_apply, if_neg (by omega)]
  · by_cases h1 : d.vSCmd = 1
    · simp only [if_neg h2, if_pos h1]
      rw [scrollDown_apply, if_neg (by omega)]
    · simp only [if_neg h2, if_neg h1]

/-- The horizontal step of a copy scroll at a byte of the image, by byte offset. -/
theorem scrollHorizontal_copy_at (d : CdgScrollCmdData) (mem : Mem) (a : Nat)
    (ha : a < 64800) :
    scrollHorizontal d ScrollType.ScrollCopy mem a =
      mem (a / 300 * 300 + (if d.hSCmd = 2 then (a % 300 + 6) % 300
        else if d.hSCmd = 1 then (a % 300 + 294) % 300 else a % 300)) := by
  have h := scrollHorizontal_copy d mem (a / 300) (a % 300) (by omega) (by omega)
  have e : a / 300 * 300 + a % 300 = a := by omega
  rw [e] at h
  exact h

/-- The vertical step of a copy scroll at a byte of the image, by byte offset. -/
theorem scrollVertical_copy_at (d : CdgScrollCmdData) (mem : Mem) (a : Nat)
    (ha : a < 64800) :
    scrollVertical d ScrollType.ScrollCopy mem a =
      mem ((if d.vSCmd = 2 then (a / 300 + 12) % 216
        else if d.vSCmd = 1 then (a / 300 + 204) % 216 else a / 300) * 300 + a % 300) := by
  have h := scrollVertical_copy d mem (a / 300) (a % 300) (by omega) (by omega)
  have e : a / 300 * 300 + a % 300 = a := by omega
  rw [e] at h
  exact h

/-- A left copy scroll followed by a right copy scroll is the identity on memory. -/
theorem scrollHorizontal_left_right (d1 d2 : CdgScrollCmdData) (mem : Mem)
    (h1 : d1.hSCmd = 2) (h2 : d2.hSCmd = 1) :
    scrollHorizontal d2 ScrollType.ScrollCopy (scrollHorizontal d1 ScrollType.ScrollCopy mem)
      = mem := by
  funext a
  by_cases ha : a < 64800
  · have n2 : ¬ d2.hSCmd = 2 := by omega
    rw [scrollHorizontal_copy_at d2 _ a ha, if_neg n2, if_pos h2,
      scrollHorizontal_copy_at d1 mem _ (by omega), if_pos h1]
    refine congrArg mem ?_
    omega
  · rw [scrollHorizontal_outside _ _ _ a (by omega), scrollHorizontal_outside _ _ _ a (by omega)]

/-- An upward copy scroll followed by a downward copy scroll is the identity on memory. -/
theorem scrollVertical_up_down (d1 d2 : CdgScrollCmdData) (mem : Mem)
    (h1 : d1.vSCmd = 2) (h2 : d2.vSCmd = 1) :
    scrollVertical d2 ScrollType.ScrollCopy (scrollVertical d1 ScrollType.ScrollCopy mem)
      = mem := by
  funext a
  by_cases ha : a < 64800
  · have n2 : ¬ d2.vSCmd = 2 := by omega
    rw [scrollVertical_copy_at d2 _ a ha, if_neg n2, if_pos h2,
      scrollVertical_copy_at d1 mem _ (by omega), if_pos h1]
    refine congrArg mem ?_
    omega
  · rw [scrollVertical_outside _ _ _ a (by omega), scrollVertical_outside _ _ _ a (by omega)]

/-- A suppressed memory preset with instruction byte `1` returns the frame it was given. -/
theorem applySubCode_repeat (f : CdgImageFrame) (p : CDG_SubCode)
    (hflag : f.m_lastCmdWasMempreset = true) (hc : p.command &&& 0x3F = 9)
    (hi : p.instruction = 1) (hrep : p.data 1 &&& 0x0F ≠ 0) :
    applySubCode f p = (false, f) := by
  have hm : p.instruction &&& 0x3F = 1 := by
    rw [hi]
    rfl
  rw [applySubCode_of_command f p hc, dispatch_memoryPreset f p hm,
    cmdMemoryPreset_suppressed f p.data hflag hrep]
  cases f
  simp only [Prod.mk.injEq, true_and, CdgImageFrame.mk.injEq, decide_eq_true_eq]
  simp only at hflag
  rw [hflag]
  exact decide_eq_true hi

/-- A byte `0x80 .. 0xFF` put in a `char` is negative. -/
theorem charOfByte_high (b : Nat) (h1 : 128 ≤ b) (h2 : b < 256) :
    charOfByte b = (b : Int) - 256 := by
  unfold charOfByte
  have e : b % 256 = b := Nat.mod_eq_of_lt h2
  rw [e, if_neg (by omega)]

/-- A payload object whose colour byte is `0x80 .. 0xFF` has a negative colour field, which
the test `color >= 16` of `cmdMemoryPreset` lets through: unless the call is suppressed as a
repeat, it fills the image with that byte and returns `true`. -/
theorem cmdMemoryPreset_negative_colour (f : CdgImageFrame) (b : Nat) (rep : Int)
    (h1 : 128 ≤ b) (h2 : b < 256) (hs : f.m_lastCmdWasMempreset = false ∨ rep = 0) :
    cmdMemoryPreset f (CdgMemoryPresetData.mk (charOfByte b) rep) =
      (true, { f with bits := imageFill f.bits b }) := by
  have hfill : fillByte ((b : Int) - 256) = b := by
    unfold fillByte
    omega
  unfold cmdMemoryPreset
  dsimp only
  rw [charOfByte_high b h1 h2, if_neg (by omega), if_neg, hfill]
  rintro ⟨e1, e2⟩
  rcases hs with hs | hs
  · rw [hs] at e1
    exact Bool.noConfusion e1
  · exact e2 hs

/-- On the blank frame, the payload object with colour byte `0xFF` (colour field -1) and
repeat 0 is not rejected: the call returns `true` and pixel (0,0) becomes 255. -/
theorem cmdMemoryPreset_colour_FF :
    (CdgMemoryPresetData.mk (charOfByte 0xFF) 0).color = -1 ∧
    (cmdMemoryPreset blankFrame (CdgMemoryPresetData.mk (charOfByte 0xFF) 0)).1 = true ∧
    (cmdMemoryPreset blankFrame (CdgMemoryPresetData.mk (charOfByte 0xFF) 0)).2.pixel 0 0
      = 255 := by
  refine ⟨by decide, ?_, ?_⟩
  · rw [cmdMemoryPreset_negative_colour blankFrame 0xFF 0 (by decide) (by decide) (Or.inl rfl)]
  · rw [cmdMemoryPreset_negative_colour blankFrame 0xFF 0 (by decide) (by decide) (Or.inl rfl)]
    exact imageFill_apply blankFrame.bits 255 0 0 (by decide) (by decide)

/-! ## Claims -/

/-- C1: a packet whose command byte does not satisfy `(command & 0x3F) = 9` makes
`applySubCode` return `false` and leaves the pixel buffer, the palette, both scroll offsets
and the memory-preset flag as they were. -/
theorem applySubCode_foreign_command (f : CdgImageFrame) (p : CDG_SubCode)
    (h : p.command &&& 0x3F ≠ 9) :
    (applySubCode f p).1 = false ∧
    (applySubCode f p).2.bits = f.bits ∧
    (applySubCode f p).2.colorTable = f.colorTable ∧
    (applySubCode f p).2.m_curHOffset = f.m_curHOffset ∧
    (applySubCode f p).2.m_curVOffset = f.m_curVOffset ∧
    (applySubCode f p).2.m_lastCmdWasMempreset = f.m_lastCmdWasMempreset := by
  have hp : applySubCode f p = (false, f) := by
    simp only [applySubCode, SUBCODE_MASK, SUBCODE_COMMAND]
    rw [if_pos h]
  rw [hp]
  exact ⟨rfl, rfl, rfl, rfl, rfl, rfl⟩

theorem applySubCode_foreign_command_witness :
    ((mkSubCode 0x4A 1 [5, 0]).command &&& 0x3F ≠ 9) ∧
    (applySubCode sampleFrame (mkSubCode 0x4A 1 [5, 0])).1 = false ∧
    (applySubCode sampleFrame (mkSubCode 0x4A 1 [5, 0])).2.bits = sampleFrame.bits ∧
    (applySubCode sampleFrame (mkSubCode 0x4A 1 [5, 0])).2.colorTable
      = sampleFrame.colorTable ∧
    (applySubCode sampleFrame (mkSubCode 0x4A 1 [5, 0])).2.m_curHOffset
      = sampleFrame.m_curHOffset ∧
    (applySubCode sampleFrame (mkSubCode 0x4A 1 [5, 0])).2.m_curVOffset
      = sampleFrame.m_curVOffset ∧
    (applySubCode sampleFrame (mkSubCode 0x4A 1 [5, 0])).2.m_lastCmdWasMempreset
      = sampleFrame.m_lastCmdWasMempreset :=
  ⟨by decide, applySubCode_foreign_command sampleFrame (mkSubCode 0x4A 1 [5, 0]) (by decide)⟩

/-- C2: a memory-preset packet that arrives with the memory-preset flag clear, or with a zero
repeat field, makes `applySubCode` return `true` and sets every pixel of the 300x216 canvas to
`c = data[0] & 0x0F`; with stored offsets within 0..5 and 0..11 every one of the 288x192
pixels written by `copyCroppedImagedata` is `c` as well. -/
theorem applySubCode_memoryPreset_fills (f : CdgImageFrame) (p : CDG_SubCode) (dest : Mem)
    (hc : p.command &&& 0x3F = 9) (hi : p.instruction &&& 0x3F = 1)
    (hr : f.m_lastCmdWasMempreset = false ∨ p.data 1 &&& 0x0F = 0) :
    (applySubCode f p).1 = true ∧
    (∀ r x, r < 216 → x < 300 → (applySubCode f p).2.pixel r x = p.data 0 &&& 0x0F) ∧
    (f.m_curHOffset ≤ 5 → f.m_curVOffset ≤ 11 → ∀ y x, y < 192 → x < 288 →
      (copyCroppedImagedata (applySubCode f p).2 dest).pixels (288 * y + x)
        = p.data 0 &&& 0x0F) := by
  have hpix : ∀ r x, r < 216 → x < 300 →
      (applySubCode f p).2.pixel r x = p.data 0 &&& 0x0F := by
    intro r x hr' hx
    rw [applySubCode_of_command f p hc, dispatch_memoryPreset f p hi,
      cmdMemoryPreset_fill f p.data hr]
    exact imageFill_apply f.bits _ r x hr' hx
  have hH : (applySubCode f p).2.m_curHOffset = f.m_curHOffset := by
    rw [applySubCode_of_command f p hc, dispatch_memoryPreset f p hi,
      cmdMemoryPreset_fill f p.data hr]
  have hV : (applySubCode f p).2.m_curVOffset = f.m_curVOffset := by
    rw [applySubCode_of_command f p hc, dispatch_memoryPreset f p hi,
      cmdMemoryPreset_fill f p.data hr]
  refine ⟨?_, hpix, ?_⟩
  · rw [applySubCode_of_command f p hc, dispatch_memoryPreset f p hi,
      cmdMemoryPreset_fill f p.data hr]
  · intro hh hv y x hy hx
    rw [copyCropped_pixels _ dest y x hy hx, hH, hV]
    exact hpix _ _ (by omega) (by omega)

theorem applySubCode_memoryPreset_fills_witness :
    ((mkSubCode 9 1 [0x35, 3]).command &&& 0x3F = 9) ∧
    ((mkSubCode 9 1 [0x35, 3]).instruction &&& 0x3F = 1) ∧
    (sampleFrame.m_lastCmdWasMempreset = false ∨ (mkSubCode 9 1 [0x35, 3]).data 1 &&& 0x0F = 0) ∧
    ((applySubCode sampleFrame (mkSubCode 9 1 [0x35, 3])).1 = true ∧
    (∀ r x, r < 216 → x < 300 →
      (applySubCode sampleFrame (mkSubCode 9 1 [0x35, 3])).2.pixel r x
        = (mkSubCode 9 1 [0x35, 3]).data 0 &&& 0x0F) ∧
    (sampleFrame.m_curHOffset ≤ 5 → sampleFrame.m_curVOffset ≤ 11 →
      ∀ y x, y < 192 → x < 288 →
      (copyCroppedImagedata (applySubCode sampleFrame (mkSubCode 9 1 [0x35, 3])).2
        (fun _ => 0)).pixels (288 * y + x) = (mkSubCode 9 1 [0x35, 3]).data 0 &&& 0x0F)) :=
  ⟨by decide, by decide, Or.inl rfl,
    applySubCode_memoryPreset_fills sampleFrame (mkSubCode 9 1 [0x35, 3]) (fun _ => 0)
      (by decide) (by decide) (Or.inl rfl)⟩

/-- C3 (evaluation of the code at the failing input): on the blank frame, the memory preset
with instruction byte `0x41` (low six bits `1`, colour 1) followed by the memory preset with
instruction byte `0x01`, colour 2 and repeat field 1: both are dispatched as memory presets,
the first leaves the flag clear, and the second is therefore not suppressed: it returns
`true` and repaints pixel (0,0) from 1 to 2. -/
theorem applySubCode_memoryPreset_repeat_after_high_bits :
    ((mkSubCode 9 0x41 [1, 0]).command &&& 0x3F = 9) ∧
    ((mkSubCode 9 0x41 [1, 0]).instruction &&& 0x3F = 1) ∧
    ((mkSubCode 9 0x01 [2, 1]).command &&& 0x3F = 9) ∧
    ((mkSubCode 9 0x01 [2, 1]).instruction &&& 0x3F = 1) ∧
    ((mkSubCode 9 0x01 [2, 1]).data 1 &&& 0x0F ≠ 0) ∧
    (applySubCode blankFrame (mkSubCode 9 0x41 [1, 0])).2.m_lastCmdWasMempreset = false ∧
    (applySubCode blankFrame (mkSubCode 9 0x41 [1, 0])).2.pixel 0 0 = 1 ∧
    (applySubCode (applySubCode blankFrame (mkSubCode 9 0x41 [1, 0])).2
      (mkSubCode 9 0x01 [2, 1])).1 = true ∧
    (applySubCode (applySubCode blankFrame (mkSubCode 9 0x41 [1, 0])).2
      (mkSubCode 9 0x01 [2, 1])).2.pixel 0 0 = 2 := by
  refine ⟨by decide, by decide, by decide, by decide, by decide, ?_, ?_, ?_, ?_⟩
  · decide
  · decide
  · decide
  · decide

/-- C4: a tile-block packet (instruction 6 normal, 38 XOR) with row `data[2] & 0x1F < 18` and
column `data[3] & 0x3F < 50` sets, for `y` in 0..11 and `x` in 0..5, the pixel at canvas row
`row*12+y`, column `column*6+x` to `sel` (normal) or to `old XOR sel` (XOR), where `sel` is
`data[1] & 0x0F` when bit `5-x` of `data[4+y]` is set and `data[0] & 0x0F` otherwise; every
other pixel, the palette and both scroll offsets stay as they were. -/
theorem applySubCode_tileBlock_paints (f : CdgImageFrame) (p : CDG_SubCode)
    (hc : p.command &&& 0x3F = 9)
    (hi : p.instruction &&& 0x3F = 6 ∨ p.instruction &&& 0x3F = 38)
    (hrow : p.data 2 &&& 0x1F < 18) (hcol : p.data 3 &&& 0x3F < 50) :
    (∀ y x, y < 12 → x < 6 →
      (applySubCode f p).2.pixel ((p.data 2 &&& 0x1F) * 12 + y) ((p.data 3 &&& 0x3F) * 6 + x) =
        if p.instruction &&& 0x3F = 6 then
          (if (p.data (4 + y)).testBit (5 - x) then p.data 1 &&& 0x0F else p.data 0 &&& 0x0F)
        else
          f.pixel ((p.data 2 &&& 0x1F) * 12 + y) ((p.data 3 &&& 0x3F) * 6 + x) ^^^
            (if (p.data (4 + y)).testBit (5 - x) then p.data 1 &&& 0x0F
              else p.data 0 &&& 0x0F)) ∧
    (∀ r x, r < 216 → x < 300 →
      ¬ ((p.data 2 &&& 0x1F) * 12 ≤ r ∧ r < (p.data 2 &&& 0x1F) * 12 + 12 ∧
          (p.data 3 &&& 0x3F) * 6 ≤ x ∧ x < (p.data 3 &&& 0x3F) * 6 + 6) →
      (applySubCode f p).2.pixel r x = f.pixel r x) ∧
    (applySubCode f p).2.colorTable = f.colorTable ∧
    (applySubCode f p).2.m_curHOffset = f.m_curHOffset ∧
    (applySubCode f p).2.m_curVOffset = f.m_curVOffset := by
  have hleft := tileBlock_left_le p.data hcol
  rw [applySubCode_tile f p hc hi]
  refine ⟨?_, ?_, ?_, ?_, ?_⟩
  · intro y x hy hx
    have hdiv : (((p.data 2 &&& 0x1F) * 12 + y) * 300 + ((p.data 3 &&& 0x3F) * 6 + x)) / 300
        = (p.data 2 &&& 0x1F) * 12 + y := by omega
    have hmod : (((p.data 2 &&& 0x1F) * 12 + y) * 300 + ((p.data 3 &&& 0x3F) * 6 + x)) % 300
        = (p.data 3 &&& 0x3F) * 6 + x := by omega
    simp only [CdgImageFrame.pixel, scanLine, bytesPerLine]
    rw [cmdTileBlock_accepted f p.data _ hrow hcol]
    dsimp only
    rw [tileLoop_closed _ _ hleft, hdiv, hmod, if_pos]
    · have hy' : (p.data 2 &&& 0x1F) * 12 + y - (CdgTileBlockData.ofData p.data).top = y := by
        simp only [CdgTileBlockData.ofData]
        omega
      have hx' : (p.data 3 &&& 0x3F) * 6 + x - (CdgTileBlockData.ofData p.data).left = x := by
        simp only [CdgTileBlockData.ofData]
        omega
      rw [hy', hx', tileColor_testBit _ _ _ hx]
      rcases hi with hi | hi
      · rw [if_pos hi, if_pos hi]
        rfl
      · have hne : ¬ (p.instruction &&& 0x3F = 6) := by omega
        rw [if_neg hne, if_neg hne]
        rfl
    · simp only [CdgTileBlockData.ofData]
      omega
  · intro r x hr hx hout
    have hdiv : (r * 300 + x) / 300 = r := by omega
    have hmod : (r * 300 + x) % 300 = x := by omega
    simp only [CdgImageFrame.pixel, scanLine, bytesPerLine]
    rw [cmdTileBlock_accepted f p.data _ hrow hcol]
    dsimp only
    rw [tileLoop_closed _ _ hleft, hdiv, hmod, if_neg]
    simp only [CdgTileBlockData.ofData]
    omega
  · rw [cmdTileBlock_accepted f p.data _ hrow hcol]
  · rw [cmdTileBlock_accepted f p.data _ hrow hcol]
  · rw [cmdTileBlock_accepted f p.data _ hrow hcol]

/-- The example of C4 on the code: on the sample frame, a normal tile block at row 0, column 0
with colours 1 and 2 whose first mask byte is `0b111111` and second `0b000000` sets the six
pixels of scan line 0 to 2 and the six pixels of scan line 1 to 1. -/
theorem applySubCode_tileBlock_paints_witness :
    ((mkSubCode 9 6 [1, 2, 0, 0, 0x3F, 0]).command &&& 0x3F = 9) ∧
    ((mkSubCode 9 6 [1, 2, 0, 0, 0x3F, 0]).instruction &&& 0x3F = 6 ∨
      (mkSubCode 9 6 [1, 2, 0, 0, 0x3F, 0]).instruction &&& 0x3F = 38) ∧
    ((mkSubCode 9 6 [1, 2, 0, 0, 0x3F, 0]).data 2 &&& 0x1F < 18) ∧
    ((mkSubCode 9 6 [1, 2, 0, 0, 0x3F, 0]).data 3 &&& 0x3F < 50) ∧
    (∀ x, x < 6 →
      (applySubCode sampleFrame (mkSubCode 9 6 [1, 2, 0, 0, 0x3F, 0])).2.pixel 0 x = 2) ∧
    (∀ x, x < 6 →
      (applySubCode sampleFrame (mkSubCode 9 6 [1, 2, 0, 0, 0x3F, 0])).2.pixel 1 x = 1) := by
  have h := applySubCode_tileBlock_paints sampleFrame (mkSubCode 9 6 [1, 2, 0, 0, 0x3F, 0])
    (by decide) (Or.inl (by decide)) (by decide) (by decide)
  refine ⟨by decide, Or.inl (by decide), by decide, by decide, ?_, ?_⟩
  · intro x hx
    have h0 := h.1 0 x (by decide) hx
    interval_cases x <;> simpa [mkSubCode] using h0
  · intro x hx
    have h1 := h.1 1 x (by decide) hx
    interval_cases x <;> simpa [mkSubCode] using h1

/-- C5: a tile-block packet (normal or XOR) whose decoded row is at least 18 or whose decoded
column is at least 50 leaves every pixel, the palette and both scroll offsets as they were. -/
theorem applySubCode_tileBlock_out_of_canvas (f : CdgImageFrame) (p : CDG_SubCode)
    (hc : p.command &&& 0x3F = 9)
    (hi : p.instruction &&& 0x3F = 6 ∨ p.instruction &&& 0x3F = 38)
    (hbad : 18 ≤ p.data 2 &&& 0x1F ∨ 50 ≤ p.data 3 &&& 0x3F) :
    (applySubCode f p).2.bits = f.bits ∧
    (applySubCode f p).2.colorTable = f.colorTable ∧
    (applySubCode f p).2.m_curHOffset = f.m_curHOffset ∧
    (applySubCode f p).2.m_curVOffset = f.m_curVOffset := by
  rw [applySubCode_tile f p hc hi, cmdTileBlock_rejected f p.data _ hbad]
  exact ⟨rfl, rfl, rfl, rfl⟩

theorem applySubCode_tileBlock_out_of_canvas_witness :
    ((mkSubCode 9 38 [1, 2, 18, 3, 0x3F, 0x15]).command &&& 0x3F = 9) ∧
    ((mkSubCode 9 38 [1, 2, 18, 3, 0x3F, 0x15]).instruction &&& 0x3F = 6 ∨
      (mkSubCode 9 38 [1, 2, 18, 3, 0x3F, 0x15]).instruction &&& 0x3F = 38) ∧
    (18 ≤ (mkSubCode 9 38 [1, 2, 18, 3, 0x3F, 0x15]).data 2 &&& 0x1F ∨
      50 ≤ (mkSubCode 9 38 [1, 2, 18, 3, 0x3F, 0x15]).data 3 &&& 0x3F) ∧
    (applySubCode sampleFrame (mkSubCode 9 38 [1, 2, 18, 3, 0x3F, 0x15])).2.bits
      = sampleFrame.bits ∧
    (applySubCode sampleFrame (mkSubCode 9 38 [1, 2, 18, 3, 0x3F, 0x15])).2.colorTable
      = sampleFrame.colorTable ∧
    (applySubCode sampleFrame (mkSubCode 9 38 [1, 2, 18, 3, 0x3F, 0x15])).2.m_curHOffset
      = sampleFrame.m_curHOffset ∧
    (applySubCode sampleFrame (mkSubCode 9 38 [1, 2, 18, 3, 0x3F, 0x15])).2.m_curVOffset
      = sampleFrame.m_curVOffset :=
  ⟨by decide, Or.inr (by decide), Or.inl (by decide),
    applySubCode_tileBlock_out_of_canvas sampleFrame (mkSubCode 9 38 [1, 2, 18, 3, 0x3F, 0x15])
      (by decide) (Or.inr (by decide)) (Or.inl (by decide))⟩

/-- C6: applying one and the same XOR tile-block packet twice in succession leaves the pixel
buffer equal to what it was before the first application. -/
theorem applySubCode_tileBlockXOR_twice (f : CdgImageFrame) (p : CDG_SubCode)
    (hi : p.instruction &&& 0x3F = 38) :
    (applySubCode (applySubCode f p).2 p).2.bits = f.bits := by
  by_cases hc : p.command &&& 0x3F = 9
  · by_cases hbad : 18 ≤ p.data 2 &&& 0x1F ∨ 50 ≤ p.data 3 &&& 0x3F
    · rw [applySubCode_tile _ p hc (Or.inr hi), applySubCode_tile f p hc (Or.inr hi),
        cmdTileBlock_rejected _ p.data _ hbad, cmdTileBlock_rejected f p.data _ hbad]
    · have hrow : p.data 2 &&& 0x1F < 18 := by omega
      have hcol : p.data 3 &&& 0x3F < 50 := by omega
      have hleft := tileBlock_left_le p.data hcol
      have hne : ¬ (p.instruction &&& 0x3F = 6) := by omega
      rw [applySubCode_tile _ p hc (Or.inr hi), applySubCode_tile f p hc (Or.inr hi),
        if_neg hne, cmdTileBlock_accepted _ p.data _ hrow hcol,
        cmdTileBlock_accepted f p.data _ hrow hcol]
      funext a
      dsimp only
      rw [tileLoop_closed _ _ hleft, tileLoop_closed _ _ hleft]
      split
      · exact Nat.xor_cancel_right _ _
      · rfl
  · have h1 : applySubCode f p = (false, f) := by
      simp only [applySubCode, SUBCODE_MASK, SUBCODE_COMMAND]
      rw [if_pos hc]
    rw [h1, h1]

theorem applySubCode_tileBlockXOR_twice_witness :
    ((mkSubCode 9 38 [1, 2, 3, 4, 0x3F, 0x15]).instruction &&& 0x3F = 38) ∧
    (applySubCode (applySubCode sampleFrame (mkSubCode 9 38 [1, 2, 3, 4, 0x3F, 0x15])).2
      (mkSubCode 9 38 [1, 2, 3, 4, 0x3F, 0x15])).2.bits = sampleFrame.bits :=
  ⟨by decide,
    applySubCode_tileBlockXOR_twice sampleFrame (mkSubCode 9 38 [1, 2, 3, 4, 0x3F, 0x15])
      (by decide)⟩

/-- C7: a border-preset packet with `c = data[0] & 0x0F` makes `applySubCode` return `true`;
afterwards every pixel of rows 0-11 and 203-215 is `c`, and in each of rows 12-202 the pixels
of columns 0-5 and 294-299 are `c` while those of columns 6-293 are as they were. -/
theorem applySubCode_borderPreset_paints (f : CdgImageFrame) (p : CDG_SubCode)
    (hc : p.command &&& 0x3F = 9) (hi : p.instruction &&& 0x3F = 2) :
    (applySubCode f p).1 = true ∧
    (∀ r x, (r < 12 ∨ (203 ≤ r ∧ r < 216)) → x < 300 →
      (applySubCode f p).2.pixel r x = p.data 0 &&& 0x0F) ∧
    (∀ r x, 12 ≤ r → r ≤ 202 → (x < 6 ∨ (294 ≤ x ∧ x < 300)) →
      (applySubCode f p).2.pixel r x = p.data 0 &&& 0x0F) ∧
    (∀ r x, 12 ≤ r → r ≤ 202 → 6 ≤ x → x ≤ 293 →
      (applySubCode f p).2.pixel r x = f.pixel r x) := by
  rw [applySubCode_of_command f p hc, dispatch_borderPreset f p hi, cmdBorderPreset_bits]
  refine ⟨rfl, ?_, ?_, ?_⟩
  · intro r x hr hx
    simp only [CdgImageFrame.pixel, scanLine, bytesPerLine]
    rw [borderLoop_closed, if_pos]
    omega
  · intro r x hr1 hr2 hx
    simp only [CdgImageFrame.pixel, scanLine, bytesPerLine]
    rw [borderLoop_closed, if_pos]
    omega
  · intro r x hr1 hr2 hx1 hx2
    simp only [CdgImageFrame.pixel, scanLine, bytesPerLine]
    rw [borderLoop_closed, if_neg]
    omega

/-- The example of C7 on the code: colour 5 on the sample frame. Pixel (0,150) and
pixel (100,295) become 5, pixel (100,150) keeps its value. -/
theorem applySubCode_borderPreset_paints_witness :
    ((mkSubCode 9 2 [5]).command &&& 0x3F = 9) ∧
    ((mkSubCode 9 2 [5]).instruction &&& 0x3F = 2) ∧
    (applySubCode sampleFrame (mkSubCode 9 2 [5])).1 = true ∧
    (applySubCode sampleFrame (mkSubCode 9 2 [5])).2.pixel 0 150 = 5 ∧
    (applySubCode sampleFrame (mkSubCode 9 2 [5])).2.pixel 100 295 = 5 ∧
    (applySubCode sampleFrame (mkSubCode 9 2 [5])).2.pixel 100 150
      = sampleFrame.pixel 100 150 :=
  ⟨by decide, by decide,
    (applySubCode_borderPreset_paints sampleFrame (mkSubCode 9 2 [5])
      (by decide) (by decide)).1,
    (applySubCode_borderPreset_paints sampleFrame (mkSubCode 9 2 [5])
      (by decide) (by decide)).2.1 0 150 (by decide) (by decide),
    (applySubCode_borderPreset_paints sampleFrame (mkSubCode 9 2 [5])
      (by decide) (by decide)).2.2.1 100 295 (by decide) (by decide) (by decide),
    (applySubCode_borderPreset_paints sampleFrame (mkSubCode 9 2 [5])
      (by decide) (by decide)).2.2.2 100 150 (by decide) (by decide) (by decide) (by decide)⟩

/-- C8: a scroll-copy packet with `hSCmd = (data[1] & 0x30) >> 4` and
`vSCmd = (data[2] & 0x30) >> 4` turns the pixel buffer into a circular shift of the old one:
`new[r][x] = old[(r + dv) mod 216][(x + dh) mod 300]` for every row `r` and column `x`, with
`dh = 6` if `hSCmd = 2`, `-6` if `hSCmd = 1`, `0` otherwise and `dv = 12` if `vSCmd = 2`,
`-12` if `vSCmd = 1`, `0` otherwise. -/
theorem applySubCode_scrollCopy_rotates (f : CdgImageFrame) (p : CDG_SubCode)
    (hc : p.command &&& 0x3F = 9) (hi : p.instruction &&& 0x3F = 24)
    (r x : Nat) (hr : r < 216) (hx : x < 300) :
    (applySubCode f p).2.pixel r x =
      f.pixel
        (((r : Int) + (if (p.data 2 &&& 0x30) >>> 4 = 2 then 12
          else if (p.data 2 &&& 0x30) >>> 4 = 1 then -12 else 0)) % 216).toNat
        (((x : Int) + (if (p.data 1 &&& 0x30) >>> 4 = 2 then 6
          else if (p.data 1 &&& 0x30) >>> 4 = 1 then -6 else 0)) % 300).toNat := by
  have hne : ¬ (p.instruction &&& 0x3F = 20) := by omega
  simp only [CdgImageFrame.pixel, scanLine, bytesPerLine]
  rw [applySubCode_scroll_bits f p hc (Or.inr hi), if_neg hne,
    scrollVertical_copy _ _ r x hr hx, vSCmd_ofData]
  have hrow : (if (p.data 2 &&& 0x30) >>> 4 = 2 then (r + 12) % 216
      else if (p.data 2 &&& 0x30) >>> 4 = 1 then (r + 204) % 216 else r) =
      (((r : Int) + (if (p.data 2 &&& 0x30) >>> 4 = 2 then 12
          else if (p.data 2 &&& 0x30) >>> 4 = 1 then -12 else 0)) % 216).toNat := by
    split_ifs <;> omega
  have hcol : (if (p.data 1 &&& 0x30) >>> 4 = 2 then (x + 6) % 300
      else if (p.data 1 &&& 0x30) >>> 4 = 1 then (x + 294) % 300 else x) =
      (((x : Int) + (if (p.data 1 &&& 0x30) >>> 4 = 2 then 6
          else if (p.data 1 &&& 0x30) >>> 4 = 1 then -6 else 0)) % 300).toNat := by
    split_ifs <;> omega
  have hr' : (((r : Int) + (if (p.data 2 &&& 0x30) >>> 4 = 2 then 12
          else if (p.data 2 &&& 0x30) >>> 4 = 1 then -12 else 0)) % 216).toNat < 216 := by
    split_ifs <;> omega
  rw [hrow, scrollHorizontal_copy _ _ _ x hr' hx, hSCmd_ofData, hcol]

/-- The statement of C8 on the sample frame for a packet commanding left and down
(`data[1] = 0x20`, `data[2] = 0x10`), at row 3, column 297: the new pixel is the old pixel of
row 207, column 3. -/
theorem applySubCode_scrollCopy_rotates_witness :
    ((mkSubCode 9 24 [0, 0x20, 0x10]).command &&& 0x3F = 9) ∧
    ((mkSubCode 9 24 [0, 0x20, 0x10]).instruction &&& 0x3F = 24) ∧
    (3 < 216) ∧ (297 < 300) ∧
    (applySubCode sampleFrame (mkSubCode 9 24 [0, 0x20, 0x10])).2.pixel 3 297
      = sampleFrame.pixel 207 3 :=
  ⟨by decide, by decide, by decide, by decide,
    applySubCode_scrollCopy_rotates sampleFrame (mkSubCode 9 24 [0, 0x20, 0x10])
      (by decide) (by decide) 3 297 (by decide) (by decide)⟩

/-- C9 (evaluation of the code at the failing input): on the sample frame, the scroll preset
with fill colour 5 that commands a left scroll only (`data[1] = 0x20`, `data[2] = 0`) leaves
pixel (0,294) of the vacated right band at its old value 6 instead of 5, and writes 5 to
pixel (0,6), where the shifted content would be the old pixel (0,12) = 12. -/
theorem applySubCode_scrollPreset_left_fill_misplaced :
    ((mkSubCode 9 20 [5, 0x20, 0]).command &&& 0x3F = 9) ∧
    ((mkSubCode 9 20 [5, 0x20, 0]).instruction &&& 0x3F = 20) ∧
    (((mkSubCode 9 20 [5, 0x20, 0]).data 1 &&& 0x30) >>> 4 = 2) ∧
    (((mkSubCode 9 20 [5, 0x20, 0]).data 2 &&& 0x30) >>> 4 = 0) ∧
    ((mkSubCode 9 20 [5, 0x20, 0]).data 0 &&& 0x0F = 5) ∧
    (applySubCode sampleFrame (mkSubCode 9 20 [5, 0x20, 0])).2.pixel 0 294 = 6 ∧
    sampleFrame.pixel 0 294 = 6 ∧
    (applySubCode sampleFrame (mkSubCode 9 20 [5, 0x20, 0])).2.pixel 0 6 = 5 ∧
    sampleFrame.pixel 0 12 = 12 := by
  have h294 := applySubCode_scrollPreset_left_pixels sampleFrame (mkSubCode 9 20 [5, 0x20, 0])
    (by decide) (by decide) (by decide) (by decide) (by decide) 0 294 (by decide) (by decide)
  have h6 := applySubCode_scrollPreset_left_pixels sampleFrame (mkSubCode 9 20 [5, 0x20, 0])
    (by decide) (by decide) (by decide) (by decide) (by decide) 0 6 (by decide) (by decide)
  refine ⟨by decide, by decide, by decide, by decide, by decide, ?_, by decide, ?_, by decide⟩
  · rw [h294]
    decide
  · rw [h6]
    decide

/-- C10: a scroll-preset packet with fill colour `c = data[0] & 0x0F` that commands exactly one
shift fills the vacated band with `c` and shifts the rest. Right (`hSCmd = 1`): columns 0-5 of
every row are `c` and `new[r][x] = old[r][x-6]` for `x` in 6..299. Up (`vSCmd = 2`): rows
204-215 are `c` and `new[r] = old[r+12]` for `r` in 0..203. Down (`vSCmd = 1`): rows 0-11 are
`c` and `new[r] = old[r-12]` for `r` in 12..215. -/
theorem applySubCode_scrollPreset_right_up_down (f : CdgImageFrame) (p : CDG_SubCode)
    (hc : p.command &&& 0x3F = 9) (hi : p.instruction &&& 0x3F = 20) :
    ((p.data 1 &&& 0x30) >>> 4 = 1 →
      (p.data 2 &&& 0x30) >>> 4 ≠ 1 → (p.data 2 &&& 0x30) >>> 4 ≠ 2 →
      (∀ r x, r < 216 → x < 6 → (applySubCode f p).2.pixel r x = p.data 0 &&& 0x0F) ∧
      (∀ r x, r < 216 → 6 ≤ x → x < 300 →
        (applySubCode f p).2.pixel r x = f.pixel r (x - 6))) ∧
    ((p.data 2 &&& 0x30) >>> 4 = 2 →
      (p.data 1 &&& 0x30) >>> 4 ≠ 1 → (p.data 1 &&& 0x30) >>> 4 ≠ 2 →
      (∀ r x, 204 ≤ r → r < 216 → x < 300 →
        (applySubCode f p).2.pixel r x = p.data 0 &&& 0x0F) ∧
      (∀ r x, r < 204 → x < 300 → (applySubCode f p).2.pixel r x = f.pixel (r + 12) x)) ∧
    ((p.data 2 &&& 0x30) >>> 4 = 1 →
      (p.data 1 &&& 0x30) >>> 4 ≠ 1 → (p.data 1 &&& 0x30) >>> 4 ≠ 2 →
      (∀ r x, r < 12 → x < 300 → (applySubCode f p).2.pixel r x = p.data 0 &&& 0x0F) ∧
      (∀ r x, 12 ≤ r → r < 216 → x < 300 →
        (applySubCode f p).2.pixel r x = f.pixel (r - 12) x)) := by
  have hbits := applySubCode_scroll_bits f p hc (Or.inl hi)
  rw [if_pos hi] at hbits
  refine ⟨?_, ?_, ?_⟩
  · intro hh hv1 hv2
    have key : ∀ r x, r < 216 → x < 300 → (applySubCode f p).2.pixel r x =
        if x < 6 then p.data 0 &&& 0x0F else f.pixel r (x - 6) := by
      intro r x hr hx
      simp only [CdgImageFrame.pixel, scanLine, bytesPerLine]
      rw [hbits, scrollVertical_idle _ _ _ (by rw [vSCmd_ofData]; exact hv1)
          (by rw [vSCmd_ofData]; exact hv2),
        scrollHorizontal_preset_right _ _ r x (by rw [hSCmd_ofData]; exact hh) hr hx,
        color_ofData]
    constructor
    · intro r x hr hx
      rw [key r x hr (by omega), if_pos hx]
    · intro r x hr hx6 hx
      rw [key r x hr hx, if_neg (by omega)]
  · intro hv hh1 hh2
    have key : ∀ r x, r < 216 → x < 300 → (applySubCode f p).2.pixel r x =
        if r < 204 then f.pixel (r + 12) x else p.data 0 &&& 0x0F := by
      intro r x hr hx
      simp only [CdgImageFrame.pixel, scanLine, bytesPerLine]
      rw [hbits, scrollVertical_preset_up _ _ r x (by rw [vSCmd_ofData]; exact hv) hr hx,
        scrollHorizontal_idle _ _ _ (by rw [hSCmd_ofData]; exact hh1)
          (by rw [hSCmd_ofData]; exact hh2), color_ofData]
    constructor
    · intro r x hr204 hr hx
      rw [key r x hr hx, if_neg (by omega)]
    · intro r x hr hx
      rw [key r x (by omega) hx, if_pos hr]
  · intro hv hh1 hh2
    have key : ∀ r x, r < 216 → x < 300 → (applySubCode f p).2.pixel r x =
        if r < 12 then p.data 0 &&& 0x0F else f.pixel (r - 12) x := by
      intro r x hr hx
      simp only [CdgImageFrame.pixel, scanLine, bytesPerLine]
      rw [hbits, scrollVertical_preset_down _ _ r x (by rw [vSCmd_ofData]; exact hv) hr hx,
        scrollHorizontal_idle _ _ _ (by rw [hSCmd_ofData]; exact hh1)
          (by rw [hSCmd_ofData]; exact hh2), color_ofData]
    constructor
    · intro r x hr hx
      rw [key r x (by omega) hx, if_pos hr]
    · intro r x hr12 hr hx
      rw [key r x hr hx, if_neg (by omega)]

/-- The statement of C10 on the sample frame with fill colour 5: a right scroll
(`data[1] = 0x10`) puts 5 at pixel (4,2) and the old pixel (4,94) at (4,100); an up scroll
(`data[2] = 0x20`) puts 5 at pixel (210,7) and the old pixel (22,7) at (10,7); a down scroll
(`data[2] = 0x10`) puts 5 at pixel (3,7) and the old pixel (8,7) at (20,7). -/
theorem applySubCode_scrollPreset_right_up_down_witness :
    ((mkSubCode 9 20 [5, 0x10, 0]).command &&& 0x3F = 9) ∧
    ((mkSubCode 9 20 [5, 0x10, 0]).instruction &&& 0x3F = 20) ∧
    (applySubCode sampleFrame (mkSubCode 9 20 [5, 0x10, 0])).2.pixel 4 2 = 5 ∧
    (applySubCode sampleFrame (mkSubCode 9 20 [5, 0x10, 0])).2.pixel 4 100
      = sampleFrame.pixel 4 94 ∧
    (applySubCode sampleFrame (mkSubCode 9 20 [5, 0, 0x20])).2.pixel 210 7 = 5 ∧
    (applySubCode sampleFrame (mkSubCode 9 20 [5, 0, 0x20])).2.pixel 10 7
      = sampleFrame.pixel 22 7 ∧
    (applySubCode sampleFrame (mkSubCode 9 20 [5, 0, 0x10])).2.pixel 3 7 = 5 ∧
    (applySubCode sampleFrame (mkSubCode 9 20 [5, 0, 0x10])).2.pixel 20 7
      = sampleFrame.pixel 8 7 :=
  ⟨by decide, by decide,
    ((applySubCode_scrollPreset_right_up_down sampleFrame (mkSubCode 9 20 [5, 0x10, 0])
      (by decide) (by decide)).1 (by decide) (by decide) (by decide)).1
        4 2 (by decide) (by decide),
    ((applySubCode_scrollPreset_right_up_down sampleFrame (mkSubCode 9 20 [5, 0x10, 0])
      (by decide) (by decide)).1 (by decide) (by decide) (by decide)).2
        4 100 (by decide) (by decide) (by decide),
    ((applySubCode_scrollPreset_right_up_down sampleFrame (mkSubCode 9 20 [5, 0, 0x20])
      (by decide) (by decide)).2.1 (by decide) (by decide) (by decide)).1
        210 7 (by decide) (by decide) (by decide),
    ((applySubCode_scrollPreset_right_up_down sampleFrame (mkSubCode 9 20 [5, 0, 0x20])
      (by decide) (by decide)).2.1 (by decide) (by decide) (by decide)).2
        10 7 (by decide) (by decide),
    ((applySubCode_scrollPreset_right_up_down sampleFrame (mkSubCode 9 20 [5, 0, 0x10])
      (by decide) (by decide)).2.2 (by decide) (by decide) (by decide)).1
        3 7 (by decide) (by decide),
    ((applySubCode_scrollPreset_right_up_down sampleFrame (mkSubCode 9 20 [5, 0, 0x10])
      (by decide) (by decide)).2.2 (by decide) (by decide) (by decide)).2
        20 7 (by decide) (by decide) (by decide)⟩

/-- C11 (evaluation of the code at the failing input): on a freshly constructed canvas, the
single scroll-copy packet with `data[1] = 0x07` and `data[2] = 0x0F` (no shift commanded)
stores the horizontal offset 7 and the vertical offset 15, outside 0..5 and 0..11. -/
theorem applySubCodes_scroll_offsets_out_of_range :
    ((mkSubCode 9 24 [0, 0x07, 0x0F]).command &&& 0x3F = 9) ∧
    ((mkSubCode 9 24 [0, 0x07, 0x0F]).instruction &&& 0x3F = 24) ∧
    (applySubCodes (CdgImageFrame.construct (fun _ => 0) false)
      [mkSubCode 9 24 [0, 0x07, 0x0F]]).m_curHOffset = 7 ∧
    (applySubCodes (CdgImageFrame.construct (fun _ => 0) false)
      [mkSubCode 9 24 [0, 0x07, 0x0F]]).m_curVOffset = 15 := by
  refine ⟨by decide, by decide, ?_, ?_⟩
  · decide
  · decide

/-- C12: in every canvas state reached from a freshly constructed canvas by applying a finite
sequence of packets of any kind, every pixel value stored in the 300x216 buffer is in
[0,15]. -/
theorem applySubCodes_pixels_in_range (mem0 : Mem) (lastCmdWasMempreset0 : Bool)
    (subCodes : List CDG_SubCode) (r x : Nat) (hr : r < 216) (hx : x < 300) :
    (applySubCodes (CdgImageFrame.construct mem0 lastCmdWasMempreset0) subCodes).pixel r x
      ≤ 15 := by
  have h0 : ∀ a, a < 64800 →
      (CdgImageFrame.construct mem0 lastCmdWasMempreset0).bits a < 16 :=
    imageFill_range mem0 0 (by decide)
  have h := applySubCodes_range subCodes _ h0 (scanLine r + x)
    (by simp only [scanLine, bytesPerLine]; omega)
  exact Nat.le_of_lt_succ h

/-- The statement of C12 for a memory preset, an XOR tile block, a preset scroll and a
foreign packet applied in turn to a fresh canvas, at pixel (13, 8). -/
theorem applySubCodes_pixels_in_range_witness :
    (13 < 216) ∧ (8 < 300) ∧
    (applySubCodes (CdgImageFrame.construct (fun a => a) false)
      [mkSubCode 9 1 [0xFF, 0], mkSubCode 9 38 [0x0F, 0x0A, 1, 1, 0x2A, 0x15],
        mkSubCode 9 20 [0xF7, 0x10, 0x20], mkSubCode 0 6 [1, 2, 3, 4]]).pixel 13 8 ≤ 15 :=
  ⟨by decide, by decide,
    applySubCodes_pixels_in_range (fun a => a) false
      [mkSubCode 9 1 [0xFF, 0], mkSubCode 9 38 [0x0F, 0x0A, 1, 1, 0x2A, 0x15],
        mkSubCode 9 20 [0xF7, 0x10, 0x20], mkSubCode 0 6 [1, 2, 3, 4]] 13 8
      (by decide) (by decide)⟩

/-- C13: with stored offsets `h` in 0..5 and `v` in 0..11, `copyCroppedImagedata` writes, for
`y` in 0..191 and `x` in 0..287, output byte `y*288 + x` = canvas pixel of row `12 + y + v`,
column `6 + h + x`, a pixel inside the 300x216 canvas; the loop ends at offset `288*192`,
where the 16 palette entries are written verbatim; the canvas (pixels, palette, offsets,
flag) is left as it was. -/
theorem copyCroppedImagedata_crops (f : CdgImageFrame) (dest : Mem)
    (hh : f.m_curHOffset ≤ 5) (hv : f.m_curVOffset ≤ 11) (hpal : f.colorTable.length = 16) :
    (∀ y x, y < 192 → x < 288 →
      (copyCroppedImagedata f dest).pixels (y * 288 + x)
          = f.pixel (12 + y + f.m_curVOffset) (6 + f.m_curHOffset + x) ∧
        12 + y + f.m_curVOffset < 216 ∧ 6 + f.m_curHOffset + x < 300) ∧
    (copyCroppedImagedata f dest).destpos = 288 * 192 ∧
    (copyCroppedImagedata f dest).palette = f.colorTable ∧
    (copyCroppedImagedata f dest).palette.length = 16 ∧
    (copyCroppedImagedata f dest).frame = f := by
  refine ⟨?_, ?_, rfl, hpal, rfl⟩
  · intro y x hy hx
    refine ⟨?_, by omega, by omega⟩
    rw [Nat.mul_comm y 288]
    exact copyCropped_pixels f dest y x hy hx
  · exact (cropLoop_closed f dest 192).1

/-- The statement of C13 on the sample frame (offsets 3 and 7): output byte `5*288 + 10` is the
canvas pixel of row 24, column 19. -/
theorem copyCroppedImagedata_crops_witness :
    (sampleFrame.m_curHOffset ≤ 5) ∧ (sampleFrame.m_curVOffset ≤ 11) ∧
    (sampleFrame.colorTable.length = 16) ∧
    (copyCroppedImagedata sampleFrame (fun _ => 0)).pixels (5 * 288 + 10)
      = sampleFrame.pixel 24 19 ∧
    (copyCroppedImagedata sampleFrame (fun _ => 0)).destpos = 288 * 192 ∧
    (copyCroppedImagedata sampleFrame (fun _ => 0)).palette = sampleFrame.colorTable ∧
    (copyCroppedImagedata sampleFrame (fun _ => 0)).frame = sampleFrame :=
  ⟨by decide, by decide, by decide,
    ((copyCroppedImagedata_crops sampleFrame (fun _ => 0) (by decide) (by decide)
      (by decide)).1 5 10 (by decide) (by decide)).1,
    (copyCroppedImagedata_crops sampleFrame (fun _ => 0) (by decide) (by decide)
      (by decide)).2.1,
    (copyCroppedImagedata_crops sampleFrame (fun _ => 0) (by decide) (by decide)
      (by decide)).2.2.1,
    (copyCroppedImagedata_crops sampleFrame (fun _ => 0) (by decide) (by decide)
      (by decide)).2.2.2.2⟩

/-- C14: a colour-table packet (instruction 30 low, 31 high) applied to a canvas with its 16
palette entries sets palette entry `base + k` to the opaque colour decoded from
`(data[2k], data[2k+1])` for every `k` in 0..7, with `base = 0` for low and `8` for high; the
other eight entries, every pixel and both scroll offsets stay as they were. -/
theorem applySubCode_colorTable_writes (f : CdgImageFrame) (p : CDG_SubCode)
    (hc : p.command &&& 0x3F = 9)
    (hi : p.instruction &&& 0x3F = 30 ∨ p.instruction &&& 0x3F = 31)
    (hpal : f.colorTable.length = 16) :
    (∀ k, k < 8 →
      (applySubCode f p).2.colorTable[(if p.instruction &&& 0x3F = 31 then 8 else 0) + k]?
        = some (CdgColorsData.decode (p.data (2 * k)) (p.data (2 * k + 1))).rgb) ∧
    (∀ j, j < 16 →
      ¬ ((if p.instruction &&& 0x3F = 31 then 8 else 0) ≤ j ∧
          j < (if p.instruction &&& 0x3F = 31 then 8 else 0) + 8) →
      (applySubCode f p).2.colorTable[j]? = f.colorTable[j]?) ∧
    (applySubCode f p).2.colorTable.length = 16 ∧
    (applySubCode f p).2.bits = f.bits ∧
    (applySubCode f p).2.m_curHOffset = f.m_curHOffset ∧
    (applySubCode f p).2.m_curVOffset = f.m_curVOffset := by
  have hbase : (if p.instruction &&& 0x3F = 31 then 8 else 0) =
      if (if p.instruction &&& 0x3F = 31 then CdgColorTables.HighColors
        else CdgColorTables.LowColors) = CdgColorTables.HighColors then 8 else 0 := by
    split_ifs <;> first | rfl | contradiction
  obtain ⟨h1, h2, _⟩ := cmdColors_spec f p.data _ _ hbase hpal
  obtain ⟨r1, r2, r3⟩ := cmdColors_rest f (CdgColorsData.ofData p.data)
    (if p.instruction &&& 0x3F = 31 then CdgColorTables.HighColors
      else CdgColorTables.LowColors)
  have hb : (if p.instruction &&& 0x3F = 31 then 8 else 0) ≤ 8 := by
    split_ifs <;> omega
  rw [applySubCode_colors f p hc hi]
  generalize cmdColors f (CdgColorsData.ofData p.data)
    (if p.instruction &&& 0x3F = 31 then CdgColorTables.HighColors
      else CdgColorTables.LowColors) = R at h1 h2 r1 r2 r3
  refine ⟨?_, ?_, h1, r1, r2, r3⟩
  · intro k hk
    dsimp only
    rw [getElem?_eq_some_getD _ _ (by rw [h1]; omega), h2, if_pos (by omega)]
    have e : (if p.instruction &&& 0x3F = 31 then 8 else 0) + k
        - (if p.instruction &&& 0x3F = 31 then 8 else 0) = k := by omega
    rw [e]
  · intro j hj hout
    dsimp only
    rw [getElem?_eq_some_getD _ _ (by rw [h1]; exact hj), h2, if_neg hout,
      getElem?_eq_some_getD _ _ (by rw [hpal]; exact hj)]

/-- The statement of C14 for a high table on the sample frame: entry 8 becomes the colour
decoded from `(0x3C, 0x00)`, which is opaque red, and entry 3 keeps its value. -/
theorem applySubCode_colorTable_writes_witness :
    ((mkSubCode 9 31 [0x3C, 0x00]).command &&& 0x3F = 9) ∧
    ((mkSubCode 9 31 [0x3C, 0x00]).instruction &&& 0x3F = 30 ∨
      (mkSubCode 9 31 [0x3C, 0x00]).instruction &&& 0x3F = 31) ∧
    (sampleFrame.colorTable.length = 16) ∧
    (applySubCode sampleFrame (mkSubCode 9 31 [0x3C, 0x00])).2.colorTable[8]?
      = some 0xFFFF0000 ∧
    (applySubCode sampleFrame (mkSubCode 9 31 [0x3C, 0x00])).2.colorTable[3]?
      = sampleFrame.colorTable[3]? :=
  ⟨by decide, Or.inr (by decide), by decide,
    (applySubCode_colorTable_writes sampleFrame (mkSubCode 9 31 [0x3C, 0x00])
      (by decide) (Or.inr (by decide)) (by decide)).1 0 (by decide),
    (applySubCode_colorTable_writes sampleFrame (mkSubCode 9 31 [0x3C, 0x00])
      (by decide) (Or.inr (by decide)) (by decide)).2.1 3 (by decide) (by decide)⟩

/-- C15: on a canvas with its 16 palette entries, a colour-table packet (low or high) makes
`applySubCode` return `true` exactly when at least one of the eight written palette entries
differed from its prior value; applying the same packet again right after returns `false`. -/
theorem applySubCode_colorTable_changed (f : CdgImageFrame) (p : CDG_SubCode)
    (hc : p.command &&& 0x3F = 9)
    (hi : p.instruction &&& 0x3F = 30 ∨ p.instruction &&& 0x3F = 31)
    (hpal : f.colorTable.length = 16) :
    ((applySubCode f p).1 = true ↔
      ∃ k, k < 8 ∧
        f.colorTable[(if p.instruction &&& 0x3F = 31 then 8 else 0) + k]?
          ≠ some (CdgColorsData.decode (p.data (2 * k)) (p.data (2 * k + 1))).rgb) ∧
    (applySubCode (applySubCode f p).2 p).1 = false := by
  have hbase : (if p.instruction &&& 0x3F = 31 then 8 else 0) =
      if (if p.instruction &&& 0x3F = 31 then CdgColorTables.HighColors
        else CdgColorTables.LowColors) = CdgColorTables.HighColors then 8 else 0 := by
    split_ifs <;> first | rfl | contradiction
  have hb : (if p.instruction &&& 0x3F = 31 then 8 else 0) ≤ 8 := by
    split_ifs <;> omega
  obtain ⟨h1, h2, h3⟩ := cmdColors_spec f p.data _ _ hbase hpal
  have hsnd : (applySubCode f p).2.colorTable =
      (cmdColors f (CdgColorsData.ofData p.data)
        (if p.instruction &&& 0x3F = 31 then CdgColorTables.HighColors
          else CdgColorTables.LowColors)).2.colorTable := by
    rw [applySubCode_colors f p hc hi]
  have hfst : ∀ g : CdgImageFrame, (applySubCode g p).1 =
      (cmdColors g (CdgColorsData.ofData p.data)
        (if p.instruction &&& 0x3F = 31 then CdgColorTables.HighColors
          else CdgColorTables.LowColors)).1 := by
    intro g
    rw [applySubCode_colors g p hc hi]
  have hpal2 : (applySubCode f p).2.colorTable.length = 16 := by
    rw [hsnd]
    exact h1
  obtain ⟨_, _, k3⟩ := cmdColors_spec (applySubCode f p).2 p.data _ _ hbase hpal2
  rw [hfst f, hfst (applySubCode f p).2]
  rw [hsnd] at k3
  generalize (cmdColors (applySubCode f p).2 (CdgColorsData.ofData p.data)
    (if p.instruction &&& 0x3F = 31 then CdgColorTables.HighColors
      else CdgColorTables.LowColors)).1 = b2 at k3 ⊢
  generalize cmdColors f (CdgColorsData.ofData p.data)
    (if p.instruction &&& 0x3F = 31 then CdgColorTables.HighColors
      else CdgColorTables.LowColors) = R at h1 h2 h3 k3 ⊢
  constructor
  · rw [h3]
    constructor
    · rintro ⟨k, hk, hne⟩
      refine ⟨k, hk, ?_⟩
      rw [getElem?_eq_some_getD _ _ (by rw [hpal]; omega)]
      exact fun h => hne (Option.some.inj h)
    · rintro ⟨k, hk, hne⟩
      refine ⟨k, hk, ?_⟩
      rw [getElem?_eq_some_getD _ _ (by rw [hpal]; omega)] at hne
      exact fun h => hne (congrArg some h)
  · rw [Bool.eq_false_iff]
    intro htrue
    obtain ⟨k, hk, hne⟩ := k3.mp htrue
    apply hne
    rw [h2, if_pos (by omega)]
    have e : (if p.instruction &&& 0x3F = 31 then 8 else 0) + k
        - (if p.instruction &&& 0x3F = 31 then 8 else 0) = k := by omega
    rw [e]

/-- The example of C15 on the code: on the blank frame the low table with `data[0] = 0x3C`,
`data[1] = 0x00` decodes colour 0 as (255,0,0), returns `true`, sets palette index 0 to opaque
red, and returns `false` when applied again. -/
theorem applySubCode_colorTable_changed_witness :
    ((mkSubCode 9 30 [0x3C, 0x00]).command &&& 0x3F = 9) ∧
    ((mkSubCode 9 30 [0x3C, 0x00]).instruction &&& 0x3F = 30 ∨
      (mkSubCode 9 30 [0x3C, 0x00]).instruction &&& 0x3F = 31) ∧
    (blankFrame.colorTable.length = 16) ∧
    CdgColorsData.decode 0x3C 0x00 = ⟨255, 0, 0⟩ ∧
    (applySubCode blankFrame (mkSubCode 9 30 [0x3C, 0x00])).1 = true ∧
    (applySubCode blankFrame (mkSubCode 9 30 [0x3C, 0x00])).2.colorTable[0]?
      = some 0xFFFF0000 ∧
    (applySubCode (applySubCode blankFrame (mkSubCode 9 30 [0x3C, 0x00])).2
      (mkSubCode 9 30 [0x3C, 0x00])).1 = false :=
  ⟨by decide, Or.inl (by decide), by decide, by decide, by decide, by decide,
    (applySubCode_colorTable_changed blankFrame (mkSubCode 9 30 [0x3C, 0x00])
      (by decide) (Or.inl (by decide)) (by decide)).2⟩

/-- C16: for every payload and every `k` in 0..7, `CdgColorsData` decodes colour `k` from
`low = data[2k]` and `high = data[2k+1]` as `red = 17 * ((low >> 2) & 0x0F)`,
`green = 17 * (((low & 0x03) << 2) | ((high >> 4) & 0x03))`, `blue = 17 * (high & 0x0F)`;
every component is a multiple of 17 in [0,255], a 4-bit value 0 gives 0 and 15 gives 255, and
bits 6-7 of either byte do not affect the result. -/
theorem CdgColorsData_decodes (data : Nat → Nat) (k : Nat) (hk : k < 8) :
    (CdgColorsData.ofData data).colors[k]? =
      some ⟨17 * ((data (2 * k) >>> 2) &&& 0x0F),
        17 * (((data (2 * k) &&& 0x03) <<< 2) ||| ((data (2 * k + 1) >>> 4) &&& 0x03)),
        17 * (data (2 * k + 1) &&& 0x0F)⟩ ∧
    (∀ c, (CdgColorsData.ofData data).colors[k]? = some c →
      (17 ∣ c.red ∧ c.red ≤ 255) ∧ (17 ∣ c.green ∧ c.green ≤ 255) ∧
      (17 ∣ c.blue ∧ c.blue ≤ 255) ∧
      ((data (2 * k) >>> 2) &&& 0x0F = 0 → c.red = 0) ∧
      ((data (2 * k) >>> 2) &&& 0x0F = 15 → c.red = 255) ∧
      (((data (2 * k) &&& 0x03) <<< 2) ||| ((data (2 * k + 1) >>> 4) &&& 0x03) = 0
        → c.green = 0) ∧
      (((data (2 * k) &&& 0x03) <<< 2) ||| ((data (2 * k + 1) >>> 4) &&& 0x03) = 15
        → c.green = 255) ∧
      (data (2 * k + 1) &&& 0x0F = 0 → c.blue = 0) ∧
      (data (2 * k + 1) &&& 0x0F = 15 → c.blue = 255)) ∧
    (∀ data2 : Nat → Nat,
      data2 (2 * k) &&& 0x3F = data (2 * k) &&& 0x3F →
      data2 (2 * k + 1) &&& 0x3F = data (2 * k + 1) &&& 0x3F →
      (CdgColorsData.ofData data2).colors[k]? = (CdgColorsData.ofData data).colors[k]?) := by
  refine ⟨?_, ?_, ?_⟩
  · rw [ofData_colors_getElem? data k hk, decode_formula]
  · intro c hcol
    rw [ofData_colors_getElem? data k hk, decode_formula] at hcol
    have hc := (Option.some.inj hcol).symm
    have hr : (data (2 * k) >>> 2) &&& 0x0F ≤ 15 := Nat.and_le_right
    have hb : data (2 * k + 1) &&& 0x0F ≤ 15 := Nat.and_le_right
    have hg : ((data (2 * k) &&& 0x03) <<< 2) ||| ((data (2 * k + 1) >>> 4) &&& 0x03) < 16 := by
      have h1 : data (2 * k) &&& 0x03 ≤ 3 := Nat.and_le_right
      have h2 : (data (2 * k + 1) >>> 4) &&& 0x03 ≤ 3 := Nat.and_le_right
      rw [shl2_or_eq _ _ (by omega) (by omega)]
      omega
    subst hc
    refine ⟨⟨Dvd.intro _ rfl, ?_⟩, ⟨Dvd.intro _ rfl, ?_⟩, ⟨Dvd.intro _ rfl, ?_⟩,
      ?_, ?_, ?_, ?_, ?_, ?_⟩
    · show 17 * _ ≤ 255
      omega
    · show 17 * _ ≤ 255
      omega
    · show 17 * _ ≤ 255
      omega
    · intro h
      show 17 * _ = 0
      rw [h]
    · intro h
      show 17 * _ = 255
      rw [h]
    · intro h
      show 17 * _ = 0
      rw [h]
    · intro h
      show 17 * _ = 255
      rw [h]
    · intro h
      show 17 * _ = 0
      rw [h]
    · intro h
      show 17 * _ = 255
      rw [h]
  · intro data2 hlo hhi
    rw [ofData_colors_getElem? data k hk, ofData_colors_getElem? data2 k hk,
      ← decode_low_bits (data (2 * k)), ← decode_low_bits (data2 (2 * k)), hlo, hhi]

/-- The statement of C16 at `k = 0` for the payload starting `0xFC, 0x40`: the decoded colour
is (255, 0, 0), as for `0x3C, 0x00`. -/
theorem CdgColorsData_decodes_witness :
    (0 < 8) ∧
    (CdgColorsData.ofData (fun i => [0xFC, 0x40].getD i 0)).colors[0]?
      = some ⟨255, 0, 0⟩ :=
  ⟨by decide, (CdgColorsData_decodes (fun i => [0xFC, 0x40].getD i 0) 0 (by decide)).1⟩

/-- C17: whenever `applySubCode` returns `false`, the pixel buffer and the palette after the
call are equal to those before the call. -/
theorem applySubCode_false_unchanged (f : CdgImageFrame) (p : CDG_SubCode)
    (h : (applySubCode f p).1 = false) :
    (applySubCode f p).2.bits = f.bits ∧
    (applySubCode f p).2.colorTable = f.colorTable := by
  by_cases hc : p.command &&& 0x3F = 9
  · rw [applySubCode_of_command f p hc] at h ⊢
    exact dispatch_false f p h
  · have h1 : applySubCode f p = (false, f) := by
      simp only [applySubCode, SUBCODE_MASK, SUBCODE_COMMAND]
      rw [if_pos hc]
    rw [h1]
    exact ⟨rfl, rfl⟩

/-- The statement of C17 for a colour-table packet that rewrites the palette of the blank
frame with the black it already holds. -/
theorem applySubCode_false_unchanged_witness :
    (applySubCode blankFrame (mkSubCode 9 30 [])).1 = false ∧
    (applySubCode blankFrame (mkSubCode 9 30 [])).2.bits = blankFrame.bits ∧
    (applySubCode blankFrame (mkSubCode 9 30 [])).2.colorTable = blankFrame.colorTable :=
  ⟨by decide, applySubCode_false_unchanged blankFrame (mkSubCode 9 30 []) (by decide)⟩

/-- C18 (counterexample): on the sample frame the scroll-copy packet with `data[1] = 0x02`,
`data[2] = 0` (no shift commanded, horizontal offset 2) makes `applySubCode` return `true`
while the pixel buffer and the palette stay equal to those before the call; only the stored
horizontal offset moves, from 3 to 2. -/
theorem applySubCode_true_without_change :
    ¬ (∀ (f : CdgImageFrame) (p : CDG_SubCode), (applySubCode f p).1 = true →
      (applySubCode f p).2.bits ≠ f.bits ∨ (applySubCode f p).2.colorTable ≠ f.colorTable) := by
  intro hall
  have hc : (mkSubCode 9 24 [0, 0x02, 0]).command &&& 0x3F = 9 := by decide
  have hi : (mkSubCode 9 24 [0, 0x02, 0]).instruction &&& 0x3F = 24 := by decide
  have hbits : (applySubCode sampleFrame (mkSubCode 9 24 [0, 0x02, 0])).2.bits
      = sampleFrame.bits := by
    rw [applySubCode_scroll_bits _ _ hc (Or.inr hi),
      scrollHorizontal_idle _ _ _ (by decide) (by decide),
      scrollVertical_idle _ _ _ (by decide) (by decide)]
  have hpal : (applySubCode sampleFrame (mkSubCode 9 24 [0, 0x02, 0])).2.colorTable
      = sampleFrame.colorTable := by
    rw [applySubCode_scroll _ _ hc (Or.inr hi)]
    rfl
  have htrue : (applySubCode sampleFrame (mkSubCode 9 24 [0, 0x02, 0])).1 = true := by
    rw [applySubCode_scroll _ _ hc (Or.inr hi)]
  rcases hall sampleFrame (mkSubCode 9 24 [0, 0x02, 0]) htrue with h | h
  · exact h hbits
  · exact h hpal

/-- C18 (amended): when `applySubCode` returns `true` on a canvas with its 16 palette entries,
the packet has `command & 0x3F = 9` and either its masked instruction is one of 1, 2, 6, 20,
24, 38 (memory preset, border preset, tile block, scroll), or it is a colour-table packet
(30 or 31) and the palette after the call differs from the palette before. -/
theorem applySubCode_true_cases (f : CdgImageFrame) (p : CDG_SubCode)
    (hpal : f.colorTable.length = 16) (h : (applySubCode f p).1 = true) :
    p.command &&& 0x3F = 9 ∧
    ((p.instruction &&& 0x3F = 1 ∨ p.instruction &&& 0x3F = 2 ∨ p.instruction &&& 0x3F = 6 ∨
        p.instruction &&& 0x3F = 20 ∨ p.instruction &&& 0x3F = 24 ∨
        p.instruction &&& 0x3F = 38) ∨
      ((p.instruction &&& 0x3F = 30 ∨ p.instruction &&& 0x3F = 31) ∧
        (applySubCode f p).2.colorTable ≠ f.colorTable)) := by
  by_cases hc : p.command &&& 0x3F = 9
  · refine ⟨hc, ?_⟩
    by_cases i30 : p.instruction &&& 0x3F = 30
    · refine Or.inr ⟨Or.inl i30, ?_⟩
      have hne : ¬ (p.instruction &&& 0x3F = 31) := by omega
      have hfst : (applySubCode f p).1 =
          (cmdColors f (CdgColorsData.ofData p.data) CdgColorTables.LowColors).1 := by
        rw [applySubCode_colors f p hc (Or.inl i30), if_neg hne]
      have hsnd : (applySubCode f p).2.colorTable =
          (cmdColors f (CdgColorsData.ofData p.data) CdgColorTables.LowColors).2.colorTable := by
        rw [applySubCode_colors f p hc (Or.inl i30), if_neg hne]
      rw [hfst] at h
      rw [hsnd]
      exact cmdColors_true f p.data _ hpal h
    by_cases i31 : p.instruction &&& 0x3F = 31
    · refine Or.inr ⟨Or.inr i31, ?_⟩
      have hfst : (applySubCode f p).1 =
          (cmdColors f (CdgColorsData.ofData p.data) CdgColorTables.HighColors).1 := by
        rw [applySubCode_colors f p hc (Or.inr i31), if_pos i31]
      have hsnd : (applySubCode f p).2.colorTable =
          (cmdColors f (CdgColorsData.ofData p.data) CdgColorTables.HighColors).2.colorTable := by
        rw [applySubCode_colors f p hc (Or.inr i31), if_pos i31]
      rw [hfst] at h
      rw [hsnd]
      exact cmdColors_true f p.data _ hpal h
    refine Or.inl ?_
    by_contra hnot
    have hd := dispatch_unrecognised f p (fun e => hnot (Or.inl e))
      (fun e => hnot (Or.inr (Or.inl e))) (fun e => hnot (Or.inr (Or.inr (Or.inl e))))
      (fun e => hnot (Or.inr (Or.inr (Or.inr (Or.inl e)))))
      (fun e => hnot (Or.inr (Or.inr (Or.inr (Or.inr (Or.inl e)))))) i30 i31
      (fun e => hnot (Or.inr (Or.inr (Or.inr (Or.inr (Or.inr e))))))
    rw [applySubCode_of_command f p hc, hd] at h
    exact Bool.noConfusion h
  · have h1 : applySubCode f p = (false, f) := by
      simp only [applySubCode, SUBCODE_MASK, SUBCODE_COMMAND]
      rw [if_pos hc]
    rw [h1] at h
    exact Bool.noConfusion h

/-- The amended statement of C18 for the low colour table that turns palette entry 0 of the
blank frame red: the call returns `true` and the palette differs. -/
theorem applySubCode_true_cases_witness :
    (blankFrame.colorTable.length = 16) ∧
    ((applySubCode blankFrame (mkSubCode 9 30 [0x3C, 0x00])).1 = true) ∧
    ((mkSubCode 9 30 [0x3C, 0x00]).command &&& 0x3F = 9 ∧
      (((mkSubCode 9 30 [0x3C, 0x00]).instruction &&& 0x3F = 1 ∨
          (mkSubCode 9 30 [0x3C, 0x00]).instruction &&& 0x3F = 2 ∨
          (mkSubCode 9 30 [0x3C, 0x00]).instruction &&& 0x3F = 6 ∨
          (mkSubCode 9 30 [0x3C, 0x00]).instruction &&& 0x3F = 20 ∨
          (mkSubCode 9 30 [0x3C, 0x00]).instruction &&& 0x3F = 24 ∨
          (mkSubCode 9 30 [0x3C, 0x00]).instruction &&& 0x3F = 38) ∨
        (((mkSubCode 9 30 [0x3C, 0x00]).instruction &&& 0x3F = 30 ∨
            (mkSubCode 9 30 [0x3C, 0x00]).instruction &&& 0x3F = 31) ∧
          (applySubCode blankFrame (mkSubCode 9 30 [0x3C, 0x00])).2.colorTable
            ≠ blankFrame.colorTable))) :=
  ⟨by decide, by decide,
    applySubCode_true_cases blankFrame (mkSubCode 9 30 [0x3C, 0x00]) (by decide) (by decide)⟩

/-- C19: with `command & 0x3F = 9` and a masked instruction that is none of 1, 2, 6, 20, 24,
30, 31, 38 (define-transparent, 28, included), `applySubCode` returns `false` and leaves the
pixel buffer, the palette and both scroll offsets as they were. -/
theorem applySubCode_unrecognised_instruction (f : CdgImageFrame) (p : CDG_SubCode)
    (hc : p.command &&& 0x3F = 9)
    (h1 : p.instruction &&& 0x3F ≠ 1) (h2 : p.instruction &&& 0x3F ≠ 2)
    (h6 : p.instruction &&& 0x3F ≠ 6) (h20 : p.instruction &&& 0x3F ≠ 20)
    (h24 : p.instruction &&& 0x3F ≠ 24) (h30 : p.instruction &&& 0x3F ≠ 30)
    (h31 : p.instruction &&& 0x3F ≠ 31) (h38 : p.instruction &&& 0x3F ≠ 38) :
    (applySubCode f p).1 = false ∧
    (applySubCode f p).2.bits = f.bits ∧
    (applySubCode f p).2.colorTable = f.colorTable ∧
    (applySubCode f p).2.m_curHOffset = f.m_curHOffset ∧
    (applySubCode f p).2.m_curVOffset = f.m_curVOffset := by
  rw [applySubCode_of_command f p hc, dispatch_unrecognised f p h1 h2 h6 h20 h24 h30 h31 h38]
  exact ⟨rfl, rfl, rfl, rfl, rfl⟩

/-- The statement of C19 for the define-transparent instruction 28 on the sample frame. -/
theorem applySubCode_unrecognised_instruction_witness :
    ((mkSubCode 9 28 [1, 2, 3]).command &&& 0x3F = 9) ∧
    ((mkSubCode 9 28 [1, 2, 3]).instruction &&& 0x3F ≠ 1) ∧
    ((mkSubCode 9 28 [1, 2, 3]).instruction &&& 0x3F ≠ 2) ∧
    ((mkSubCode 9 28 [1, 2, 3]).instruction &&& 0x3F ≠ 6) ∧
    ((mkSubCode 9 28 [1, 2, 3]).instruction &&& 0x3F ≠ 20) ∧
    ((mkSubCode 9 28 [1, 2, 3]).instruction &&& 0x3F ≠ 24) ∧
    ((mkSubCode 9 28 [1, 2, 3]).instruction &&& 0x3F ≠ 30) ∧
    ((mkSubCode 9 28 [1, 2, 3]).instruction &&& 0x3F ≠ 31) ∧
    ((mkSubCode 9 28 [1, 2, 3]).instruction &&& 0x3F ≠ 38) ∧
    (applySubCode sampleFrame (mkSubCode 9 28 [1, 2, 3])).1 = false ∧
    (applySubCode sampleFrame (mkSubCode 9 28 [1, 2, 3])).2.bits = sampleFrame.bits ∧
    (applySubCode sampleFrame (mkSubCode 9 28 [1, 2, 3])).2.colorTable
      = sampleFrame.colorTable ∧
    (applySubCode sampleFrame (mkSubCode 9 28 [1, 2, 3])).2.m_curHOffset
      = sampleFrame.m_curHOffset ∧
    (applySubCode sampleFrame (mkSubCode 9 28 [1, 2, 3])).2.m_curVOffset
      = sampleFrame.m_curVOffset :=
  ⟨by decide, by decide, by decide, by decide, by decide, by decide, by decide, by decide,
    by decide,
    applySubCode_unrecognised_instruction sampleFrame (mkSubCode 9 28 [1, 2, 3])
      (by decide) (by decide) (by decide) (by decide) (by decide) (by decide) (by decide)
      (by decide) (by decide)⟩

/-- C20: a freshly constructed canvas has all 300x216 pixels equal to 0, a palette of exactly
16 entries each opaque black, and both scroll offsets 0; `copyCroppedImagedata` on it yields
288x192 pixels all 0, followed at offset `288*192` by those 16 palette entries. -/
theorem construct_fresh (mem0 : Mem) (lastCmdWasMempreset0 : Bool) (dest : Mem) :
    (∀ r x, r < 216 → x < 300 →
      (CdgImageFrame.construct mem0 lastCmdWasMempreset0).pixel r x = 0) ∧
    (CdgImageFrame.construct mem0 lastCmdWasMempreset0).colorTable.length = 16 ∧
    (∀ k, k < 16 →
      (CdgImageFrame.construct mem0 lastCmdWasMempreset0).colorTable[k]?
        = some (QColor.rgb ⟨0, 0, 0⟩)) ∧
    QColor.rgb ⟨0, 0, 0⟩ = 0xFF000000 ∧
    (CdgImageFrame.construct mem0 lastCmdWasMempreset0).m_curHOffset = 0 ∧
    (CdgImageFrame.construct mem0 lastCmdWasMempreset0).m_curVOffset = 0 ∧
    (∀ y x, y < 192 → x < 288 →
      (copyCroppedImagedata (CdgImageFrame.construct mem0 lastCmdWasMempreset0) dest).pixels
        (y * 288 + x) = 0) ∧
    (copyCroppedImagedata (CdgImageFrame.construct mem0 lastCmdWasMempreset0) dest).destpos
      = 288 * 192 ∧
    (copyCroppedImagedata (CdgImageFrame.construct mem0 lastCmdWasMempreset0) dest).palette
      = List.replicate 16 0xFF000000 := by
  have hpix : ∀ r x, r < 216 → x < 300 →
      (CdgImageFrame.construct mem0 lastCmdWasMempreset0).pixel r x = 0 := by
    intro r x hr hx
    exact imageFill_apply mem0 0 r x hr hx
  refine ⟨hpix, ?_, ?_, by decide, rfl, rfl, ?_, ?_, ?_⟩
  · rw [construct_colorTable]
    rfl
  · intro k hk
    rw [construct_colorTable]
    interval_cases k <;> rfl
  · intro y x hy hx
    rw [Nat.mul_comm y 288, copyCropped_pixels _ dest y x hy hx]
    exact hpix _ _ (by show 12 + y + 0 < 216; omega) (by show 6 + 0 + x < 300; omega)
  · exact (cropLoop_closed _ dest 192).1
  · exact construct_colorTable mem0 lastCmdWasMempreset0

/-- C21: for a packet with `command & 0x3F = 9`, a scroll command (instruction 20 or 24)
leaves the stored horizontal offset equal to `data[1] & 0x07` and the stored vertical offset
equal to `data[2] & 0x0F`, whatever shift it commands; every other packet leaves both stored
offsets as they were. -/
theorem applySubCode_offsets (f : CdgImageFrame) (p : CDG_SubCode)
    (hc : p.command &&& 0x3F = 9) :
    ((p.instruction &&& 0x3F = 20 ∨ p.instruction &&& 0x3F = 24) →
      (applySubCode f p).2.m_curHOffset = p.data 1 &&& 0x07 ∧
      (applySubCode f p).2.m_curVOffset = p.data 2 &&& 0x0F) ∧
    (¬ (p.instruction &&& 0x3F = 20 ∨ p.instruction &&& 0x3F = 24) →
      (applySubCode f p).2.m_curHOffset = f.m_curHOffset ∧
      (applySubCode f p).2.m_curVOffset = f.m_curVOffset) := by
  constructor
  · intro hi
    rw [applySubCode_scroll f p hc hi]
    dsimp only
    rw [(cmdScroll_offsets f _ _).1, (cmdScroll_offsets f _ _).2, hSOffset_ofData,
      vSOffset_ofData]
    exact ⟨rfl, rfl⟩
  · intro hi
    rw [applySubCode_of_command f p hc]
    exact dispatch_offsets f p (fun e => hi (Or.inl e)) (fun e => hi (Or.inr e))

/-- The statement of C21 on the sample frame (offsets 3 and 7): a scroll preset with
`data[1] = 0x25`, `data[2] = 0x1B` stores offsets 5 and 11, and a tile block keeps 3 and 7. -/
theorem applySubCode_offsets_witness :
    ((mkSubCode 9 20 [0, 0x25, 0x1B]).command &&& 0x3F = 9) ∧
    ((mkSubCode 9 6 [1, 2, 3, 4, 0x3F]).command &&& 0x3F = 9) ∧
    (applySubCode sampleFrame (mkSubCode 9 20 [0, 0x25, 0x1B])).2.m_curHOffset = 5 ∧
    (applySubCode sampleFrame (mkSubCode 9 20 [0, 0x25, 0x1B])).2.m_curVOffset = 11 ∧
    (applySubCode sampleFrame (mkSubCode 9 6 [1, 2, 3, 4, 0x3F])).2.m_curHOffset = 3 ∧
    (applySubCode sampleFrame (mkSubCode 9 6 [1, 2, 3, 4, 0x3F])).2.m_curVOffset = 7 :=
  ⟨by decide, by decide,
    ((applySubCode_offsets sampleFrame (mkSubCode 9 20 [0, 0x25, 0x1B]) (by decide)).1
      (Or.inl (by decide))).1,
    ((applySubCode_offsets sampleFrame (mkSubCode 9 20 [0, 0x25, 0x1B]) (by decide)).1
      (Or.inl (by decide))).2,
    ((applySubCode_offsets sampleFrame (mkSubCode 9 6 [1, 2, 3, 4, 0x3F]) (by decide)).2
      (by decide)).1,
    ((applySubCode_offsets sampleFrame (mkSubCode 9 6 [1, 2, 3, 4, 0x3F]) (by decide)).2
      (by decide)).2⟩

/-- C22 (evaluation of the code at the failing input): on the blank frame, the packet with
command byte `0x09` and instruction byte `0x41` has masked instruction `0x41 & 0x3F = 1`, is
run as a memory preset (the call returns `true` and pixel (0,0) becomes 1), and yet the flag
after the call is `false`. -/
theorem applySubCode_flag_unmasked :
    ((mkSubCode 9 0x41 [1, 0]).command &&& 0x3F = 9) ∧
    ((mkSubCode 9 0x41 [1, 0]).instruction &&& 0x3F = 1) ∧
    (applySubCode blankFrame (mkSubCode 9 0x41 [1, 0])).1 = true ∧
    (applySubCode blankFrame (mkSubCode 9 0x41 [1, 0])).2.pixel 0 0 = 1 ∧
    (applySubCode blankFrame (mkSubCode 9 0x41 [1, 0])).2.m_lastCmdWasMempreset = false := by
  refine ⟨by decide, by decide, ?_, ?_, ?_⟩
  · decide
  · decide
  · decide

/-- C23 (counterexample): on the sample frame, the scroll preset with fill colour 5 that
commands a left scroll only leaves pixel (0,0) of the leftmost band equal to the old pixel
(0,6) = 6, not to the fill colour 5. -/
theorem applySubCode_scrollPreset_left_band_not_filled :
    ¬ (∀ (f : CdgImageFrame) (p : CDG_SubCode),
      p.command &&& 0x3F = 9 → p.instruction &&& 0x3F = 20 →
      (p.data 1 &&& 0x30) >>> 4 = 2 →
      (p.data 2 &&& 0x30) >>> 4 ≠ 1 → (p.data 2 &&& 0x30) >>> 4 ≠ 2 →
      ∀ r x, r < 216 → x < 6 → (applySubCode f p).2.pixel r x = p.data 0 &&& 0x0F) := by
  intro hall
  have h := hall sampleFrame (mkSubCode 9 20 [5, 0x20, 0]) (by decide) (by decide)
    (by decide) (by decide) (by decide) 0 0 (by decide) (by decide)
  rw [applySubCode_scrollPreset_left_pixels sampleFrame (mkSubCode 9 20 [5, 0x20, 0])
    (by decide) (by decide) (by decide) (by decide) (by decide) 0 0 (by decide) (by decide)]
    at h
  revert h
  decide

/-- C23 (amended): after a scroll preset that commands a left scroll only, in every row the
leftmost band (columns 0-5) holds the old content of columns 6-11 and
`new[r][x] = old[r][x+6]` for the columns `x` in 12..293 as well: the content is shifted left
by 6 pixels and the original leftmost band is discarded. -/
theorem applySubCode_scrollPreset_left_shifts (f : CdgImageFrame) (p : CDG_SubCode)
    (hc : p.command &&& 0x3F = 9) (hi : p.instruction &&& 0x3F = 20)
    (hh : (p.data 1 &&& 0x30) >>> 4 = 2)
    (hv1 : (p.data 2 &&& 0x30) >>> 4 ≠ 1) (hv2 : (p.data 2 &&& 0x30) >>> 4 ≠ 2)
    (r : Nat) (hr : r < 216) :
    (∀ x, x < 6 → (applySubCode f p).2.pixel r x = f.pixel r (x + 6)) ∧
    (∀ x, 12 ≤ x → x < 294 → (applySubCode f p).2.pixel r x = f.pixel r (x + 6)) := by
  constructor
  · intro x hx
    rw [applySubCode_scrollPreset_left_pixels f p hc hi hh hv1 hv2 r x hr (by omega)]
    have hn : ¬ (6 ≤ x ∧ x < 12) := by omega
    have hl : x < 294 := by omega
    rw [if_neg hn, if_pos hl]
  · intro x hx12 hx
    rw [applySubCode_scrollPreset_left_pixels f p hc hi hh hv1 hv2 r x hr (by omega)]
    have hn : ¬ (6 ≤ x ∧ x < 12) := by omega
    rw [if_neg hn, if_pos hx]

/-- The amended statement of C23 on the sample frame with fill colour 5, row 2: pixel (2,3) is
the old pixel (2,9) and pixel (2,100) is the old pixel (2,106). -/
theorem applySubCode_scrollPreset_left_shifts_witness :
    ((mkSubCode 9 20 [5, 0x20, 0]).command &&& 0x3F = 9) ∧
    ((mkSubCode 9 20 [5, 0x20, 0]).instruction &&& 0x3F = 20) ∧
    (((mkSubCode 9 20 [5, 0x20, 0]).data 1 &&& 0x30) >>> 4 = 2) ∧
    (((mkSubCode 9 20 [5, 0x20, 0]).data 2 &&& 0x30) >>> 4 ≠ 1) ∧
    (((mkSubCode 9 20 [5, 0x20, 0]).data 2 &&& 0x30) >>> 4 ≠ 2) ∧
    (2 < 216) ∧
    (applySubCode sampleFrame (mkSubCode 9 20 [5, 0x20, 0])).2.pixel 2 3
      = sampleFrame.pixel 2 9 ∧
    (applySubCode sampleFrame (mkSubCode 9 20 [5, 0x20, 0])).2.pixel 2 100
      = sampleFrame.pixel 2 106 :=
  ⟨by decide, by decide, by decide, by decide, by decide, by decide,
    (applySubCode_scrollPreset_left_shifts sampleFrame (mkSubCode 9 20 [5, 0x20, 0])
      (by decide) (by decide) (by decide) (by decide) (by decide) 2 (by decide)).1
        3 (by decide),
    (applySubCode_scrollPreset_left_shifts sampleFrame (mkSubCode 9 20 [5, 0x20, 0])
      (by decide) (by decide) (by decide) (by decide) (by decide) 2 (by decide)).2
        100 (by decide) (by decide)⟩

/-- C24 (counterexample): on the stripe frame (pixel byte `a % 11`), the scroll copy that
commands a left scroll only puts the old pixel (0,6) = 6 at pixel (0,0) of the leftmost band,
not the old pixel (0,294) = 8 of the rightmost band. -/
theorem applySubCode_scrollCopy_left_band_not_from_right :
    ¬ (∀ (f : CdgImageFrame) (p : CDG_SubCode),
      p.command &&& 0x3F = 9 → p.instruction &&& 0x3F = 24 →
      (p.data 1 &&& 0x30) >>> 4 = 2 →
      (p.data 2 &&& 0x30) >>> 4 ≠ 1 → (p.data 2 &&& 0x30) >>> 4 ≠ 2 →
      ∀ r x, r < 216 → x < 6 → (applySubCode f p).2.pixel r x = f.pixel r (294 + x)) := by
  intro hall
  have hc : (mkSubCode 9 24 [0, 0x20, 0]).command &&& 0x3F = 9 := by decide
  have hi : (mkSubCode 9 24 [0, 0x20, 0]).instruction &&& 0x3F = 24 := by decide
  have hne : ¬ ((mkSubCode 9 24 [0, 0x20, 0]).instruction &&& 0x3F = 20) := by decide
  have h := hall stripeFrame (mkSubCode 9 24 [0, 0x20, 0]) hc hi
    (by decide) (by decide) (by decide) 0 0 (by decide) (by decide)
  simp only [CdgImageFrame.pixel, scanLine, bytesPerLine] at h
  rw [applySubCode_scroll_bits _ _ hc (Or.inr hi), if_neg hne,
    scrollVertical_idle _ _ _ (by decide) (by decide),
    scrollHorizontal_copy _ _ 0 0 (by decide) (by decide)] at h
  revert h
  decide

/-- C24 (amended): after a scroll copy that commands a left scroll only, in every row the
rightmost band (columns 294-299) holds the pixel data that was in the leftmost band (columns
0-5) before the shift, and the row's new content is a rotation of its old content:
`new[r][x] = old[r][(x + 6) mod 300]` for every column `x`. -/
theorem applySubCode_scrollCopy_left_rotates (f : CdgImageFrame) (p : CDG_SubCode)
    (hc : p.command &&& 0x3F = 9) (hi : p.instruction &&& 0x3F = 24)
    (hh : (p.data 1 &&& 0x30) >>> 4 = 2)
    (hv1 : (p.data 2 &&& 0x30) >>> 4 ≠ 1) (hv2 : (p.data 2 &&& 0x30) >>> 4 ≠ 2)
    (r : Nat) (hr : r < 216) :
    (∀ x, x < 6 → (applySubCode f p).2.pixel r (294 + x) = f.pixel r x) ∧
    (∀ x, x < 300 → (applySubCode f p).2.pixel r x = f.pixel r ((x + 6) % 300)) := by
  have hne : ¬ (p.instruction &&& 0x3F = 20) := by omega
  have key : ∀ x, x < 300 →
      (applySubCode f p).2.pixel r x = f.pixel r ((x + 6) % 300) := by
    intro x hx
    simp only [CdgImageFrame.pixel, scanLine, bytesPerLine]
    rw [applySubCode_scroll_bits f p hc (Or.inr hi), if_neg hne,
      scrollVertical_idle _ _ _ (by rw [vSCmd_ofData]; exact hv1)
        (by rw [vSCmd_ofData]; exact hv2),
      scrollHorizontal_copy _ _ r x hr hx, hSCmd_ofData, if_pos hh]
  refine ⟨?_, key⟩
  intro x hx
  rw [key (294 + x) (by omega)]
  have e : (294 + x + 6) % 300 = x := by omega
  rw [e]

/-- The amended statement of C24 on the stripe frame, row 1: pixel (1,296) is the old pixel
(1,2) and pixel (1,10) is the old pixel (1,16). -/
theorem applySubCode_scrollCopy_left_rotates_witness :
    ((mkSubCode 9 24 [0, 0x20, 0]).command &&& 0x3F = 9) ∧
    ((mkSubCode 9 24 [0, 0x20, 0]).instruction &&& 0x3F = 24) ∧
    (((mkSubCode 9 24 [0, 0x20, 0]).data 1 &&& 0x30) >>> 4 = 2) ∧
    (((mkSubCode 9 24 [0, 0x20, 0]).data 2 &&& 0x30) >>> 4 ≠ 1) ∧
    (((mkSubCode 9 24 [0, 0x20, 0]).data 2 &&& 0x30) >>> 4 ≠ 2) ∧
    (1 < 216) ∧
    (applySubCode stripeFrame (mkSubCode 9 24 [0, 0x20, 0])).2.pixel 1 296
      = stripeFrame.pixel 1 2 ∧
    (applySubCode stripeFrame (mkSubCode 9 24 [0, 0x20, 0])).2.pixel 1 10
      = stripeFrame.pixel 1 16 :=
  ⟨by decide, by decide, by decide, by decide, by decide, by decide,
    (applySubCode_scrollCopy_left_rotates stripeFrame (mkSubCode 9 24 [0, 0x20, 0])
      (by decide) (by decide) (by decide) (by decide) (by decide) 1 (by decide)).1
        2 (by decide),
    (applySubCode_scrollCopy_left_rotates stripeFrame (mkSubCode 9 24 [0, 0x20, 0])
      (by decide) (by decide) (by decide) (by decide) (by decide) 1 (by decide)).2
        10 (by decide)⟩

/-- C25: a scroll packet (preset or copy) whose horizontal command `(data[1] & 0x30) >> 4` and
vertical command `(data[2] & 0x30) >> 4` are each neither 1 nor 2 leaves every pixel and the
palette as they were. -/
theorem applySubCode_scroll_without_shift (f : CdgImageFrame) (p : CDG_SubCode)
    (hc : p.command &&& 0x3F = 9)
    (hi : p.instruction &&& 0x3F = 20 ∨ p.instruction &&& 0x3F = 24)
    (hh1 : (p.data 1 &&& 0x30) >>> 4 ≠ 1) (hh2 : (p.data 1 &&& 0x30) >>> 4 ≠ 2)
    (hv1 : (p.data 2 &&& 0x30) >>> 4 ≠ 1) (hv2 : (p.data 2 &&& 0x30) >>> 4 ≠ 2) :
    (applySubCode f p).2.bits = f.bits ∧
    (applySubCode f p).2.colorTable = f.colorTable := by
  constructor
  · rw [applySubCode_scroll_bits f p hc hi,
      scrollVertical_idle _ _ _ (by rw [vSCmd_ofData]; exact hv1)
        (by rw [vSCmd_ofData]; exact hv2),
      scrollHorizontal_idle _ _ _ (by rw [hSCmd_ofData]; exact hh1)
        (by rw [hSCmd_ofData]; exact hh2)]
  · rw [applySubCode_scroll f p hc hi]
    rfl

/-- The statement of C25 on the sample frame for a scroll preset with both commands equal to
the undefined value 3 (`data[1] = 0x32`, `data[2] = 0x35`). -/
theorem applySubCode_scroll_without_shift_witness :
    ((mkSubCode 9 20 [5, 0x32, 0x35]).command &&& 0x3F = 9) ∧
    ((mkSubCode 9 20 [5, 0x32, 0x35]).instruction &&& 0x3F = 20 ∨
      (mkSubCode 9 20 [5, 0x32, 0x35]).instruction &&& 0x3F = 24) ∧
    (((mkSubCode 9 20 [5, 0x32, 0x35]).data 1 &&& 0x30) >>> 4 ≠ 1) ∧
    (((mkSubCode 9 20 [5, 0x32, 0x35]).data 1 &&& 0x30) >>> 4 ≠ 2) ∧
    (((mkSubCode 9 20 [5, 0x32, 0x35]).data 2 &&& 0x30) >>> 4 ≠ 1) ∧
    (((mkSubCode 9 20 [5, 0x32, 0x35]).data 2 &&& 0x30) >>> 4 ≠ 2) ∧
    (applySubCode sampleFrame (mkSubCode 9 20 [5, 0x32, 0x35])).2.bits = sampleFrame.bits ∧
    (applySubCode sampleFrame (mkSubCode 9 20 [5, 0x32, 0x35])).2.colorTable
      = sampleFrame.colorTable :=
  ⟨by decide, Or.inl (by decide), by decide, by decide, by decide, by decide,
    applySubCode_scroll_without_shift sampleFrame (mkSubCode 9 20 [5, 0x32, 0x35])
      (by decide) (Or.inl (by decide)) (by decide) (by decide) (by decide) (by decide)⟩

/-- C27 (evaluation of the code at the failing input): after the single scroll-copy packet with
`data[1] = 0x07`, `data[2] = 0x0F` on a freshly constructed canvas, the stored offsets are 7
and 15; for `y = 191` the source row is `12 + 191 + 15 = 218`, past row 215, the source columns
end at `6 + 7 + 287 = 300`, past column 299, and the last output byte of
`copyCroppedImagedata` is read at byte offset 65700 of the image memory, past its 64800
bytes. -/
theorem copyCroppedImagedata_reads_past_image :
    (12 + 191 + (applySubCodes (CdgImageFrame.construct (fun _ => 0) false)
      [mkSubCode 9 24 [0, 0x07, 0x0F]]).m_curVOffset = 218) ∧
    (6 + (applySubCodes (CdgImageFrame.construct (fun _ => 0) false)
      [mkSubCode 9 24 [0, 0x07, 0x0F]]).m_curHOffset + 287 = 300) ∧
    (copyCroppedImagedata (applySubCodes (CdgImageFrame.construct (fun _ => 0) false)
        [mkSubCode 9 24 [0, 0x07, 0x0F]]) (fun _ => 0)).pixels (288 * 191 + 287)
      = (applySubCodes (CdgImageFrame.construct (fun _ => 0) false)
        [mkSubCode 9 24 [0, 0x07, 0x0F]]).bits 65700 ∧
    bytesPerLine * FRAME_FULL_HEIGHT ≤ 65700 := by
  have hv : (applySubCodes (CdgImageFrame.construct (fun _ => 0) false)
      [mkSubCode 9 24 [0, 0x07, 0x0F]]).m_curVOffset = 15 := by decide
  have hh : (applySubCodes (CdgImageFrame.construct (fun _ => 0) false)
      [mkSubCode 9 24 [0, 0x07, 0x0F]]).m_curHOffset = 7 := by decide
  refine ⟨by rw [hv], by rw [hh], ?_, by decide⟩
  rw [copyCropped_pixels _ _ 191 287 (by decide) (by decide), hv, hh]
  rfl

/-- C28 (evaluation of the code at the failing input): on the blank frame (all pixels 0, both
stored offsets 0), the first byte of the last output row of `copyCroppedImagedata`, byte
`288 * 191`, is 0 before the border preset with colour 5 and 5 after it: it is read from
canvas row 203, which the border preset paints. -/
theorem copyCroppedImagedata_after_borderPreset :
    (blankFrame.m_curHOffset = 0) ∧ (blankFrame.m_curVOffset = 0) ∧
    ((mkSubCode 9 2 [5]).command &&& 0x3F = 9) ∧
    ((mkSubCode 9 2 [5]).instruction &&& 0x3F = 2) ∧
    (copyCroppedImagedata blankFrame (fun _ => 0)).pixels (288 * 191 + 0) = 0 ∧
    (copyCroppedImagedata (applySubCode blankFrame (mkSubCode 9 2 [5])).2
      (fun _ => 0)).pixels (288 * 191 + 0) = 5 := by
  have hc : (mkSubCode 9 2 [5]).command &&& 0x3F = 9 := by decide
  have hi : (mkSubCode 9 2 [5]).instruction &&& 0x3F = 2 := by decide
  refine ⟨rfl, rfl, hc, hi, ?_, ?_⟩
  · rw [copyCropped_pixels _ _ 191 0 (by decide) (by decide)]
    rfl
  · rw [copyCropped_pixels _ _ 191 0 (by decide) (by decide)]
    have hf : applySubCode blankFrame (mkSubCode 9 2 [5]) =
        (true, { cmdBorderPreset blankFrame (CdgBorderPresetData.ofData (mkSubCode 9 2 [5]).data)
          with m_lastCmdWasMempreset := decide ((mkSubCode 9 2 [5]).instruction = 1) }) := by
      rw [applySubCode_of_command _ _ hc, dispatch_borderPreset _ _ hi]
    rw [hf, cmdBorderPreset_bits]
    simp only [CdgImageFrame.pixel, scanLine, bytesPerLine]
    rw [borderLoop_closed]
    decide

/-- C29: a scroll-copy packet commanding a left scroll (`hSCmd = 2`) followed by a scroll-copy
packet commanding a right scroll (`hSCmd = 1`), both without vertical command, restores the
pixel buffer; so does an up scroll (`vSCmd = 2`) followed by a down scroll (`vSCmd = 1`), both
without horizontal command. -/
theorem applySubCode_scrollCopy_back_and_forth (f : CdgImageFrame) (p1 p2 : CDG_SubCode)
    (hc1 : p1.command &&& 0x3F = 9) (hi1 : p1.instruction &&& 0x3F = 24)
    (hc2 : p2.command &&& 0x3F = 9) (hi2 : p2.instruction &&& 0x3F = 24) :
    ((p1.data 1 &&& 0x30) >>> 4 = 2 → (p2.data 1 &&& 0x30) >>> 4 = 1 →
      (p1.data 2 &&& 0x30) >>> 4 ≠ 1 → (p1.data 2 &&& 0x30) >>> 4 ≠ 2 →
      (p2.data 2 &&& 0x30) >>> 4 ≠ 1 → (p2.data 2 &&& 0x30) >>> 4 ≠ 2 →
      (applySubCode (applySubCode f p1).2 p2).2.bits = f.bits) ∧
    ((p1.data 2 &&& 0x30) >>> 4 = 2 → (p2.data 2 &&& 0x30) >>> 4 = 1 →
      (p1.data 1 &&& 0x30) >>> 4 ≠ 1 → (p1.data 1 &&& 0x30) >>> 4 ≠ 2 →
      (p2.data 1 &&& 0x30) >>> 4 ≠ 1 → (p2.data 1 &&& 0x30) >>> 4 ≠ 2 →
      (applySubCode (applySubCode f p1).2 p2).2.bits = f.bits) := by
  have hne1 : ¬ (p1.instruction &&& 0x3F = 20) := by omega
  have hne2 : ¬ (p2.instruction &&& 0x3F = 20) := by omega
  have hbits : (applySubCode (applySubCode f p1).2 p2).2.bits =
      scrollVertical (CdgScrollCmdData.ofData p2.data) ScrollType.ScrollCopy
        (scrollHorizontal (CdgScrollCmdData.ofData p2.data) ScrollType.ScrollCopy
          (scrollVertical (CdgScrollCmdData.ofData p1.data) ScrollType.ScrollCopy
            (scrollHorizontal (CdgScrollCmdData.ofData p1.data) ScrollType.ScrollCopy
              f.bits))) := by
    rw [applySubCode_scroll_bits _ p2 hc2 (Or.inr hi2), if_neg hne2,
      applySubCode_scroll_bits f p1 hc1 (Or.inr hi1), if_neg hne1]
  rw [hbits]
  constructor
  · intro h1 h2 v11 v12 v21 v22
    rw [scrollVertical_idle (CdgScrollCmdData.ofData p2.data) _ _
        (by rw [vSCmd_ofData]; exact v21) (by rw [vSCmd_ofData]; exact v22),
      scrollVertical_idle (CdgScrollCmdData.ofData p1.data) _ _
        (by rw [vSCmd_ofData]; exact v11) (by rw [vSCmd_ofData]; exact v12)]
    exact scrollHorizontal_left_right _ _ f.bits (by rw [hSCmd_ofData]; exact h1)
      (by rw [hSCmd_ofData]; exact h2)
  · intro v1 v2 h11 h12 h21 h22
    rw [scrollHorizontal_idle (CdgScrollCmdData.ofData p2.data) _ _
        (by rw [hSCmd_ofData]; exact h21) (by rw [hSCmd_ofData]; exact h22),
      scrollHorizontal_idle (CdgScrollCmdData.ofData p1.data) _ _
        (by rw [hSCmd_ofData]; exact h11) (by rw [hSCmd_ofData]; exact h12)]
    exact scrollVertical_up_down _ _ f.bits (by rw [vSCmd_ofData]; exact v1)
      (by rw [vSCmd_ofData]; exact v2)

/-- The statement of C29 on the stripe frame: left (`data[1] = 0x20`) then right
(`data[1] = 0x10`), and up (`data[2] = 0x20`) then down (`data[2] = 0x10`). -/
theorem applySubCode_scrollCopy_back_and_forth_witness :
    ((mkSubCode 9 24 [0, 0x20, 0]).command &&& 0x3F = 9) ∧
    ((mkSubCode 9 24 [0, 0x20, 0]).instruction &&& 0x3F = 24) ∧
    ((mkSubCode 9 24 [0, 0x10, 0]).command &&& 0x3F = 9) ∧
    ((mkSubCode 9 24 [0, 0x10, 0]).instruction &&& 0x3F = 24) ∧
    (applySubCode (applySubCode stripeFrame (mkSubCode 9 24 [0, 0x20, 0])).2
      (mkSubCode 9 24 [0, 0x10, 0])).2.bits = stripeFrame.bits ∧
    (applySubCode (applySubCode stripeFrame (mkSubCode 9 24 [0, 0, 0x20])).2
      (mkSubCode 9 24 [0, 0, 0x10])).2.bits = stripeFrame.bits :=
  ⟨by decide, by decide, by decide, by decide,
    (applySubCode_scrollCopy_back_and_forth stripeFrame (mkSubCode 9 24 [0, 0x20, 0])
      (mkSubCode 9 24 [0, 0x10, 0]) (by decide) (by decide) (by decide) (by decide)).1
        (by decide) (by decide) (by decide) (by decide) (by decide) (by decide),
    (applySubCode_scrollCopy_back_and_forth stripeFrame (mkSubCode 9 24 [0, 0, 0x20])
      (mkSubCode 9 24 [0, 0, 0x10]) (by decide) (by decide) (by decide) (by decide)).2
        (by decide) (by decide) (by decide) (by decide) (by decide) (by decide)⟩

/-- C30: in a canvas state whose memory-preset flag is set, a memory-preset packet with
instruction byte exactly 1 and nonzero repeat field makes `applySubCode` return `false`, leaves
pixels and palette as they were whatever the colour of the packet, and leaves the flag set;
hence after any run of such packets pixels and palette are still as they were, the flag is
still set and a further such packet returns `false`. A memory preset with instruction byte
exactly 1 always leaves the flag set, so this covers every run that follows one. -/
theorem applySubCode_repeat_run (f : CdgImageFrame)
    (hflag : f.m_lastCmdWasMempreset = true) :
    (∀ p : CDG_SubCode, p.command &&& 0x3F = 9 → p.instruction = 1 →
      p.data 1 &&& 0x0F ≠ 0 →
      (applySubCode f p).1 = false ∧
      (applySubCode f p).2.bits = f.bits ∧
      (applySubCode f p).2.colorTable = f.colorTable ∧
      (applySubCode f p).2.m_lastCmdWasMempreset = true) ∧
    (∀ ps : List CDG_SubCode,
      (∀ q, q ∈ ps → q.command &&& 0x3F = 9 ∧ q.instruction = 1 ∧ q.data 1 &&& 0x0F ≠ 0) →
      (applySubCodes f ps).bits = f.bits ∧
      (applySubCodes f ps).colorTable = f.colorTable ∧
      (applySubCodes f ps).m_lastCmdWasMempreset = true ∧
      ∀ p : CDG_SubCode, p.command &&& 0x3F = 9 → p.instruction = 1 →
        p.data 1 &&& 0x0F ≠ 0 → (applySubCode (applySubCodes f ps) p).1 = false) ∧
    (∀ (g : CdgImageFrame) (p : CDG_SubCode), p.command &&& 0x3F = 9 → p.instruction = 1 →
      (applySubCode g p).2.m_lastCmdWasMempreset = true) := by
  have hrun : ∀ ps : List CDG_SubCode,
      (∀ q, q ∈ ps → q.command &&& 0x3F = 9 ∧ q.instruction = 1 ∧ q.data 1 &&& 0x0F ≠ 0) →
      applySubCodes f ps = f := by
    intro ps
    induction ps with
    | nil =>
      intro _
      rfl
    | cons q qs ih =>
      intro hall
      obtain ⟨hc, hi, hrep⟩ := hall q (List.mem_cons_self q qs)
      show applySubCodes (applySubCode f q).2 qs = f
      rw [applySubCode_repeat f q hflag hc hi hrep]
      exact ih (fun r hr => hall r (List.mem_cons_of_mem q hr))
  refine ⟨?_, ?_, ?_⟩
  · intro p hc hi hrep
    rw [applySubCode_repeat f p hflag hc hi hrep]
    exact ⟨rfl, rfl, rfl, hflag⟩
  · intro ps hall
    rw [hrun ps hall]
    refine ⟨rfl, rfl, hflag, ?_⟩
    intro p hc hi hrep
    rw [applySubCode_repeat f p hflag hc hi hrep]
  · intro g p hc hi
    rw [applySubCode_of_command g p hc]
    exact decide_eq_true hi

/-- The statement of C30 on the stripe frame (flag set): the preset with colour 5 and repeat 1
returns `false` and changes nothing, and after a run of two such packets with colours 5 and 9
the pixel buffer is as before and the flag is still set. -/
theorem applySubCode_repeat_run_witness :
    (stripeFrame.m_lastCmdWasMempreset = true) ∧
    (applySubCode stripeFrame (mkSubCode 9 1 [5, 1])).1 = false ∧
    (applySubCode stripeFrame (mkSubCode 9 1 [5, 1])).2.bits = stripeFrame.bits ∧
    (applySubCodes stripeFrame [mkSubCode 9 1 [5, 1], mkSubCode 9 1 [9, 3]]).bits
      = stripeFrame.bits ∧
    (applySubCodes stripeFrame
      [mkSubCode 9 1 [5, 1], mkSubCode 9 1 [9, 3]]).m_lastCmdWasMempreset = true :=
  ⟨rfl,
    ((applySubCode_repeat_run stripeFrame rfl).1 (mkSubCode 9 1 [5, 1])
      (by decide) (by decide) (by decide)).1,
    ((applySubCode_repeat_run stripeFrame rfl).1 (mkSubCode 9 1 [5, 1])
      (by decide) (by decide) (by decide)).2.1,
    ((applySubCode_repeat_run stripeFrame rfl).2.1
      [mkSubCode 9 1 [5, 1], mkSubCode 9 1 [9, 3]]
      (by
        intro q hq
        simp only [List.mem_cons, List.mem_singleton, List.not_mem_nil, or_false] at hq
        rcases hq with rfl | rfl
        · exact ⟨by decide, by decide, by decide⟩
        · exact ⟨by decide, by decide, by decide⟩)).1,
    ((applySubCode_repeat_run stripeFrame rfl).2.1
      [mkSubCode 9 1 [5, 1], mkSubCode 9 1 [9, 3]]
      (by
        intro q hq
        simp only [List.mem_cons, List.mem_singleton, List.not_mem_nil, or_false] at hq
        rcases hq with rfl | rfl
        · exact ⟨by decide, by decide, by decide⟩
        · exact ⟨by decide, by decide, by decide⟩)).2.2.1⟩

end cdg
